import Mathlib

/-!
# Asset-drained detector: ledger accumulation and block-boundary pass

Shallow embedding of `src/asset-drained/src/agent.js`.

* The module-level variables `transfersObj` and `transfersCount` are the two
  fields of `State`; every handler takes the state and returns the new one.
* `chainId` and `isRelevantChain`, written once at start-up, form `Config`.
* Everything imported from `./helper`, `./address-type`, `forta-agent-tools`
  and `bot-alert-rate` is absent from the sources and is taken as a parameter:
  `hashCode` (an argument of `handleTransaction`), `USD_VALUE_THRESHOLD` and the
  asynchronous collaborators (`Collaborators`).  A rejected promise or a thrown
  exception is `Except.error`.
* `ethers.BigNumber` is an arbitrary-precision integer: ledger values are `Int`,
  `uint256` payloads (event values, balances, total supply) are `Nat`.
* Block numbers are JavaScript numbers; they are `Int` so that
  `blockNumber - 2` is not truncated at zero.
-/

namespace AssetDrained

/-! ## Data model -/

/-- Evidence record `{ hash, txFrom }` pushed into `txs[to]`. -/
structure TxRecord where
  hash : String
  txFrom : String
deriving DecidableEq, Repr

/-- Ledger entry, the object literal stored at `transfersObj[hash]`
(agent.js lines 59-65).  `txs` is a JavaScript object keyed by counterparty
address, kept as an association list in insertion order.  `symbol` is the
property that `handleBlock` attaches later (line 221); it is absent at
creation. -/
structure TransferEntry where
  asset : String
  address : String
  value : Int
  blockNumber : Int
  txs : List (String × List TxRecord)
  symbol : Option String
deriving DecidableEq, Repr

/-- The object `transfersObj`: property keys are the numbers returned by
`hashCode`, the list is in insertion order and holds each key at most once in
every ledger built by the handlers. -/
abbrev Ledger := List (Int × TransferEntry)

/-- Module-level mutable state of the agent. -/
structure State where
  transfersObj : Ledger
  transfersCount : Nat
deriving DecidableEq, Repr

/-- A decoded `Transfer(address indexed from, address indexed to, uint256 value)`
log as returned by `txEvent.filterLog(ERC20_TRANSFER_EVENT)`: `address` is the
emitting contract, the rest is `event.args`. -/
structure TransferLog where
  address : String
  fromAddr : String
  toAddr : String
  value : Nat
deriving DecidableEq, Repr

/-- The value of a call trace as the JSON string it arrives in: `0x` followed
by one or more hexadecimal digits, most significant first.  Leading zeros are
possible, so zero has the spellings `0x0`, `0x00` and so on. -/
structure HexQuantity where
  first : Fin 16
  rest : List (Fin 16)
deriving DecidableEq, Repr

/-- The string itself. -/
def HexQuantity.spelling (v : HexQuantity) : String :=
  "0x" ++ String.mk ((v.first :: v.rest).map fun d => Nat.digitChar d.val)

/-- The number that `BigNumber.from` reads from the string. -/
def HexQuantity.toNat (v : HexQuantity) : Nat :=
  (v.first :: v.rest).foldl (fun n d => 16 * n + d.val) 0

/-- The `action` of a call trace.  `value` is `none` when the property is
missing, else the hex string of the trace. -/
structure TraceAction where
  fromAddr : String
  toAddr : String
  value : Option HexQuantity
  callType : String
deriving DecidableEq, Repr

/-- The fields of a transaction event that `handleTransaction` reads. -/
structure TxEvent where
  hash : String
  txFrom : String
  blockNumber : Int
  logs : List TransferLog
  traces : List TraceAction
deriving DecidableEq, Repr

/-! ## JavaScript object operations on the ledger -/

/-- Property read `obj[k]`: `none` is `undefined`. -/
def lookup (k : Int) : Ledger → Option TransferEntry
  | [] => none
  | (k', e) :: l => if k = k' then some e else lookup k l

/-- In-place update of the object stored under `k`, as in
`transfersObj[k].value = ...`. -/
def modify (k : Int) (f : TransferEntry → TransferEntry) : Ledger → Ledger
  | [] => []
  | (k', e) :: l => if k = k' then (k', f e) :: l else (k', e) :: modify k f l

/-- The guarded creation `if (!transfersObj[k]) { transfersObj[k] = fresh }`:
an entry object is always truthy, so the guard is absence of the key. -/
def ensure (k : Int) (fresh : TransferEntry) (l : Ledger) : Ledger :=
  match lookup k l with
  | some _ => l
  | none => l ++ [(k, fresh)]

/-- The update of `txs[to]` (lines 79-83): start a one-element list or push at
the end of the existing one. -/
def pushTx (toAddr : String) (r : TxRecord) :
    List (String × List TxRecord) → List (String × List TxRecord)
  | [] => [(toAddr, [r])]
  | (k, rs) :: rest =>
    if toAddr = k then (k, rs ++ [r]) :: rest else (k, rs) :: pushTx toAddr r rest

/-- Integer-like property keys (array indices `0 .. 2^32 - 2`). -/
def isArrayIndex (k : Int) : Bool := decide (0 ≤ k) && decide (k < 4294967295)

/-- Insertion into a list sorted by ascending key. -/
def insertByKey (x : Int × TransferEntry) : Ledger → Ledger
  | [] => [x]
  | y :: l => if x.1 ≤ y.1 then x :: y :: l else y :: insertByKey x l

/-- Sort by ascending key. -/
def sortByKey : Ledger → Ledger
  | [] => []
  | x :: l => insertByKey x (sortByKey l)

/-- Property enumeration order of a JavaScript object: array-index keys in
ascending numeric order, then the other keys in insertion order. -/
def objectEntries (l : Ledger) : Ledger :=
  sortByKey (l.filter fun x => isArrayIndex x.1) ++ l.filter fun x => !isArrayIndex x.1

/-! ## handleTransaction -/

/-- `String.prototype.toLowerCase` on the ASCII text of an address. -/
def toLowerCase (s : String) : String := String.mk (s.data.map Char.toLower)

/-- The body shared by the two `forEach` callbacks (lines 55-85 with
`asset = event.address`, lines 92-123 with `asset = "native"`): create the two
entries on demand, subtract from the sender, record the evidence under the
receiver in the sender entry, add to the receiver. -/
def recordTransfer (hashCode : String → String → Int) (hash txFrom : String)
    (blockNumber : Int) (asset fromAddr toAddr : String) (value : Nat) (l : Ledger) : Ledger :=
  let hashFrom := hashCode fromAddr asset
  let hashTo := hashCode toAddr asset
  let l := ensure hashFrom
    { asset := asset, address := fromAddr, value := 0, blockNumber := blockNumber,
      txs := [], symbol := none } l
  let l := ensure hashTo
    { asset := asset, address := toAddr, value := 0, blockNumber := blockNumber,
      txs := [], symbol := none } l
  let l := modify hashFrom (fun e => { e with value := e.value - (value : Int) }) l
  let l := modify hashFrom
    (fun e => { e with txs := pushTx toAddr { hash := hash, txFrom := txFrom } e.txs }) l
  modify hashTo (fun e => { e with value := e.value + (value : Int) }) l

/-- The two `.filter` calls of lines 50-51. -/
def acceptsLog (e : TransferLog) : Bool :=
  decide (e.value ≠ 0) && decide (e.address ≠ toLowerCase e.fromAddr)

/-- The guard of line 91: `value && value !== "0x0" && callType === "call"`.
A hex string is not empty, hence truthy; the second test compares strings. -/
def acceptsTrace (t : TraceAction) : Bool :=
  match t.value with
  | none => false
  | some v => decide (v.spelling ≠ "0x0") && decide (t.callType = "call")

/-- Callback of the `forEach` over the filtered Transfer logs. -/
def applyLog (hashCode : String → String → Int) (hash txFrom : String) (blockNumber : Int)
    (l : Ledger) (e : TransferLog) : Ledger :=
  recordTransfer hashCode hash txFrom blockNumber e.address e.fromAddr e.toAddr e.value l

/-- Callback of `txEvent.traces.forEach`. -/
def applyTrace (hashCode : String → String → Int) (hash txFrom : String) (blockNumber : Int)
    (l : Ledger) (t : TraceAction) : Ledger :=
  if acceptsTrace t then
    recordTransfer hashCode hash txFrom blockNumber "native" t.fromAddr t.toAddr
      ((t.value.map HexQuantity.toNat).getD 0) l
  else l

/-- The ledger update of `handleTransaction`: the accepted logs first, then the
traces. -/
def accumulate (hashCode : String → String → Int) (l : Ledger) (tx : TxEvent) : Ledger :=
  let l := (tx.logs.filter acceptsLog).foldl (applyLog hashCode tx.hash tx.txFrom tx.blockNumber) l
  tx.traces.foldl (applyTrace hashCode tx.hash tx.txFrom tx.blockNumber) l

/-! ## handleBlock: types -/

/-- A thrown exception or rejected promise: a collaborator that rejects, or a
`TypeError` from reading a property of `undefined`. -/
inductive Failure where
  | rejected
  | typeError
deriving DecidableEq, Repr

/-- Modelled from the spec: the result of the address classifier, whose
enumeration `./address-type` is absent from the sources.  `EOA` and `Contract`
are the two classes of the spec; `Other` stands for any further value of the
richer classification, which `handleBlock` treats like `EOA`. -/
inductive AddressType where
  | EOA
  | Contract
  | Other
deriving DecidableEq, Repr

/-- One call of the multicall batch (lines 147-154). -/
inductive BalanceCall where
  | getEthBalance (address : String)
  | balanceOf (asset : String) (address : String)
deriving DecidableEq, Repr

/-- One element of the array returned by `tryAll`. -/
structure CallResult where
  success : Bool
  returnData : Nat
deriving DecidableEq, Repr

/-- The counting strategies of `bot-alert-rate`. -/
inductive ScanCountType where
  | CustomScanCount
  | TransferCount
deriving DecidableEq, Repr

inductive FindingSeverity where
  | Info
  | Low
  | Medium
  | High
  | Critical
deriving DecidableEq, Repr

inductive FindingType where
  | Exploit
  | Suspicious
  | Degraded
  | Info
deriving DecidableEq, Repr

/-- A label `{ entityType: EntityType.Address, entity, label, confidence }`. -/
structure Label where
  entity : String
  label : String
  confidence : ℚ
deriving DecidableEq, Repr

/-- The `metadata` object of a finding (lines 283-298). -/
structure Metadata where
  contract : String
  asset : String
  initiators : List String
  preDrainBalance : String
  postDrainBalance : String
  txHashes : List String
  blockNumber : Int
  anomalyScore : ℚ
deriving DecidableEq, Repr

structure Finding where
  name : String
  description : String
  alertId : String
  severity : FindingSeverity
  type : FindingType
  metadata : Metadata
  labels : List Label
  addresses : List String
deriving DecidableEq, Repr

/-- The module variables `chainId` and `isRelevantChain`, written at start-up. -/
structure Config where
  chainId : Nat
  isRelevantChain : Bool
deriving DecidableEq, Repr

/-- What `handleBlock` takes from outside the file: the multicall provider
(`tryAll`), the helpers `getAddressType`, `getAssetSymbol` and the constant
`USD_VALUE_THRESHOLD` of `./helper`, and the three injected functions
`calculateAlertRate`, `getValueInUsd`, `getTotalSupply`.  Each call is a function
of its arguments; the caches passed to the helpers are internal to them.
`getValueInUsd` receives the amount itself where the source passes its decimal
rendering; JavaScript numbers are rationals.  `scoreArrival blockNumber` tells
in which order the answers of `calculateAlertRate` arrive during the pass for
that block: it is the `rank` of `settleOrder`. -/
structure Collaborators where
  tryAll : List BalanceCall → Int → Except Failure (List CallResult)
  getAddressType : String → Except Failure AddressType
  getAssetSymbol : String → Except Failure String
  getValueInUsd : Int → Nat → Int → String → Except Failure ℚ
  getTotalSupply : Int → String → Except Failure Nat
  calculateAlertRate : Nat → String → String → ScanCountType → Nat → Except Failure ℚ
  scoreArrival : Int → Nat → Nat
  USD_VALUE_THRESHOLD : ℚ

/-- The handler `handleTransaction`: it updates the ledger and returns no
finding. -/
def handleTransaction (hashCode : String → String → Int) (s : State) (tx : TxEvent) :
    List Finding × State :=
  ([], { s with transfersObj := accumulate hashCode s.transfersObj tx })

/-- The handler built by `provideInitialize`, given the chain id that
`provider.getNetwork()` reports. -/
def provideInitialize (networkChainId : Nat) : Config :=
  { chainId := networkChainId
    isRelevantChain := [10, 250, 43114].contains networkChainId }

/-! ## handleBlock: stages -/

/-- The constant `ethers.constants.AddressZero`. -/
def AddressZero : String := "0x0000000000000000000000000000000000000000"

def BOT_ID : String := "0xe4a8660b5d79c0c64ac6bfd3b9871b77c98eaaa464aa555c00635e9d8b33f77f"

/-- The test `[56, 137, 250].includes(Number(chainId))`. -/
def usesLongLag (chainId : Nat) : Bool := [56, 137, 250].contains chainId

/-- Lines 140-145: the three `.filter` calls over `Object.values(transfersObj)`.
The property key is kept next to each entry: it is the identity of the entry
object, which `handleBlock` mutates later. -/
def selectTransfers (cfg : Config) (l : Ledger) (blockNumber : Int) : Ledger :=
  (((objectEntries l).filter fun t => decide (t.2.value < 0)).filter
    fun t => decide (t.2.address ≠ AddressZero)).filter
    fun t => if usesLongLag cfg.chainId then decide (t.2.blockNumber = blockNumber - 2)
      else decide (t.2.blockNumber = blockNumber - 1)

/-- Callback of `transfers.map` at lines 147-154. -/
def balanceCall (e : TransferEntry) : BalanceCall :=
  if e.asset = "native" then BalanceCall.getEthBalance e.address
  else BalanceCall.balanceOf e.asset e.address

/-- Block tag of the first `tryAll` (line 159). -/
def preDrainBlock (cfg : Config) (blockNumber : Int) : Int :=
  if usesLongLag cfg.chainId then blockNumber - 3 else blockNumber - 2

/-- Block tag of the second `tryAll` (line 163). -/
def postDrainBlock (cfg : Config) (blockNumber : Int) : Int :=
  if usesLongLag cfg.chainId then blockNumber - 2 else blockNumber - 1

/-- The condition of the `if` at lines 171-178, for the two results found at
one index. -/
def balanceCheck (pre post : CallResult) : Bool :=
  post.success && pre.success && decide (post.returnData < pre.returnData / 100)

/-- Lines 170-201: `transfers.filter((_, i) => ...)` starting at index `i`,
together with the pairs pushed into `balances`.  Reading `["success"]` of an
index that the batch result does not have throws; the pre-drain result is read
only when the post-drain one succeeded. -/
def balanceFilter (balancesPreDrain balancesPostDrain : List CallResult) :
    Nat → Ledger → Except Failure (Ledger × List (Nat × Nat))
  | _, [] => Except.ok ([], [])
  | i, t :: ts =>
    match balancesPostDrain[i]? with
    | none => Except.error Failure.typeError
    | some post =>
      if post.success then
        match balancesPreDrain[i]? with
        | none => Except.error Failure.typeError
        | some pre =>
          match balanceFilter balancesPreDrain balancesPostDrain (i + 1) ts with
          | Except.error e => Except.error e
          | Except.ok r =>
            if balanceCheck pre post then
              Except.ok (t :: r.1, (pre.returnData, post.returnData) :: r.2)
            else Except.ok r
      else balanceFilter balancesPreDrain balancesPostDrain (i + 1) ts

/-- Insertion of `x` before position `k` of a list, at the end when the list
has fewer than `k` elements. -/
def insertAt {α : Type} (k : Nat) (x : α) (l : List α) : List α := l.take k ++ x :: l.drop k

/-- The order in which promises settle.  The promises are given in the order of
their creation, `j` counting the ones already placed; the next one settles
before those that stand at position `rank j` or later among the ones placed so
far, and after all of them when `rank j` is at least their number.  Every order
of settlement is the result for some `rank`. -/
def settleOrder {α : Type} (rank : Nat → Nat) : Nat → List α → List α → List α
  | _, settled, [] => settled
  | j, settled, x :: pending => settleOrder rank (j + 1) (insertAt (rank j) x settled) pending

/-- The combinator `Promise.all`: every result in order, or a rejection. -/
def promiseAll {α : Type} : List (Except Failure α) → Except Failure (List α)
  | [] => Except.ok []
  | Except.error e :: _ => Except.error e
  | Except.ok a :: rest =>
    match promiseAll rest with
    | Except.error e => Except.error e
    | Except.ok as => Except.ok (a :: as)

/-- Callback of the `transfers.map` at lines 205-213, without its write to
`balances`: the entry itself for a contract, `null` otherwise. -/
def ownershipCallback (c : Collaborators) (t : Int × TransferEntry) :
    Except Failure (Option (Int × TransferEntry)) :=
  match c.getAddressType t.2.address with
  | Except.error e => Except.error e
  | Except.ok type => Except.ok (if type = AddressType.Contract then some t else none)

/-- The writes `balances[i] = null` of line 210, for the callbacks from index
`i` on.  A write past the end of the array leaves nothing that survives the
`filter` of line 216, so it is dropped. -/
def nullifyBalances : Nat → List (Option (Int × TransferEntry)) →
    List (Option (Nat × Nat)) → List (Option (Nat × Nat))
  | _, [], balances => balances
  | i, some _ :: rest, balances => nullifyBalances (i + 1) rest balances
  | i, none :: rest, balances => nullifyBalances (i + 1) rest (balances.set i none)

/-- Lines 204-216: the ownership filter on the two parallel arrays. -/
def ownershipFilter (c : Collaborators) (transfers : Ledger) (balances : List (Nat × Nat)) :
    Except Failure (Ledger × List (Nat × Nat)) :=
  match promiseAll (transfers.map (ownershipCallback c)) with
  | Except.error e => Except.error e
  | Except.ok marked =>
    Except.ok (marked.filterMap id, (nullifyBalances 0 marked (balances.map some)).filterMap id)

/-- Lines 220-222: `transfers[i].symbol = s` for every resolved symbol. -/
def attachSymbols (transfers : Ledger) (symbols : List String) : Ledger :=
  List.zipWith (fun t s => (t.1, { t.2 with symbol := some s })) transfers symbols

/-- The effect of lines 220-222 on `transfersObj`, whose entries are the
objects being mutated. -/
def storeSymbols (transfers : Ledger) (l : Ledger) : Ledger :=
  transfers.foldl (fun acc t => modify t.1 (fun e => { e with symbol := t.2.symbol }) acc) l

/-- Lines 226-243: one round of the `reduce` callback, after `await accPromise`. -/
def valuationStep (cfg : Config) (c : Collaborators) (blockNumber : Int)
    (balances : List (Nat × Nat)) (acc : Ledger × List (Nat × Nat))
    (transfer : Int × TransferEntry) (i : Nat) : Except Failure (Ledger × List (Nat × Nat)) :=
  match balances[i]? with
  | none => Except.error Failure.typeError
  | some b =>
    let amountLost : Int := (b.1 : Int) - (b.2 : Int)
    match c.getValueInUsd blockNumber cfg.chainId amountLost transfer.2.asset with
    | Except.error e => Except.error e
    | Except.ok value =>
      if value > c.USD_VALUE_THRESHOLD then
        Except.ok (acc.1 ++ [transfer], acc.2 ++ [b])
      else if value = 0 ∧ transfer.2.asset ≠ "native" then
        match c.getTotalSupply blockNumber transfer.2.asset with
        | Except.error e => Except.error e
        | Except.ok totalSupply =>
          let threshold : Nat := totalSupply / 20
          if amountLost > (threshold : Int) then
            Except.ok (acc.1 ++ [transfer], acc.2 ++ [b])
          else Except.ok acc
      else Except.ok acc

/-- Lines 224-246: the sequential `reduce` from index `i` on. -/
def valuationFilter (cfg : Config) (c : Collaborators) (blockNumber : Int)
    (balances : List (Nat × Nat)) :
    Nat → Ledger → Ledger × List (Nat × Nat) → Except Failure (Ledger × List (Nat × Nat))
  | _, [], acc => Except.ok acc
  | i, transfer :: rest, acc =>
    match valuationStep cfg c blockNumber balances acc transfer i with
    | Except.error e => Except.error e
    | Except.ok acc => valuationFilter cfg c blockNumber balances (i + 1) rest acc

/-- The idiom `[...new Set(xs)]`: each value once, in order of first
occurrence. -/
def uniq : List String → List String
  | [] => []
  | x :: xs => x :: (uniq xs).filter fun y => decide (y ≠ x)

/-- The expression `Object.values(t.txs).flat()`. -/
def evidence (t : TransferEntry) : List TxRecord := (t.txs.map Prod.snd).flatten

/-- Lines 253-259. -/
def initiatorsOf (t : TransferEntry) : List String := uniq ((evidence t).map TxRecord.txFrom)

/-- Lines 289-295. -/
def txHashesOf (t : TransferEntry) : List String := uniq ((evidence t).map TxRecord.hash)

/-- Decimal rendering `BigNumber.prototype.toString`. -/
def bigNumberToString (n : Nat) : String := Nat.repr n

/-- Lines 277-309: the finding for entry `t` with its balance pair and score. -/
def buildFinding (t : TransferEntry) (b : Nat × Nat) (anomalyScore : ℚ) : Finding :=
  { name := "Asset drained"
    description :=
      "99% or more of " ++ t.address ++ "\x27s " ++ t.symbol.getD "undefined" ++
        " tokens were drained"
    alertId := "ASSET-DRAINED"
    severity := FindingSeverity.High
    type := FindingType.Exploit
    metadata :=
      { contract := t.address
        asset := t.asset
        initiators := initiatorsOf t
        preDrainBalance := bigNumberToString b.1
        postDrainBalance := bigNumberToString b.2
        txHashes := txHashesOf t
        blockNumber := t.blockNumber
        anomalyScore := anomalyScore }
    labels :=
      { entity := t.address, label := "Victim", confidence := 1 } ::
        (initiatorsOf t).map fun txFrom =>
          { entity := txFrom, label := "Attacker", confidence := 1 / 2 }
    addresses := uniq (t.txs.map Prod.fst) }

/-- Lines 251-311: the callback of `filteredTransfers.map` for index `i`, run
with the value `count` that `transfersCount` has after the increment of
line 252. -/
def emitCallback (cfg : Config) (c : Collaborators) (filteredBalances : List (Nat × Nat))
    (count : Nat) (t : Int × TransferEntry) (i : Nat) : Except Failure Finding :=
  match c.calculateAlertRate cfg.chainId BOT_ID "ASSET-DRAINED"
      (if cfg.isRelevantChain then ScanCountType.CustomScanCount
       else ScanCountType.TransferCount) count with
  | Except.error e => Except.error e
  | Except.ok anomalyScore =>
    match filteredBalances[i]? with
    | none => Except.error Failure.typeError
    | some b => Except.ok (buildFinding t.2 b anomalyScore)

/-- The promises created by `filteredTransfers.map` from index `i` on, where
`count` is the value of `transfersCount` before the callback of index `i`.
Each callback increments the counter and calls `calculateAlertRate` before it
first suspends, so the callbacks see consecutive counter values. -/
def emitAll (cfg : Config) (c : Collaborators) (filteredBalances : List (Nat × Nat)) :
    Nat → Nat → Ledger → List (Except Failure Finding)
  | _, _, [] => []
  | i, count, t :: ts =>
    let count := if cfg.isRelevantChain then count + 1 else count
    emitCallback cfg c filteredBalances count t i :: emitAll cfg c filteredBalances (i + 1) count ts

/-- The handler `handleBlock` (lines 131-319).  The result is the returned
array of findings, or the failure with which the handler rejects, and the module
state it leaves.  `transfersObj = {}` (line 316) is reached only on the
returning path.  Each callback of `filteredTransfers.map` pushes its finding
when its score has arrived (line 276), and `Promise.all` rejects with the first
rejection: the callbacks are taken in the order in which their scores arrive. -/
def handleBlock (cfg : Config) (c : Collaborators) (s : State) (blockNumber : Int) :
    Except Failure (List Finding) × State :=
  let transfers := selectTransfers cfg s.transfersObj blockNumber
  let balanceCalls := transfers.map fun e => balanceCall e.2
  match c.tryAll balanceCalls (preDrainBlock cfg blockNumber) with
  | Except.error e => (Except.error e, s)
  | Except.ok balancesPreDrain =>
  match c.tryAll balanceCalls (postDrainBlock cfg blockNumber) with
  | Except.error e => (Except.error e, s)
  | Except.ok balancesPostDrain =>
  match balanceFilter balancesPreDrain balancesPostDrain 0 transfers with
  | Except.error e => (Except.error e, s)
  | Except.ok (transfers, balances) =>
  match ownershipFilter c transfers balances with
  | Except.error e => (Except.error e, s)
  | Except.ok (transfers, balances) =>
  match promiseAll (transfers.map fun t => c.getAssetSymbol t.2.asset) with
  | Except.error e => (Except.error e, s)
  | Except.ok symbols =>
  let transfers := attachSymbols transfers symbols
  let ledger := storeSymbols transfers s.transfersObj
  match valuationFilter cfg c blockNumber balances 0 transfers ([], []) with
  | Except.error e => (Except.error e, { s with transfersObj := ledger })
  | Except.ok (filteredTransfers, filteredBalances) =>
  let count :=
    if cfg.isRelevantChain then s.transfersCount + filteredTransfers.length
    else s.transfersCount
  match promiseAll (settleOrder (c.scoreArrival blockNumber) 0 []
      (emitAll cfg c filteredBalances 0 s.transfersCount filteredTransfers)) with
  | Except.error e => (Except.error e, { transfersObj := ledger, transfersCount := count })
  | Except.ok findings => (Except.ok findings, { transfersObj := [], transfersCount := count })

/-- The exported `getTransfersObj`. -/
def getTransfersObj (s : State) : Ledger := s.transfersObj

/-! ## Definitions used to state the properties -/

/-- An accepted transfer: the asset, the two parties and the amount moved. -/
structure Movement where
  asset : String
  fromAddr : String
  toAddr : String
  value : Nat
deriving DecidableEq, Repr

/-- The transfer carried by a Transfer log. -/
def logMovement (e : TransferLog) : Movement :=
  { asset := e.address, fromAddr := e.fromAddr, toAddr := e.toAddr, value := e.value }

/-- The native transfer carried by a call trace. -/
def traceMovement (t : TraceAction) : Movement :=
  { asset := "native", fromAddr := t.fromAddr, toAddr := t.toAddr
    value := (t.value.map HexQuantity.toNat).getD 0 }

/-- The transfers of a transaction that pass the filters of lines 50-51 and the
guard of line 91, in processing order. -/
def acceptedTransfers (tx : TxEvent) : List Movement :=
  (tx.logs.filter acceptsLog).map logMovement ++ (tx.traces.filter acceptsTrace).map traceMovement

/-- Sum of the values of the transfers of asset `X` received by `A`. -/
def inflow (ms : List Movement) (A X : String) : Int :=
  (ms.map fun m => if m.asset = X ∧ m.toAddr = A then (m.value : Int) else 0).sum

/-- Sum of the values of the transfers of asset `X` sent by `A`. -/
def outflow (ms : List Movement) (A X : String) : Int :=
  (ms.map fun m => if m.asset = X ∧ m.fromAddr = A then (m.value : Int) else 0).sum

/-- The state after a list of transactions, each handled by
`handleTransaction`. -/
def runTransactions (hashCode : String → String → Int) (s : State) (txs : List TxEvent) : State :=
  txs.foldl (fun s tx => (handleTransaction hashCode s tx).2) s

/-- The value recorded under key `k`, if the key is present. -/
def valueAt (l : Ledger) (k : Int) : Option Int := (lookup k l).map TransferEntry.value

/-- Signed amount that the transfers `ms` add under key `k`. -/
def netAt (hashCode : String → String → Int) (k : Int) (ms : List Movement) : Int :=
  (ms.map fun m =>
    (if k = hashCode m.toAddr m.asset then (m.value : Int) else 0)
      - (if k = hashCode m.fromAddr m.asset then (m.value : Int) else 0)).sum

/-- Whether one of the transfers `ms` reads or writes key `k`. -/
def touches (hashCode : String → String → Int) (k : Int) (ms : List Movement) : Bool :=
  ms.any fun m => decide (k = hashCode m.fromAddr m.asset) || decide (k = hashCode m.toAddr m.asset)

/-- The value under `k` after the transfers `ms`, from the value `v` before. -/
def viewAfter (hashCode : String → String → Int) (k : Int) (ms : List Movement)
    (v : Option Int) : Option Int :=
  if touches hashCode k ms then some (v.getD 0 + netAt hashCode k ms) else v

/-- The callback applied to an accepted transfer. -/
def applyMovement (hashCode : String → String → Int) (hash txFrom : String) (blockNumber : Int)
    (l : Ledger) (m : Movement) : Ledger :=
  recordTransfer hashCode hash txFrom blockNumber m.asset m.fromAddr m.toAddr m.value l

/-- A key function that is injective on pairs of strings. -/
def pairKey (a x : String) : Int :=
  (Encodable.encode (a.data.map Char.toNat, x.data.map Char.toNat) : Nat)

/-- Every entry sits under the key of its own address and asset. -/
def KeyedBy (hashCode : String → String → Int) (l : Ledger) : Prop :=
  ∀ k e, lookup k l = some e → hashCode e.address e.asset = k

/-- Sample transaction: the token `0xt` moves 999990 units from `0xC` to `0xD`. -/
def sampleDrainTx : TxEvent :=
  { hash := "h1", txFrom := "0xI", blockNumber := 10
    logs := [{ address := "0xt", fromAddr := "0xC", toAddr := "0xD", value := 999990 }]
    traces := [] }

/-- Sample transaction: `0xD` sends 5 units of native currency back to `0xC`,
next to a zero-value log and a delegate call that are both ignored. -/
def sampleNativeTx : TxEvent :=
  { hash := "h2", txFrom := "0xJ", blockNumber := 10
    logs := [{ address := "0xt", fromAddr := "0xD", toAddr := "0xC", value := 0 }]
    traces :=
      [{ fromAddr := "0xD", toAddr := "0xC", value := some { first := 5, rest := [] }, callType := "call" },
       { fromAddr := "0xD", toAddr := "0xC", value := some { first := 7, rest := [] }, callType := "delegatecall" }] }

/-- The entries and balance pairs that the balance filter keeps, for batch
results listed alongside the entries. -/
def keptByBalance (ts : Ledger) (pre post : List CallResult) :
    List ((Int × TransferEntry) × CallResult × CallResult) :=
  (ts.zip (pre.zip post)).filter fun x => balanceCheck x.2.1 x.2.2

/-- Whether the classifier answers `Contract` for the address of entry `t`. -/
def isContract (c : Collaborators) (t : Int × TransferEntry) : Bool :=
  match c.getAddressType t.2.address with
  | Except.ok AddressType.Contract => true
  | _ => false

/-- The entries and balance pairs that the ownership filter keeps. -/
def keptByOwnership (c : Collaborators) (transfers : Ledger) (balances : List (Nat × Nat)) :
    List ((Int × TransferEntry) × (Nat × Nat)) :=
  (transfers.zip balances).filter fun x => isContract c x.1

/-- The value of `shouldInclude` (lines 228-238) for an entry and its balance
pair, or the failure of the valuation or total-supply call. -/
def shouldInclude (cfg : Config) (c : Collaborators) (blockNumber : Int)
    (transfer : Int × TransferEntry) (b : Nat × Nat) : Except Failure Bool :=
  match c.getValueInUsd blockNumber cfg.chainId ((b.1 : Int) - (b.2 : Int)) transfer.2.asset with
  | Except.error e => Except.error e
  | Except.ok value =>
    if value > c.USD_VALUE_THRESHOLD then Except.ok true
    else if value = 0 ∧ transfer.2.asset ≠ "native" then
      match c.getTotalSupply blockNumber transfer.2.asset with
      | Except.error e => Except.error e
      | Except.ok totalSupply =>
        Except.ok (decide ((b.1 : Int) - (b.2 : Int) > ((totalSupply / 20 : Nat) : Int)))
    else Except.ok false

/-- Whether the valuation filter keeps the pair. -/
def passesValuation (cfg : Config) (c : Collaborators) (blockNumber : Int)
    (x : (Int × TransferEntry) × (Nat × Nat)) : Bool :=
  match shouldInclude cfg c blockNumber x.1 x.2 with
  | Except.ok true => true
  | _ => false

/-- The test of the three `.filter` calls of lines 141-145 on one entry. -/
def isSelected (cfg : Config) (blockNumber : Int) (t : Int × TransferEntry) : Bool :=
  decide (t.2.value < 0) && decide (t.2.address ≠ AddressZero) &&
    decide (t.2.blockNumber =
      blockNumber - (if cfg.chainId = 56 ∨ cfg.chainId = 137 ∨ cfg.chainId = 250 then 2 else 1))

/-- A ledger as the handlers build it: no key twice, and every entry under the
key of its own address and asset. -/
def WellKeyed (hashCode : String → String → Int) (l : Ledger) : Prop :=
  (l.map Prod.fst).Nodup ∧ KeyedBy hashCode l

/-- Sample key function for the worked examples: a 32-bit multiplicative
string hash of the concatenation of address and asset. -/
def sampleHashCode (address asset : String) : Int :=
  (((address ++ asset).data.foldl (fun h ch => (31 * h + ch.toNat) % 4294967296) 0 : Nat) : Int)

/-- Sample state: the ledger after the two sample transactions of block 10. -/
def sampleState : State :=
  runTransactions sampleHashCode { transfersObj := [], transfersCount := 0 }
    [sampleDrainTx, sampleNativeTx]

/-- Sample collaborators.  The token balance of `0xC` is 1000000 before block 10
and 10 after it, every other balance goes from 100 to 50; every address has the
given type; the USD value of an amount is the amount itself and the threshold
is 10000; the scores arrive in the order of their requests. -/
def sampleCollaborators (type : AddressType) : Collaborators :=
  { tryAll := fun calls blockTag =>
      Except.ok (calls.map fun call =>
        if call = BalanceCall.balanceOf "0xt" "0xC" then
          { success := true, returnData := if blockTag = 9 then 1000000 else 10 }
        else { success := true, returnData := if blockTag = 9 then 100 else 50 })
    getAddressType := fun _ => Except.ok type
    getAssetSymbol := fun _ => Except.ok "TKN"
    getValueInUsd := fun _ _ amount _ => Except.ok (amount : ℚ)
    getTotalSupply := fun _ _ => Except.ok 0
    calculateAlertRate := fun _ _ _ _ _ => Except.ok (1 / 10)
    scoreArrival := fun _ j => j
    USD_VALUE_THRESHOLD := 10000 }

/-- The finding expected for the sample drain. -/
def sampleFinding : Finding :=
  { name := "Asset drained"
    description := "99% or more of 0xC\x27s TKN tokens were drained"
    alertId := "ASSET-DRAINED"
    severity := FindingSeverity.High
    type := FindingType.Exploit
    metadata :=
      { contract := "0xC", asset := "0xt", initiators := ["0xI"], preDrainBalance := "1000000",
        postDrainBalance := "10", txHashes := ["h1"], blockNumber := 10, anomalyScore := 1 / 10 }
    labels :=
      [{ entity := "0xC", label := "Victim", confidence := 1 },
       { entity := "0xI", label := "Attacker", confidence := 1 / 2 }]
    addresses := ["0xD"] }

/-- Sample entry with a positive net value: the receiver side of the sample
drain. -/
def sampleReceiverEntry : Int × TransferEntry :=
  (sampleHashCode "0xD" "0xt",
    { asset := "0xt", address := "0xD", value := 999990, blockNumber := 10, txs := [],
      symbol := none })

/-- Sample entry with a negative net value: the sender side of the sample
drain, as the ledger holds it after block 10. -/
def sampleSenderEntry : Int × TransferEntry :=
  (sampleHashCode "0xC" "0xt",
    { asset := "0xt", address := "0xC", value := -999990, blockNumber := 10,
      txs := [("0xD", [{ hash := "h1", txFrom := "0xI" }])], symbol := none })

/-- Sample transaction made of ignored events only: a zero-value log, a log
emitted by its own sender, a trace without value, a zero-value trace and a
static call. -/
def sampleIgnoredTx : TxEvent :=
  { hash := "h3", txFrom := "0xK", blockNumber := 10
    logs :=
      [{ address := "0xt", fromAddr := "0xC", toAddr := "0xD", value := 0 },
       { address := "0xabc", fromAddr := "0xAbC", toAddr := "0xD", value := 7 }]
    traces :=
      [{ fromAddr := "0xC", toAddr := "0xD", value := none, callType := "call" },
       { fromAddr := "0xC", toAddr := "0xD", value := some { first := 0, rest := [] }, callType := "call" },
       { fromAddr := "0xC", toAddr := "0xD", value := some { first := 9, rest := [] }, callType := "staticcall" }] }

/-- Sample transaction with a single call trace: `0xC` calls `0xD` with the
given value. -/
def sampleZeroTraceTx (value : HexQuantity) : TxEvent :=
  { hash := "h4", txFrom := "0xK", blockNumber := 10
    logs := []
    traces := [{ fromAddr := "0xC", toAddr := "0xD", value := some value, callType := "call" }] }

/-- The records stored under counterparty `toAddr` in a `txs` object, the empty
list when the key is absent. -/
def recordsFor (toAddr : String) : List (String × List TxRecord) → List TxRecord
  | [] => []
  | (k, rs) :: rest => if toAddr = k then rs else recordsFor toAddr rest

/-- The `txs` object of the entry under key `k`, empty when there is no entry. -/
def txsAt (l : Ledger) (k : Int) : List (String × List TxRecord) :=
  ((lookup k l).map TransferEntry.txs).getD []

/-- Sample entry of a token other than the native currency, standing at the
valuation filter. -/
def sampleTokenEntry : Int × TransferEntry :=
  (sampleHashCode "0xC" "0xt",
    { asset := "0xt", address := "0xC", value := -999990, blockNumber := 10,
      txs := [("0xD", [{ hash := "h1", txFrom := "0xI" }])], symbol := some "TKN" })

/-- Sample collaborators without a price: the USD value of every amount is 0
and every token has the given total supply. -/
def unpricedCollaborators (totalSupply : Nat) : Collaborators :=
  { sampleCollaborators AddressType.Contract with
    getValueInUsd := fun _ _ _ _ => Except.ok 0
    getTotalSupply := fun _ _ => Except.ok totalSupply }

/-- Sample state with two counterparties: `0xC` sends token `0xt` to `0xD` in
transactions `h1` and `h3`, both initiated by `0xI`, and to `0xE` in transaction
`h2`, initiated by `0xJ`, all in block 10. -/
def sampleUnionState : State :=
  runTransactions sampleHashCode { transfersObj := [], transfersCount := 0 }
    [{ hash := "h1", txFrom := "0xI", blockNumber := 10
       logs := [{ address := "0xt", fromAddr := "0xC", toAddr := "0xD", value := 500000 }]
       traces := [] },
     { hash := "h2", txFrom := "0xJ", blockNumber := 10
       logs := [{ address := "0xt", fromAddr := "0xC", toAddr := "0xE", value := 499980 }]
       traces := [] },
     { hash := "h3", txFrom := "0xI", blockNumber := 10
       logs := [{ address := "0xt", fromAddr := "0xC", toAddr := "0xD", value := 10 }]
       traces := [] }]

/-- The finding expected for the sample with two counterparties. -/
def sampleUnionFinding : Finding :=
  { sampleFinding with
    metadata :=
      { sampleFinding.metadata with
        initiators := ["0xI", "0xJ"], txHashes := ["h1", "h3", "h2"] }
    labels :=
      [{ entity := "0xC", label := "Victim", confidence := 1 },
       { entity := "0xI", label := "Attacker", confidence := 1 / 2 },
       { entity := "0xJ", label := "Attacker", confidence := 1 / 2 }]
    addresses := ["0xD", "0xE"] }

/-- The pair of an entry and its two balances, as the stages after the balance
filter hold it. -/
def withBalances (x : (Int × TransferEntry) × CallResult × CallResult) :
    (Int × TransferEntry) × (Nat × Nat) :=
  (x.1, (x.2.1.returnData, x.2.2.returnData))

/-- The selected entries that pass the magnitude, ownership and valuation
filters, in order, each with its pre-drain and post-drain batch result. -/
def qualifying (cfg : Config) (c : Collaborators) (blockNumber : Int) (l : Ledger)
    (pre post : List CallResult) : List ((Int × TransferEntry) × CallResult × CallResult) :=
  ((keptByBalance (selectTransfers cfg l blockNumber) pre post).filter
    fun x => isContract c x.1).filter
    fun x => passesValuation cfg c blockNumber (withBalances x)

/-- Sample collaborators for two drained entries: every balance goes from
1000000 to 10, address `0xD` gets the given answer from the classifier and every
other address is a contract. -/
def classifierCollaborators (forD : Except Failure AddressType) : Collaborators :=
  { sampleCollaborators AddressType.Contract with
    tryAll := fun calls blockTag =>
      Except.ok (calls.map fun _ =>
        { success := true, returnData := if blockTag = 9 then 1000000 else 10 })
    getAddressType := fun a => if a = "0xD" then forD else Except.ok AddressType.Contract }

/-- Sample collaborators for two drained entries on a chain with the custom
counter: the score is the counter value itself, and every score arrives before
the scores requested earlier. -/
def countingCollaborators : Collaborators :=
  { classifierCollaborators (Except.ok AddressType.Contract) with
    calculateAlertRate := fun _ _ _ _ count => Except.ok (count : ℚ)
    scoreArrival := fun _ _ => 0 }

/-- The finding of the sample drain with the given score. -/
def sampleScoredFinding (score : ℚ) : Finding :=
  { sampleFinding with metadata := { sampleFinding.metadata with anomalyScore := score } }

/-- The finding of the native outflow of `0xD` in the sample state, for
balances 1000000 and 10 and the given score. -/
def sampleNativeFinding (score : ℚ) : Finding :=
  { name := "Asset drained"
    description := "99% or more of 0xD\x27s TKN tokens were drained"
    alertId := "ASSET-DRAINED"
    severity := FindingSeverity.High
    type := FindingType.Exploit
    metadata :=
      { contract := "0xD", asset := "native", initiators := ["0xJ"],
        preDrainBalance := "1000000", postDrainBalance := "10", txHashes := ["h2"],
        blockNumber := 10, anomalyScore := score }
    labels :=
      [{ entity := "0xD", label := "Victim", confidence := 1 },
       { entity := "0xJ", label := "Attacker", confidence := 1 / 2 }]
    addresses := ["0xC"] }

/-- Sample entry: the native outflow of `0xD` in the sample state. -/
def sampleNativeSenderEntry : Int × TransferEntry :=
  (sampleHashCode "0xD" "native",
    { asset := "native", address := "0xD", value := -5, blockNumber := 10,
      txs := [("0xC", [{ hash := "h2", txFrom := "0xJ" }])], symbol := none })

/-- Sample collaborators with a price at one block only: the USD value of an
amount is the amount itself when asked for block `priced` and 0 for any other
block; the total supply is so large that the fallback keeps nothing. -/
def pricedAtCollaborators (priced : Int) : Collaborators :=
  { sampleCollaborators AddressType.Contract with
    getValueInUsd := fun b _ amount _ => if b = priced then Except.ok (amount : ℚ) else Except.ok 0
    getTotalSupply := fun _ _ => Except.ok 1000000000000 }

/-- An entry is backed by evidence: its value is negative only if it has
records, and every receiver listed in `txs` has at least one record. -/
def Backed (e : TransferEntry) : Prop :=
  (e.txs = [] → 0 ≤ e.value) ∧ ∀ p ∈ e.txs, p.2 ≠ []

/-- Sum of the values of the ledger entries recorded for asset `X`. -/
def assetSum (X : String) (l : Ledger) : Int :=
  (l.map fun x => if x.2.asset = X then x.2.value else 0).sum

/-- One invocation of `handleBlock`: the block number, the module state it
starts from and what it returns. -/
structure BlockCall where
  blockNumber : Int
  before : State
  result : Except Failure (List Finding)

/-- The handlers driven over consecutive blocks: `handleBlock` is invoked for
`blockNumber`, then the transactions of that block (the head of `blocks`) are
handed to `handleTransaction`, then `handleBlock` is invoked for the next
block number, and so on; the last invocation follows the last list of
transactions.  The result lists the invocations of `handleBlock` in order. -/
def runBlocks (hashCode : String → String → Int) (cfg : Config) (c : Collaborators) :
    State → Int → List (List TxEvent) → List BlockCall
  | s, blockNumber, [] =>
    [{ blockNumber := blockNumber, before := s, result := (handleBlock cfg c s blockNumber).1 }]
  | s, blockNumber, txs :: rest =>
    { blockNumber := blockNumber, before := s, result := (handleBlock cfg c s blockNumber).1 } ::
      runBlocks hashCode cfg c
        (runTransactions hashCode (handleBlock cfg c s blockNumber).2 txs) (blockNumber + 1) rest

end AssetDrained

/-!
# Ice-phishing detector: helpers

Shallow embedding of `getEventInformation` and `getAddressType` of
`src/ice-phishing/src/helper.js`.  The helpers share the JavaScript notions of
the first part: a thrown exception or a rejected promise is a `Failure`.
-/

namespace IcePhishing

open AssetDrained (Failure)

/-! ## getEventInformation -/

/-- An element of `eventsArray`: the four properties that
`getEventInformation` reads.  Timestamps are whole seconds. -/
structure Event where
  hash : String
  asset : String
  owner : String
  timestamp : Int
deriving DecidableEq, Repr

/-- The object returned by `getEventInformation` (line 27). -/
structure EventInformation where
  firstTxHash : String
  lastTxHash : String
  assets : List String
  accounts : List String
  days : Int
deriving DecidableEq, Repr

/-- The method `Set.prototype.add` on the insertion-ordered content of a set. -/
def setAdd (content : List String) (x : String) : List String :=
  if x ∈ content then content else content ++ [x]

/-- The expression `[...new Set(xs)]`: the constructor adds the elements in
order, the spread lists the content in insertion order. -/
def spreadSet (xs : List String) : List String := xs.foldl setAdd []

/-- The function `getEventInformation` (lines 10-28).  Reading `.hash` of
`eventsArray[0]` throws a `TypeError` when the array has no first element.  The
quotient of the two whole timestamps is taken in the rationals, where
`Math.ceil` is the integer ceiling. -/
def getEventInformation (eventsArray : List Event) : Except Failure EventInformation :=
  let length := eventsArray.length
  match eventsArray[0]? with
  | none => Except.error Failure.typeError
  | some first =>
    match eventsArray[length - 1]? with
    | none => Except.error Failure.typeError
    | some last =>
      Except.ok
        { firstTxHash := first.hash
          lastTxHash := last.hash
          assets := spreadSet (eventsArray.map fun e => e.asset)
          accounts := spreadSet (eventsArray.map fun e => e.owner)
          days := ⌈((last.timestamp - first.timestamp : Int) : ℚ) / 86400⌉ }

/-- Sample events: two approvals of one asset by two owners, 90000 seconds
apart, and a third event in between. -/
def sampleEvents : List Event :=
  [{ hash := "0xa1", asset := "0xt", owner := "0xo1", timestamp := 1000 },
   { hash := "0xa2", asset := "0xu", owner := "0xo1", timestamp := 2000 },
   { hash := "0xa3", asset := "0xt", owner := "0xo2", timestamp := 91000 }]

/-! ## getAddressType -/

/-- The string constants exported by `./address-type` that `helper.js` refers
to.  The module is not part of the sources, so the table is a parameter. -/
structure AddressTypes where
  EoaWithLowNonce : String
  EoaWithHighNonce : String
  LowNumTxsVerifiedContract : String
  HighNumTxsVerifiedContract : String
  LowNumTxsUnverifiedContract : String
  HighNumTxsUnverifiedContract : String
  ScamAddress : String
deriving DecidableEq, Repr

/-- The three thresholds read from `../bot-config.json`. -/
structure BotConfig where
  nonceThreshold : Nat
  contractTxsThreshold : Nat
  verifiedContractTxsThreshold : Nat
deriving DecidableEq, Repr

/-- An entry of the table `etherscanApis` of `./config`. -/
structure EtherscanApi where
  urlContract : String
  urlAccount : String
  key : String
deriving DecidableEq, Repr

/-- The property `data.result` of a block-explorer answer: a string or an
array, of which only the length is read. -/
inductive ResultValue where
  | text (s : String)
  | array (length : Nat)
deriving DecidableEq, Repr

/-- The property `data` of a block-explorer answer. -/
structure ResponseData where
  message : String
  status : String
  result : ResultValue
deriving DecidableEq, Repr

/-- A request sent to the provider or to the block explorer. -/
inductive Lookup where
  | getCode (address : String)
  | getTransactionCount (address : String) (blockNumber : Int)
  | axiosGet (url : String)
deriving DecidableEq, Repr

/-- What surrounds `getAddressType`: the constants of the absent modules and
the answers of the provider and of `axios.get`, each a resolved value or a
rejection. -/
structure Env where
  types : AddressTypes
  config : BotConfig
  etherscanApis : Nat → Option EtherscanApi
  getCode : String → Except Failure String
  getTransactionCount : String → Int → Except Failure Nat
  axiosGet : String → Except Failure ResponseData

/-- The LRU cache `cachedAddresses`, as the bindings it holds.  Recency and
eviction are internal to the `lru-cache` package and are not represented. -/
abbrev Cache := List (String × String)

/-- The method `cachedAddresses.get`. -/
def cacheGet (cache : Cache) (address : String) : Option String :=
  match cache with
  | [] => none
  | (k, v) :: rest => if address = k then some v else cacheGet rest address

/-- The method `cachedAddresses.has`. -/
def cacheHas (cache : Cache) (address : String) : Bool := (cacheGet cache address).isSome

/-- The method `cachedAddresses.set`: overwrite the binding or add one. -/
def cacheSet (cache : Cache) (address type : String) : Cache :=
  match cache with
  | [] => [(address, type)]
  | (k, v) :: rest =>
    if address = k then (k, type) :: rest else (k, v) :: cacheSet rest address type

/-- The method `String.prototype.startsWith`. -/
def startsWith (s pre : String) : Bool := pre.data.isPrefixOf s.data

/-- The property `length` of a string: its number of UTF-16 code units. -/
def stringLength (s : String) : Nat :=
  (s.data.map fun ch => if ch.toNat < 65536 then 1 else 2).sum

/-- The property `length` of `data.result`. -/
def ResultValue.length : ResultValue → Nat
  | ResultValue.text s => stringLength s
  | ResultValue.array n => n

/-- Truthiness of a type or `null`: `null` and the empty string are falsy. -/
def truthy : Option String → Bool
  | none => false
  | some s => decide (s ≠ "")

/-- The function `getEtherscanContractUrl` (lines 850-853); destructuring an
absent table entry throws. -/
def getEtherscanContractUrl (env : Env) (address : String) (chainId : Nat) :
    Except Failure String :=
  match env.etherscanApis chainId with
  | none => Except.error Failure.typeError
  | some api => Except.ok (api.urlContract ++ "&address=" ++ address ++ "&apikey=" ++ api.key)

/-- The function `getEtherscanAddressUrl` (lines 855-858). -/
def getEtherscanAddressUrl (env : Env) (address : String) (chainId : Nat) :
    Except Failure String :=
  match env.etherscanApis chainId with
  | none => Except.error Failure.typeError
  | some api =>
    Except.ok (api.urlAccount ++ "&address=" ++ address ++
      "&startblock=0&endblock=99999999&sort=asc&apikey=" ++ api.key)

/-- The function `getEoaType` (lines 874-877), with the requests it sends. -/
def getEoaType (env : Env) (address : String) (blockNumber : Int) :
    Except Failure (Option String) × List Lookup :=
  match env.getTransactionCount address blockNumber with
  | Except.error e => (Except.error e, [Lookup.getTransactionCount address blockNumber])
  | Except.ok nonce =>
    (Except.ok (some (if nonce > env.config.nonceThreshold then env.types.EoaWithHighNonce
        else env.types.EoaWithLowNonce)),
      [Lookup.getTransactionCount address blockNumber])

/-- The function `getContractType` (lines 879-904), with the requests it
sends; `null` is `none`. -/
def getContractType (env : Env) (address : String) (chainId : Nat) :
    Except Failure (Option String) × List Lookup :=
  match getEtherscanContractUrl env address chainId with
  | Except.error e => (Except.error e, [])
  | Except.ok contractUrl =>
  match env.axiosGet contractUrl with
  | Except.error e => (Except.error e, [Lookup.axiosGet contractUrl])
  | Except.ok first =>
  if startsWith first.message "NOTOK" &&
      decide (first.result ≠ ResultValue.text "Contract source code not verified") then
    (Except.ok none, [Lookup.axiosGet contractUrl])
  else
  let isVerified := decide (first.status = "1")
  match getEtherscanAddressUrl env address chainId with
  | Except.error e => (Except.error e, [Lookup.axiosGet contractUrl])
  | Except.ok addressUrl =>
  match env.axiosGet addressUrl with
  | Except.error e => (Except.error e, [Lookup.axiosGet contractUrl, Lookup.axiosGet addressUrl])
  | Except.ok second =>
  if startsWith second.message "NOTOK" || startsWith second.message "Query Timeout" then
    (Except.ok none, [Lookup.axiosGet contractUrl, Lookup.axiosGet addressUrl])
  else if isVerified then
    (Except.ok (some (if second.result.length > env.config.verifiedContractTxsThreshold
        then env.types.HighNumTxsVerifiedContract else env.types.LowNumTxsVerifiedContract)),
      [Lookup.axiosGet contractUrl, Lookup.axiosGet addressUrl])
  else
    (Except.ok (some (if second.result.length > env.config.contractTxsThreshold
        then env.types.HighNumTxsUnverifiedContract
        else env.types.LowNumTxsUnverifiedContract)),
      [Lookup.axiosGet contractUrl, Lookup.axiosGet addressUrl])

/-- What a call of `getAddressType` leaves: the resolved type (or `null`) or
the rejection, the cache, and the requests sent, in order. -/
structure Outcome where
  result : Except Failure (Option String)
  cache : Cache
  lookups : List Lookup

/-- The function `getAddressType` (lines 906-954). -/
def getAddressType (env : Env) (address : String) (scamAddresses : List String)
    (cachedAddresses : Cache) (blockNumber : Int) (chainId : Nat) (isOwner : Bool) : Outcome :=
  if scamAddresses.contains address then
    { result := Except.ok (some env.types.ScamAddress)
      cache :=
        if !cacheHas cachedAddresses address ||
            decide (cacheGet cachedAddresses address ≠ some env.types.ScamAddress) then
          cacheSet cachedAddresses address env.types.ScamAddress
        else cachedAddresses
      lookups := [] }
  else
  match cacheGet cachedAddresses address with
  | some type =>
    if isOwner || decide (type = env.types.EoaWithHighNonce) ||
        decide (type = env.types.HighNumTxsVerifiedContract) || startsWith type "Ignored" then
      { result := Except.ok (some type), cache := cachedAddresses, lookups := [] }
    else
      let answer :=
        if type = env.types.EoaWithLowNonce then getEoaType env address blockNumber
        else getContractType env address chainId
      match answer.1 with
      | Except.error e =>
        { result := Except.error e, cache := cachedAddresses, lookups := answer.2 }
      | Except.ok newType =>
        { result := Except.ok newType
          cache :=
            if truthy newType && decide (newType ≠ some type) then
              cacheSet cachedAddresses address (newType.getD "")
            else cachedAddresses
          lookups := answer.2 }
  | none =>
    match env.getCode address with
    | Except.error e =>
      { result := Except.error e, cache := cachedAddresses, lookups := [Lookup.getCode address] }
    | Except.ok code =>
      let isEoa := decide (code = "0x")
      if isOwner && !isEoa then
        { result := Except.ok (some env.types.LowNumTxsUnverifiedContract)
          cache := cachedAddresses
          lookups := [Lookup.getCode address] }
      else
        let answer :=
          if isEoa then getEoaType env address blockNumber
          else getContractType env address chainId
        match answer.1 with
        | Except.error e =>
          { result := Except.error e, cache := cachedAddresses
            lookups := Lookup.getCode address :: answer.2 }
        | Except.ok type =>
          { result := Except.ok type
            cache :=
              if truthy type then cacheSet cachedAddresses address (type.getD "")
              else cachedAddresses
            lookups := Lookup.getCode address :: answer.2 }

/-- Sample constants: each type is named by its own identifier. -/
def sampleTypes : AddressTypes :=
  { EoaWithLowNonce := "EoaWithLowNonce"
    EoaWithHighNonce := "EoaWithHighNonce"
    LowNumTxsVerifiedContract := "LowNumTxsVerifiedContract"
    HighNumTxsVerifiedContract := "HighNumTxsVerifiedContract"
    LowNumTxsUnverifiedContract := "LowNumTxsUnverifiedContract"
    HighNumTxsUnverifiedContract := "HighNumTxsUnverifiedContract"
    ScamAddress := "ScamAddress" }

/-- Sample surroundings: every address is an account with nonce 7, the
thresholds are 500, and no block explorer is configured. -/
def sampleEnv : Env :=
  { types := sampleTypes
    config := { nonceThreshold := 500, contractTxsThreshold := 500,
                verifiedContractTxsThreshold := 500 }
    etherscanApis := fun _ => none
    getCode := fun _ => Except.ok "0x"
    getTransactionCount := fun _ _ => Except.ok 7
    axiosGet := fun _ => Except.error Failure.rejected }

/-- Sample cache: one account of each kind that the early return covers, and
one that is looked up again. -/
def sampleCache : Cache :=
  [("0xa", "EoaWithLowNonce"), ("0xb", "EoaWithHighNonce"), ("0xc", "IgnoredEoa"),
   ("0xs", "EoaWithLowNonce")]

end IcePhishing

/-!
# Flashbots transactions detector

Shallow embedding of `provideHandleBlock` of
`src/flashbots-transactions-detector/src/agent.js`.  The module variable
`lastBlockNumber` and the closure variable `cachedFindings` are the two fields
of `State`.  The answer of `axios.get(flashbotsUrl)` and the order in which the
receipts arrive differ from call to call and are arguments of the handler;
`getTransactionReceipt` is the parameter of `provideHandleBlock`.
-/

namespace FlashbotsDetector

open AssetDrained (Failure toLowerCase uniq)

/-- A transaction of the answer of the flashbots API. -/
structure Transaction where
  eoa_address : String
  to_address : String
  transaction_hash : String
  bundle_type : String
deriving DecidableEq, Repr

/-- A block of the answer of the flashbots API. -/
structure Block where
  transactions : List Transaction
  block_number : Int
deriving DecidableEq, Repr

/-- A log of a transaction receipt. -/
structure Log where
  address : String
deriving DecidableEq, Repr

/-- The `metadata` object of a finding (lines 45-50). -/
structure Metadata where
  fromAddr : String
  toAddr : String
  hash : String
  blockNumber : Int
deriving DecidableEq, Repr

/-- The object built by `Finding.fromObject` (lines 37-51). -/
structure Finding where
  name : String
  description : String
  alertId : String
  severity : AssetDrained.FindingSeverity
  type : AssetDrained.FindingType
  addresses : List String
  metadata : Metadata
deriving DecidableEq, Repr

/-- The variables that outlive a call: `cachedFindings` and `lastBlockNumber`. -/
structure State where
  cachedFindings : List Finding
  lastBlockNumber : Int
deriving DecidableEq, Repr

/-- Callback of the inner `.map` (lines 30-52): one finding per transaction,
or the rejection of `getTransactionReceipt`. -/
def transactionFinding (getTransactionReceipt : String → Except Failure (List Log))
    (blockNumber : Int) (transaction : Transaction) : Except Failure Finding :=
  match getTransactionReceipt transaction.transaction_hash with
  | Except.error e => Except.error e
  | Except.ok logs =>
    Except.ok
      { name := "Flashbots transactions"
        description :=
          transaction.eoa_address ++ " interacted with " ++ transaction.to_address ++
            " in a flashbots transaction"
        alertId := "FLASHBOTS-TRANSACTIONS"
        severity := AssetDrained.FindingSeverity.Low
        type := AssetDrained.FindingType.Info
        addresses := uniq (logs.map fun log => toLowerCase log.address)
        metadata :=
          { fromAddr := transaction.eoa_address
            toAddr := transaction.to_address
            hash := transaction.transaction_hash
            blockNumber := blockNumber } }

/-- Callback of `blocks.map` (lines 22-58) for the value `lastBlockNumber` has
when the block is visited: `undefined` for a block that is not newer, else the
findings of its transactions that are not of bundle type `mempool`. -/
def blockFindings (getTransactionReceipt : String → Except Failure (List Log))
    (lastBlockNumber : Int) (block : Block) : Except Failure (Option (List Finding)) :=
  if block.block_number > lastBlockNumber then
    match AssetDrained.promiseAll
        ((block.transactions.filter fun transaction =>
            decide (transaction.bundle_type ≠ "mempool")).map
          (transactionFinding getTransactionReceipt block.block_number)) with
    | Except.error e => Except.error e
    | Except.ok currentBlockFindings => Except.ok (some currentBlockFindings)
  else Except.ok none

/-- The expression `findings.flat().filter((f) => !!f)` (line 66). -/
def flatDefined : List (Option (List Finding)) → List Finding
  | [] => []
  | none :: rest => flatDefined rest
  | some fs :: rest => fs ++ flatDefined rest

/-- The statement `cachedFindings.splice(0, 4)` under its guard (lines 12-14). -/
def dropReturned (cachedFindings : List Finding) : List Finding :=
  if cachedFindings.length ≥ 4 then cachedFindings.drop 4 else cachedFindings

/-- The blocks whose callback reaches the assignment of line 55, in the order
in which they reach it.  Every callback compares with the value that
`lastBlockNumber` has at the start of the call, because each one suspends before
its assignment.  A newer block without a transaction to look up resumes at once,
before any receipt arrives, in the order of the blocks; a newer block with
receipts resumes when all of them have arrived, in the order told by
`receiptArrival` (the `rank` of `settleOrder`); a block with a rejected receipt
makes no assignment. -/
def settledBlocks (getTransactionReceipt : String → Except Failure (List Log))
    (receiptArrival : Nat → Nat) (lastBlockNumber : Int) (blocks : List Block) : List Block :=
  let assigning := blocks.filter fun block =>
    match blockFindings getTransactionReceipt lastBlockNumber block with
    | Except.ok (some _) => true
    | _ => false
  let immediate := assigning.filter fun block =>
    (block.transactions.filter fun transaction =>
      decide (transaction.bundle_type ≠ "mempool")).isEmpty
  let awaiting := assigning.filter fun block =>
    !(block.transactions.filter fun transaction =>
      decide (transaction.bundle_type ≠ "mempool")).isEmpty
  immediate ++ AssetDrained.settleOrder receiptArrival 0 [] awaiting

/-- The value of `lastBlockNumber` after the callbacks of `blocks.map` have
run: the block number assigned last, or the old value when no block assigns. -/
def assignLastBlockNumber (getTransactionReceipt : String → Except Failure (List Log))
    (receiptArrival : Nat → Nat) (lastBlockNumber : Int) (blocks : List Block) : Int :=
  match (settledBlocks getTransactionReceipt receiptArrival lastBlockNumber blocks).getLast? with
  | some block => block.block_number
  | none => lastBlockNumber

/-- The handler returned by `provideHandleBlock` (lines 10-70), given the
answer of `axios.get(flashbotsUrl)` or its failure and the order in which the
receipts of this call arrive.  The result is the returned array or the
rejection, with the state the call leaves. -/
def handleBlock (getTransactionReceipt : String → Except Failure (List Log))
    (receiptArrival : Nat → Nat) (s : State) (response : Except Failure (List Block)) :
    Except Failure (List Finding) × State :=
  let cachedFindings := dropReturned s.cachedFindings
  match response with
  | Except.error _ => (Except.ok [], { s with cachedFindings := cachedFindings })
  | Except.ok blocks =>
    let lastBlockNumber :=
      assignLastBlockNumber getTransactionReceipt receiptArrival s.lastBlockNumber blocks
    match AssetDrained.promiseAll
        (blocks.map (blockFindings getTransactionReceipt s.lastBlockNumber)) with
    | Except.error e =>
      (Except.error e, { cachedFindings := cachedFindings, lastBlockNumber := lastBlockNumber })
    | Except.ok findings =>
      let cachedFindings := cachedFindings ++ flatDefined findings
      (Except.ok (cachedFindings.take 4),
        { cachedFindings := cachedFindings, lastBlockNumber := lastBlockNumber })

/-- The findings a call hands to its caller: none when it rejects. -/
def returned (r : Except Failure (List Finding) × State) : List Finding :=
  match r.1 with
  | Except.ok findings => findings
  | Except.error _ => []

/-- Sample receipts: every transaction has one log, emitted by `0xPool`. -/
def sampleReceipt (_ : String) : Except Failure (List Log) := Except.ok [{ address := "0xPool" }]

/-- Sample bundle transaction with the given hash. -/
def sampleTransaction (hash : String) : Transaction :=
  { eoa_address := "0xe", to_address := "0xr", transaction_hash := hash, bundle_type := "flashbots" }

/-- Sample finding: the one built for the sample transaction with that hash. -/
def sampleFinding (hash : String) (blockNumber : Int) : Finding :=
  { name := "Flashbots transactions"
    description := "0xe interacted with 0xr in a flashbots transaction"
    alertId := "FLASHBOTS-TRANSACTIONS"
    severity := AssetDrained.FindingSeverity.Low
    type := AssetDrained.FindingType.Info
    addresses := ["0xpool"]
    metadata := { fromAddr := "0xe", toAddr := "0xr", hash := hash, blockNumber := blockNumber } }

/-- Sample transaction of bundle type `mempool` with the given hash. -/
def sampleMempoolTransaction (hash : String) : Transaction :=
  { eoa_address := "0xe", to_address := "0xr", transaction_hash := hash, bundle_type := "mempool" }

/-- Sample answer: block 102 with a bundle transaction, then block 101 with a
transaction of bundle type `mempool` only. -/
def mixedAnswer : List Block :=
  [{ transactions := [sampleTransaction "0xh9"], block_number := 102 },
   { transactions := [sampleMempoolTransaction "0xh8"], block_number := 101 }]

/-- Sample answer: block 102 and then block 101, each with a bundle transaction. -/
def bundleAnswer : List Block :=
  [{ transactions := [sampleTransaction "0xh9"], block_number := 102 },
   { transactions := [sampleTransaction "0xh8"], block_number := 101 }]

/-- First sample answer: block 100 with two bundle transactions. -/
def firstAnswer : List Block :=
  [{ transactions := [sampleTransaction "0xh1", sampleTransaction "0xh2"], block_number := 100 }]

/-- Second sample answer: the new block 101 with one bundle transaction, and
block 100 again. -/
def secondAnswer : List Block :=
  [{ transactions := [sampleTransaction "0xh3"], block_number := 101 },
   { transactions := [sampleTransaction "0xh1", sampleTransaction "0xh2"], block_number := 100 }]

end FlashbotsDetector

namespace AssetDrained

/-! # Properties -/

/-! ## Ledger lemmas -/

theorem lookup_append (k : Int) (l l' : Ledger) :
    lookup k (l ++ l') = (lookup k l).orElse fun _ => lookup k l' := by
  induction l with
  | nil => simp [lookup]
  | cons x l ih =>
    obtain ⟨k', e⟩ := x
    by_cases h : k = k' <;> simp [lookup, h, ih]

theorem lookup_ensure (k k' : Int) (fresh : TransferEntry) (l : Ledger) :
    lookup k (ensure k' fresh l) =
      if k = k' then some ((lookup k l).getD fresh) else lookup k l := by
  unfold ensure
  cases hk : lookup k' l with
  | some e =>
    by_cases h : k = k'
    · subst h; simp [hk]
    · simp [h]
  | none =>
    by_cases h : k = k'
    · subst h; simp [lookup_append, hk, lookup]
    · simp only [lookup_append, lookup, h, if_false]
      cases lookup k l <;> simp

theorem lookup_modify (k k' : Int) (f : TransferEntry → TransferEntry) (l : Ledger) :
    lookup k (modify k' f l) = if k = k' then (lookup k l).map f else lookup k l := by
  induction l with
  | nil => simp [lookup, modify]
  | cons x l ih =>
    obtain ⟨k₀, e⟩ := x
    by_cases h₀ : k' = k₀
    · subst h₀
      by_cases h : k = k' <;> simp [modify, lookup, h]
    · by_cases h : k = k'
      · subst h
        simp only [modify, h₀, if_false, lookup, ih, if_true]
      · by_cases h₁ : k = k₀
        · subst h₁
          simp [modify, h₀, lookup, h]
        · simp [modify, h₀, lookup, h, h₁, ih]

theorem mem_keys_iff (k : Int) (l : Ledger) :
    k ∈ l.map Prod.fst ↔ (lookup k l).isSome = true := by
  induction l with
  | nil => simp [lookup]
  | cons x l ih =>
    obtain ⟨k', e⟩ := x
    by_cases h : k = k' <;> simp [lookup, h, ih]

theorem valueAt_ensure (k k' : Int) (fresh : TransferEntry) (l : Ledger) :
    valueAt (ensure k' fresh l) k =
      if k = k' then some ((valueAt l k).getD fresh.value) else valueAt l k := by
  unfold valueAt
  rw [lookup_ensure]
  by_cases h : k = k'
  · cases lookup k l <;> simp [h]
  · simp [h]

theorem valueAt_modify (k k' : Int) (f : TransferEntry → TransferEntry) (d : Int)
    (hf : ∀ e, (f e).value = e.value + d) (l : Ledger) :
    valueAt (modify k' f l) k =
      if k = k' then (valueAt l k).map (fun v => v + d) else valueAt l k := by
  unfold valueAt
  rw [lookup_modify]
  by_cases h : k = k'
  · cases lookup k l <;> simp [h, hf]
  · simp [h]

theorem valueAt_recordTransfer (hashCode : String → String → Int) (hash txFrom : String)
    (blockNumber : Int) (asset fromAddr toAddr : String) (value : Nat) (l : Ledger) (k : Int) :
    valueAt (recordTransfer hashCode hash txFrom blockNumber asset fromAddr toAddr value l) k =
      if k = hashCode fromAddr asset ∨ k = hashCode toAddr asset then
        some ((valueAt l k).getD 0 + (if k = hashCode toAddr asset then (value : Int) else 0)
          - (if k = hashCode fromAddr asset then (value : Int) else 0))
      else valueAt l k := by
  unfold recordTransfer
  simp only []
  rw [valueAt_modify k _ _ (value : Int) (fun e => rfl),
    valueAt_modify k _ _ 0 (fun e => by simp),
    valueAt_modify k _ _ (-(value : Int)) (fun e => by simp [sub_eq_add_neg]),
    valueAt_ensure, valueAt_ensure]
  generalize hashCode fromAddr asset = hf
  generalize hashCode toAddr asset = ht
  by_cases h₁ : k = hf
  · subst h₁
    by_cases h₂ : k = ht
    · subst h₂
      cases valueAt l k <;> simp
    · cases valueAt l k <;> simp [h₂, sub_eq_add_neg]
  · by_cases h₂ : k = ht
    · subst h₂
      cases valueAt l k <;> simp [h₁]
    · simp [h₁, h₂]

theorem netAt_of_not_touches (hashCode : String → String → Int) (k : Int) (ms : List Movement)
    (h : touches hashCode k ms = false) : netAt hashCode k ms = 0 := by
  induction ms with
  | nil => rfl
  | cons m ms ih =>
    simp only [touches, List.any_cons, Bool.or_eq_false_iff, decide_eq_false_iff_not] at h
    obtain ⟨⟨h₁, h₂⟩, h₃⟩ := h
    have ih' := ih h₃
    simp only [netAt, List.map_cons, List.sum_cons] at ih' ⊢
    simp [h₁, h₂, ih']

theorem touches_append (hashCode : String → String → Int) (k : Int) (a b : List Movement) :
    touches hashCode k (a ++ b) = (touches hashCode k a || touches hashCode k b) := by
  simp [touches, List.any_append]

theorem netAt_append (hashCode : String → String → Int) (k : Int) (a b : List Movement) :
    netAt hashCode k (a ++ b) = netAt hashCode k a + netAt hashCode k b := by
  simp [netAt, List.map_append, List.sum_append]

theorem viewAfter_append (hashCode : String → String → Int) (k : Int) (a b : List Movement)
    (v : Option Int) :
    viewAfter hashCode k (a ++ b) v = viewAfter hashCode k b (viewAfter hashCode k a v) := by
  unfold viewAfter
  rw [touches_append, netAt_append]
  cases ha : touches hashCode k a <;> cases hb : touches hashCode k b
  · simp
  · simp [netAt_of_not_touches hashCode k a ha]
  · simp [netAt_of_not_touches hashCode k b hb]
  · simp [add_assoc]

theorem accumulate_eq_foldl (hashCode : String → String → Int) (l : Ledger) (tx : TxEvent) :
    accumulate hashCode l tx =
      (acceptedTransfers tx).foldl (applyMovement hashCode tx.hash tx.txFrom tx.blockNumber) l := by
  unfold accumulate acceptedTransfers
  simp only [List.foldl_append, List.foldl_map]
  have h : ∀ (ts : List TraceAction) (l : Ledger),
      ts.foldl (applyTrace hashCode tx.hash tx.txFrom tx.blockNumber) l =
        (ts.filter acceptsTrace).foldl
          (fun l t => applyMovement hashCode tx.hash tx.txFrom tx.blockNumber l (traceMovement t))
          l := by
    intro ts
    induction ts with
    | nil => intro l; rfl
    | cons t ts ih =>
      intro l
      by_cases ht : acceptsTrace t = true
      · simp [List.filter_cons, ht, ih, applyTrace, applyMovement, traceMovement]
      · simp [List.filter_cons, ht, ih, applyTrace]
  rw [h]
  rfl

theorem valueAt_foldl_applyMovement (hashCode : String → String → Int) (hash txFrom : String)
    (blockNumber : Int) (k : Int) (ms : List Movement) (l : Ledger) :
    valueAt (ms.foldl (applyMovement hashCode hash txFrom blockNumber) l) k =
      viewAfter hashCode k ms (valueAt l k) := by
  induction ms generalizing l with
  | nil => simp [viewAfter, touches]
  | cons m ms ih =>
    have h := viewAfter_append hashCode k [m] ms (valueAt l k)
    simp only [List.singleton_append] at h
    rw [List.foldl_cons, ih, h]
    congr 1
    rw [applyMovement, valueAt_recordTransfer]
    simp [viewAfter, touches, netAt, add_sub_assoc]

theorem valueAt_runTransactions (hashCode : String → String → Int) (k : Int)
    (txs : List TxEvent) (s : State) :
    valueAt (runTransactions hashCode s txs).transfersObj k =
      viewAfter hashCode k (txs.flatMap acceptedTransfers) (valueAt s.transfersObj k) := by
  induction txs generalizing s with
  | nil => simp [runTransactions, viewAfter, touches]
  | cons tx txs ih =>
    have h := ih (handleTransaction hashCode s tx).2
    simp only [runTransactions, List.foldl_cons] at h ⊢
    rw [h, List.flatMap_cons, viewAfter_append]
    congr 1
    simp only [handleTransaction]
    rw [accumulate_eq_foldl, valueAt_foldl_applyMovement]

theorem viewAfter_perm (hashCode : String → String → Int) (k : Int) {a b : List Movement}
    (h : a.Perm b) (v : Option Int) : viewAfter hashCode k a v = viewAfter hashCode k b v := by
  have h₁ : touches hashCode k a = touches hashCode k b := by
    unfold touches
    rw [Bool.eq_iff_iff]
    simp only [List.any_eq_true]
    constructor
    · rintro ⟨m, hm, hp⟩; exact ⟨m, h.mem_iff.mp hm, hp⟩
    · rintro ⟨m, hm, hp⟩; exact ⟨m, h.mem_iff.mpr hm, hp⟩
  have h₂ : netAt hashCode k a = netAt hashCode k b := by
    unfold netAt
    exact (h.map _).sum_eq
  simp [viewAfter, h₁, h₂]

/-! ## Keys of the ledger -/

theorem pairKey_injective : Function.Injective (Function.uncurry pairKey) := by
  have hc : Function.Injective Char.toNat :=
    Function.LeftInverse.injective Char.ofNat_toNat
  rintro ⟨a, x⟩ ⟨a', x'⟩ h
  simp only [Function.uncurry, pairKey, Nat.cast_inj] at h
  have h' := Encodable.encode_injective h
  simp only [Prod.mk.injEq] at h'
  have h₁ := String.ext ((List.map_injective_iff.mpr hc) h'.1)
  have h₂ := String.ext ((List.map_injective_iff.mpr hc) h'.2)
  rw [h₁, h₂]

theorem keyedBy_ensure (hashCode : String → String → Int) (k : Int) (fresh : TransferEntry)
    (l : Ledger) (hk : hashCode fresh.address fresh.asset = k) (h : KeyedBy hashCode l) :
    KeyedBy hashCode (ensure k fresh l) := by
  intro k' e he
  rw [lookup_ensure] at he
  by_cases hkk : k' = k
  · subst hkk
    simp only [if_true, Option.some.injEq] at he
    cases hl : lookup k' l with
    | none => rw [hl] at he; simp at he; rw [← he]; exact hk
    | some e₀ => rw [hl] at he; simp at he; rw [← he]; exact h k' e₀ hl
  · simp only [hkk, if_false] at he
    exact h k' e he

theorem keyedBy_modify (hashCode : String → String → Int) (k : Int)
    (f : TransferEntry → TransferEntry) (l : Ledger)
    (hf : ∀ e, (f e).address = e.address ∧ (f e).asset = e.asset) (h : KeyedBy hashCode l) :
    KeyedBy hashCode (modify k f l) := by
  intro k' e he
  rw [lookup_modify] at he
  by_cases hkk : k' = k
  · simp only [hkk, if_true] at he
    cases hl : lookup k l with
    | none => rw [hl] at he; simp at he
    | some e₀ =>
      rw [hl] at he
      simp only [Option.map_some', Option.some.injEq] at he
      rw [← he, (hf e₀).1, (hf e₀).2, hkk]
      exact h k e₀ hl
  · simp only [hkk, if_false] at he
    exact h k' e he

theorem keyedBy_recordTransfer (hashCode : String → String → Int) (hash txFrom : String)
    (blockNumber : Int) (asset fromAddr toAddr : String) (value : Nat) (l : Ledger)
    (h : KeyedBy hashCode l) :
    KeyedBy hashCode
      (recordTransfer hashCode hash txFrom blockNumber asset fromAddr toAddr value l) := by
  unfold recordTransfer
  simp only []
  refine keyedBy_modify _ _ _ _ (fun _ => ⟨rfl, rfl⟩) ?_
  refine keyedBy_modify _ _ _ _ (fun _ => ⟨rfl, rfl⟩) ?_
  refine keyedBy_modify _ _ _ _ (fun _ => ⟨rfl, rfl⟩) ?_
  refine keyedBy_ensure _ _ _ _ rfl ?_
  exact keyedBy_ensure _ _ _ _ rfl h

theorem keyedBy_accumulate (hashCode : String → String → Int) (tx : TxEvent) (l : Ledger)
    (h : KeyedBy hashCode l) : KeyedBy hashCode (accumulate hashCode l tx) := by
  rw [accumulate_eq_foldl]
  generalize acceptedTransfers tx = ms
  induction ms generalizing l with
  | nil => exact h
  | cons m ms ih => exact ih _ (keyedBy_recordTransfer _ _ _ _ _ _ _ _ _ h)

theorem keyedBy_runTransactions (hashCode : String → String → Int) (txs : List TxEvent)
    (s : State) (h : KeyedBy hashCode s.transfersObj) :
    KeyedBy hashCode (runTransactions hashCode s txs).transfersObj := by
  induction txs generalizing s with
  | nil => exact h
  | cons tx txs ih => exact ih _ (keyedBy_accumulate hashCode tx _ h)

theorem netAt_of_injective (hashCode : String → String → Int)
    (hinj : Function.Injective (Function.uncurry hashCode)) (A X : String) (ms : List Movement) :
    netAt hashCode (hashCode A X) ms = inflow ms A X - outflow ms A X := by
  have key : ∀ a x : String, hashCode A X = hashCode a x ↔ (x = X ∧ a = A) := by
    intro a x
    constructor
    · intro h
      have := @hinj (A, X) (a, x) h
      simp only [Prod.mk.injEq] at this
      exact ⟨this.2.symm, this.1.symm⟩
    · rintro ⟨rfl, rfl⟩; rfl
  induction ms with
  | nil => simp [netAt, inflow, outflow]
  | cons m ms ih =>
    simp only [netAt, inflow, outflow, List.map_cons, List.sum_cons] at ih ⊢
    rw [ih]
    simp only [key]
    ring

/-! ## Value accumulator -/

/-- C1. With an injective key function, after any list of transactions handled
from the empty ledger, every pair (A, X) touched by an accepted transfer has an
entry, recorded for address A and asset X, whose value is the sum of the
accepted transfers of X received by A minus the sum of those sent by A. -/
theorem ledger_value_is_signed_sum (hashCode : String → String → Int)
    (hinj : Function.Injective (Function.uncurry hashCode)) (count : Nat)
    (txs : List TxEvent) (A X : String)
    (htouch : ∃ m ∈ txs.flatMap acceptedTransfers,
      m.asset = X ∧ (m.fromAddr = A ∨ m.toAddr = A)) :
    ∃ e, lookup (hashCode A X)
        (runTransactions hashCode { transfersObj := [], transfersCount := count } txs).transfersObj
          = some e ∧
      e.address = A ∧ e.asset = X ∧
      e.value = inflow (txs.flatMap acceptedTransfers) A X
        - outflow (txs.flatMap acceptedTransfers) A X := by
  have hv := valueAt_runTransactions hashCode (hashCode A X) txs
    { transfersObj := [], transfersCount := count }
  have ht : touches hashCode (hashCode A X) (txs.flatMap acceptedTransfers) = true := by
    obtain ⟨m, hm, hX, hA⟩ := htouch
    simp only [touches, List.any_eq_true, Bool.or_eq_true, decide_eq_true_eq]
    refine ⟨m, hm, ?_⟩
    rcases hA with hA | hA
    · left; rw [hX, hA]
    · right; rw [hX, hA]
  simp only [viewAfter, ht, if_true, valueAt, lookup, Option.map_none', Option.getD_none,
    zero_add] at hv
  cases hl : lookup (hashCode A X)
      (runTransactions hashCode { transfersObj := [], transfersCount := count } txs).transfersObj with
  | none => rw [hl] at hv; simp at hv
  | some e =>
    rw [hl] at hv
    simp only [Option.map_some', Option.some.injEq] at hv
    have hk := keyedBy_runTransactions hashCode txs { transfersObj := [], transfersCount := count }
      (by intro k e he; simp [lookup] at he) _ _ hl
    have hk' := @hinj (e.address, e.asset) (A, X) hk
    simp only [Prod.mk.injEq] at hk'
    exact ⟨e, rfl, hk'.1, hk'.2, by rw [hv, netAt_of_injective hashCode hinj]⟩

/-- C2. Two lists of transactions whose accepted transfers are permutations of
each other (reordered transactions, reordered events, events moved between
transactions) leave, from any state, ledgers with the same keys and the same
value under every key. -/
theorem accumulation_order_independent (hashCode : String → String → Int) (s : State)
    (txs₁ txs₂ : List TxEvent)
    (h : (txs₁.flatMap acceptedTransfers).Perm (txs₂.flatMap acceptedTransfers)) :
    (∀ k, k ∈ (runTransactions hashCode s txs₁).transfersObj.map Prod.fst ↔
        k ∈ (runTransactions hashCode s txs₂).transfersObj.map Prod.fst) ∧
      ∀ k, (lookup k (runTransactions hashCode s txs₁).transfersObj).map TransferEntry.value =
        (lookup k (runTransactions hashCode s txs₂).transfersObj).map TransferEntry.value := by
  have hv : ∀ k, valueAt (runTransactions hashCode s txs₁).transfersObj k =
      valueAt (runTransactions hashCode s txs₂).transfersObj k := by
    intro k
    rw [valueAt_runTransactions, valueAt_runTransactions, viewAfter_perm hashCode k h]
  refine ⟨fun k => ?_, hv⟩
  have hk := hv k
  rw [mem_keys_iff, mem_keys_iff]
  unfold valueAt at hk
  cases h₁ : lookup k (runTransactions hashCode s txs₁).transfersObj <;>
    cases h₂ : lookup k (runTransactions hashCode s txs₂).transfersObj <;>
    simp [h₁, h₂] at hk ⊢

/-- Worked example: the net value of `0xC` in token `0xt` after the two sample
transactions, under an injective key function. -/
theorem ledger_value_is_signed_sum_witness :
    Function.Injective (Function.uncurry pairKey) ∧
    (∃ m ∈ [sampleDrainTx, sampleNativeTx].flatMap acceptedTransfers,
      m.asset = "0xt" ∧ (m.fromAddr = "0xC" ∨ m.toAddr = "0xC")) ∧
    inflow ([sampleDrainTx, sampleNativeTx].flatMap acceptedTransfers) "0xC" "0xt"
      - outflow ([sampleDrainTx, sampleNativeTx].flatMap acceptedTransfers) "0xC" "0xt"
      = -999990 ∧
    ∃ e, lookup (pairKey "0xC" "0xt")
        (runTransactions pairKey { transfersObj := [], transfersCount := 0 }
          [sampleDrainTx, sampleNativeTx]).transfersObj = some e ∧
      e.address = "0xC" ∧ e.asset = "0xt" ∧
      e.value = inflow ([sampleDrainTx, sampleNativeTx].flatMap acceptedTransfers) "0xC" "0xt"
        - outflow ([sampleDrainTx, sampleNativeTx].flatMap acceptedTransfers) "0xC" "0xt" :=
  ⟨pairKey_injective, by decide, by decide,
    ledger_value_is_signed_sum pairKey pairKey_injective 0 [sampleDrainTx, sampleNativeTx]
      "0xC" "0xt" (by decide)⟩

/-- Worked example: the two sample transactions handled in either order. -/
theorem accumulation_order_independent_witness :
    ([sampleDrainTx, sampleNativeTx].flatMap acceptedTransfers).Perm
      ([sampleNativeTx, sampleDrainTx].flatMap acceptedTransfers) ∧
    ((∀ k, k ∈ (runTransactions pairKey { transfersObj := [], transfersCount := 0 }
          [sampleDrainTx, sampleNativeTx]).transfersObj.map Prod.fst ↔
        k ∈ (runTransactions pairKey { transfersObj := [], transfersCount := 0 }
          [sampleNativeTx, sampleDrainTx]).transfersObj.map Prod.fst) ∧
      ∀ k, (lookup k (runTransactions pairKey { transfersObj := [], transfersCount := 0 }
          [sampleDrainTx, sampleNativeTx]).transfersObj).map TransferEntry.value =
        (lookup k (runTransactions pairKey { transfersObj := [], transfersCount := 0 }
          [sampleNativeTx, sampleDrainTx]).transfersObj).map TransferEntry.value) :=
  ⟨by decide,
    accumulation_order_independent pairKey { transfersObj := [], transfersCount := 0 }
      [sampleDrainTx, sampleNativeTx] [sampleNativeTx, sampleDrainTx] (by decide)⟩

/-! ## Stages of the block pass -/

theorem balanceFilter_sound (pre post : List CallResult) (ts : Ledger) :
    ∀ (i : Nat) (T : Ledger) (Bs : List (Nat × Nat)),
      balanceFilter pre post i ts = Except.ok (T, Bs) →
      T.length = Bs.length ∧
      ∀ x ∈ T.zip Bs, ∃ j p q, ts[j]? = some x.1 ∧ pre[i + j]? = some p ∧
        post[i + j]? = some q ∧ balanceCheck p q = true ∧
        x.2 = (p.returnData, q.returnData) := by
  induction ts with
  | nil =>
    intro i T Bs h
    simp only [balanceFilter, Except.ok.injEq, Prod.mk.injEq] at h
    obtain ⟨rfl, rfl⟩ := h
    simp
  | cons t ts ih =>
    intro i T Bs h
    have lift : ∀ (T' : Ledger) (Bs' : List (Nat × Nat)),
        balanceFilter pre post (i + 1) ts = Except.ok (T', Bs') →
        ∀ x ∈ T'.zip Bs', ∃ j p q, (t :: ts)[j]? = some x.1 ∧ pre[i + j]? = some p ∧
          post[i + j]? = some q ∧ balanceCheck p q = true ∧
          x.2 = (p.returnData, q.returnData) := by
      intro T' Bs' h' x hx
      obtain ⟨j, p, q, h₁, h₂, h₃, h₄, h₅⟩ := (ih (i + 1) T' Bs' h').2 x hx
      refine ⟨j + 1, p, q, by simpa using h₁, ?_, ?_, h₄, h₅⟩
      · rw [← h₂]; congr 1; omega
      · rw [← h₃]; congr 1; omega
    unfold balanceFilter at h
    cases hq : post[i]? with
    | none => simp [hq] at h
    | some q =>
      simp only [hq] at h
      by_cases hs : q.success = true
      · simp only [hs, if_true] at h
        cases hp : pre[i]? with
        | none => simp [hp] at h
        | some p =>
          simp only [hp] at h
          cases hr : balanceFilter pre post (i + 1) ts with
          | error e => simp [hr] at h
          | ok r =>
            obtain ⟨T', Bs'⟩ := r
            simp only [hr] at h
            by_cases hc : balanceCheck p q = true
            · simp only [hc, if_true, Except.ok.injEq, Prod.mk.injEq] at h
              obtain ⟨rfl, rfl⟩ := h
              refine ⟨by simp [(ih (i + 1) T' Bs' hr).1], ?_⟩
              intro x hx
              simp only [List.zip_cons_cons, List.mem_cons] at hx
              rcases hx with rfl | hx
              · exact ⟨0, p, q, by simp, by simpa using hp, by simpa using hq, hc, rfl⟩
              · exact lift T' Bs' hr x hx
            · simp only [hc, Except.ok.injEq, Prod.mk.injEq] at h
              obtain ⟨rfl, rfl⟩ := h
              exact ⟨(ih (i + 1) T Bs hr).1, lift T Bs hr⟩
      · simp only [hs] at h
        exact ⟨(ih (i + 1) T Bs h).1, lift T Bs h⟩

theorem balanceFilter_eq (ts : Ledger) :
    ∀ (pre₀ post₀ pre post : List CallResult), pre₀.length = post₀.length →
      pre.length = ts.length → post.length = ts.length →
      balanceFilter (pre₀ ++ pre) (post₀ ++ post) pre₀.length ts =
        Except.ok ((keptByBalance ts pre post).map (fun x => x.1),
          (keptByBalance ts pre post).map (fun x => (x.2.1.returnData, x.2.2.returnData))) := by
  induction ts with
  | nil => intro pre₀ post₀ pre post _ _ _; simp [balanceFilter, keptByBalance]
  | cons t ts ih =>
    intro pre₀ post₀ pre post h₀ h₁ h₂
    cases pre with
    | nil => simp at h₁
    | cons p pre =>
      cases post with
      | nil => simp at h₂
      | cons q post =>
        simp only [List.length_cons, add_left_inj] at h₁ h₂
        have hp : (pre₀ ++ p :: pre)[pre₀.length]? = some p := by
          rw [List.getElem?_append_right (le_refl _)]; simp
        have hq : (post₀ ++ q :: post)[pre₀.length]? = some q := by
          rw [h₀, List.getElem?_append_right (le_refl _)]; simp
        have hrec := ih (pre₀ ++ [p]) (post₀ ++ [q]) pre post (by simp [h₀]) h₁ h₂
        simp only [List.append_assoc, List.singleton_append, List.length_append,
          List.length_singleton] at hrec
        unfold balanceFilter
        simp only [hp, hq, hrec]
        by_cases hs : q.success = true
        · by_cases hc : balanceCheck p q = true
          · simp [hs, hc, keptByBalance, List.filter_cons]
          · simp [hs, hc, keptByBalance, List.filter_cons]
        · have hc : balanceCheck p q = false := by simp [balanceCheck, hs]
          simp [hs, hc, keptByBalance, List.filter_cons]

theorem promiseAll_map_of_forall {α β : Type} (f : α → Except Failure β) (g : α → β)
    (xs : List α) (h : ∀ x ∈ xs, f x = Except.ok (g x)) :
    promiseAll (xs.map f) = Except.ok (xs.map g) := by
  induction xs with
  | nil => rfl
  | cons x xs ih =>
    have hx := h x (List.mem_cons_self _ _)
    have ih' := ih fun y hy => h y (List.mem_cons_of_mem _ hy)
    simp [promiseAll, hx, ih']

theorem promiseAll_map_ok_inv {α β : Type} (f : α → Except Failure β) (xs : List α)
    (ys : List β) (h : promiseAll (xs.map f) = Except.ok ys) :
    ∀ x ∈ xs, ∃ y, f x = Except.ok y := by
  induction xs generalizing ys with
  | nil => intro x hx; simp at hx
  | cons x xs ih =>
    simp only [List.map_cons] at h
    cases hx : f x with
    | error e => simp [promiseAll, hx] at h
    | ok y =>
      cases hr : promiseAll (xs.map f) with
      | error e => simp [promiseAll, hx, hr] at h
      | ok ys' =>
        intro z hz
        rcases List.mem_cons.mp hz with rfl | hz
        · exact ⟨y, hx⟩
        · exact ih ys' hr z hz

theorem ownershipCallback_eq (c : Collaborators) (t : Int × TransferEntry) (ty : AddressType)
    (h : c.getAddressType t.2.address = Except.ok ty) :
    ownershipCallback c t = Except.ok (if isContract c t then some t else none) := by
  unfold ownershipCallback isContract
  rw [h]
  cases ty <;> simp

theorem nullifyBalances_map (g : Int × TransferEntry → Option (Int × TransferEntry))
    (T : Ledger) :
    ∀ (done : List (Option (Nat × Nat))) (Bs : List (Nat × Nat)), Bs.length = T.length →
      nullifyBalances done.length (T.map g) (done ++ Bs.map some) =
        done ++ (T.zip Bs).map fun x => if (g x.1).isSome then some x.2 else none := by
  induction T with
  | nil => intro done Bs h; cases Bs <;> simp_all [nullifyBalances]
  | cons t T ih =>
    intro done Bs h
    cases Bs with
    | nil => simp at h
    | cons b Bs =>
      simp only [List.length_cons, add_left_inj] at h
      simp only [List.map_cons, List.zip_cons_cons]
      cases hg : g t with
      | some t' =>
        have := ih (done ++ [some b]) Bs h
        simp only [List.length_append, List.length_singleton, List.append_assoc,
          List.singleton_append] at this
        simp [nullifyBalances, this]
      | none =>
        have := ih (done ++ [none]) Bs h
        simp only [List.length_append, List.length_singleton, List.append_assoc,
          List.singleton_append] at this
        simp [nullifyBalances, this]

theorem filterMap_id_marks {α β : Type} (P : α → Bool) (l : List (α × β)) :
    (l.map fun x => if P x.1 then some x.2 else none).filterMap id =
      (l.filter fun x => P x.1).map Prod.snd := by
  induction l with
  | nil => rfl
  | cons x l ih =>
    by_cases hx : P x.1 = true <;> simp_all [List.filter_cons]

theorem filterMap_id_marked {α : Type} (P : α → Bool) (l : List α) :
    (l.map fun x => if P x then some x else none).filterMap id = l.filter P := by
  induction l with
  | nil => rfl
  | cons x l ih =>
    by_cases hx : P x = true <;> simp_all [List.filter_cons]

theorem filter_fst_zip {α β : Type} (P : α → Bool) (T : List α) :
    ∀ Bs : List β, T.length = Bs.length →
      ((T.zip Bs).filter fun x => P x.1).map Prod.fst = T.filter P := by
  induction T with
  | nil => intro Bs _; simp
  | cons t T ih =>
    intro Bs h
    cases Bs with
    | nil => simp at h
    | cons b Bs =>
      simp only [List.length_cons, add_left_inj] at h
      by_cases ht : P t = true <;> simp [List.filter_cons, ht, ih Bs h]

theorem ownershipFilter_of_answers (c : Collaborators) (T : Ledger) (Bs : List (Nat × Nat))
    (hlen : T.length = Bs.length)
    (hall : ∀ t ∈ T, ∃ ty, c.getAddressType t.2.address = Except.ok ty) :
    ownershipFilter c T Bs =
      Except.ok ((keptByOwnership c T Bs).map Prod.fst, (keptByOwnership c T Bs).map Prod.snd) := by
  have hp := promiseAll_map_of_forall (ownershipCallback c)
    (fun t => if isContract c t then some t else none) T
    (fun t ht => by obtain ⟨ty, hty⟩ := hall t ht; exact ownershipCallback_eq c t ty hty)
  have hn := nullifyBalances_map (fun t => if isContract c t then some t else none) T [] Bs
    hlen.symm
  simp only [List.length_nil, List.nil_append] at hn
  unfold ownershipFilter
  rw [hp]
  simp only [hn, keptByOwnership, filterMap_id_marked, filter_fst_zip (isContract c) T Bs hlen]
  congr 2
  rw [← filterMap_id_marks (isContract c) (T.zip Bs)]
  congr 2
  funext x
  by_cases hx : isContract c x.1 = true <;> simp [hx]

theorem ownershipFilter_ok_inv (c : Collaborators) (T : Ledger) (Bs : List (Nat × Nat))
    (R : Ledger × List (Nat × Nat)) (h : ownershipFilter c T Bs = Except.ok R) :
    ∀ t ∈ T, ∃ ty, c.getAddressType t.2.address = Except.ok ty := by
  unfold ownershipFilter at h
  cases hp : promiseAll (T.map (ownershipCallback c)) with
  | error e => simp [hp] at h
  | ok marked =>
    intro t ht
    obtain ⟨m, hm⟩ := promiseAll_map_ok_inv _ T marked hp t ht
    unfold ownershipCallback at hm
    cases hty : c.getAddressType t.2.address with
    | error e => simp [hty] at hm
    | ok ty => exact ⟨ty, rfl⟩

theorem valuationStep_eq (cfg : Config) (c : Collaborators) (blockNumber : Int)
    (balances : List (Nat × Nat)) (acc : Ledger × List (Nat × Nat))
    (transfer : Int × TransferEntry) (i : Nat) :
    valuationStep cfg c blockNumber balances acc transfer i =
      match balances[i]? with
      | none => Except.error Failure.typeError
      | some b =>
        match shouldInclude cfg c blockNumber transfer b with
        | Except.error e => Except.error e
        | Except.ok inc =>
          Except.ok (if inc then (acc.1 ++ [transfer], acc.2 ++ [b]) else acc) := by
  unfold valuationStep shouldInclude
  cases balances[i]? with
  | none => rfl
  | some b =>
    simp only []
    cases c.getValueInUsd blockNumber cfg.chainId ((b.1 : Int) - (b.2 : Int)) transfer.2.asset with
    | error e => rfl
    | ok value =>
      simp only []
      by_cases h₁ : value > c.USD_VALUE_THRESHOLD
      · simp only [if_pos h₁, if_true]
      · by_cases h₂ : value = 0 ∧ transfer.2.asset ≠ "native"
        · simp only [if_neg h₁, if_pos h₂]
          cases c.getTotalSupply blockNumber transfer.2.asset with
          | error e => rfl
          | ok totalSupply =>
            simp only []
            by_cases h₃ : (b.1 : Int) - (b.2 : Int) > ((totalSupply / 20 : Nat) : Int)
            · rw [if_pos h₃, decide_eq_true h₃]; rfl
            · rw [if_neg h₃, decide_eq_false h₃]; rfl
        · simp only [if_neg h₁, if_neg h₂, Bool.false_eq_true, if_false]

theorem valuationFilter_ok (cfg : Config) (c : Collaborators) (blockNumber : Int)
    (balances : List (Nat × Nat)) (ts : Ledger) :
    ∀ (i : Nat) (acc R : Ledger × List (Nat × Nat)),
      valuationFilter cfg c blockNumber balances i ts acc = Except.ok R →
      R = (acc.1 ++ ((ts.zip (balances.drop i)).filter
              (passesValuation cfg c blockNumber)).map Prod.fst,
           acc.2 ++ ((ts.zip (balances.drop i)).filter
              (passesValuation cfg c blockNumber)).map Prod.snd) := by
  induction ts with
  | nil => intro i acc R h; simp [valuationFilter] at h; simp [← h]
  | cons t ts ih =>
    intro i acc R h
    unfold valuationFilter at h
    rw [valuationStep_eq] at h
    cases hb : balances[i]? with
    | none => simp [hb] at h
    | some b =>
      have hi : i < balances.length := by
        by_contra hcon
        rw [List.getElem?_eq_none (by omega)] at hb
        simp at hb
      have hd : balances.drop i = b :: balances.drop (i + 1) := by
        rw [List.drop_eq_getElem_cons hi]
        congr 1
        rw [List.getElem?_eq_getElem hi] at hb
        exact Option.some.inj hb
      simp only [hb] at h
      cases hs : shouldInclude cfg c blockNumber t b with
      | error e => simp [hs] at h
      | ok inc =>
        simp only [hs] at h
        have := ih (i + 1) _ R h
        rw [this, hd]
        cases inc <;> simp [List.filter_cons, passesValuation, hs]

theorem emitAll_sound (cfg : Config) (c : Collaborators) (FB : List (Nat × Nat)) (F : Ledger) :
    ∀ (i count : Nat) (findings : List Finding),
      promiseAll (emitAll cfg c FB i count F) = Except.ok findings →
      ∀ f ∈ findings, ∃ j t b score, F[j]? = some t ∧ FB[i + j]? = some b ∧
        f = buildFinding t.2 b score := by
  induction F with
  | nil =>
    intro i count findings h f hf
    simp only [emitAll, promiseAll, Except.ok.injEq] at h
    subst h
    simp at hf
  | cons t F ih =>
    intro i count findings h f hf
    unfold emitAll at h
    generalize hcount : (if cfg.isRelevantChain = true then count + 1 else count) = count' at h
    cases he : emitCallback cfg c FB count' t i with
    | error e => simp [promiseAll, he] at h
    | ok f₀ =>
      cases hr : promiseAll (emitAll cfg c FB (i + 1) count' F) with
      | error e => simp [promiseAll, he, hr] at h
      | ok fs =>
        simp only [promiseAll, he, hr, Except.ok.injEq] at h
        subst h
        rcases List.mem_cons.mp hf with rfl | hf
        · unfold emitCallback at he
          cases hsc : c.calculateAlertRate cfg.chainId BOT_ID "ASSET-DRAINED"
              (if cfg.isRelevantChain then ScanCountType.CustomScanCount
               else ScanCountType.TransferCount) count' with
          | error e => simp [hsc] at he
          | ok score =>
            simp only [hsc] at he
            cases hb : FB[i]? with
            | none => simp [hb] at he
            | some b =>
              simp only [hb, Except.ok.injEq] at he
              exact ⟨0, t, b, score, by simp, by simpa using hb, he.symm⟩
        · obtain ⟨j, t', b, score, h₁, h₂, h₃⟩ := ih (i + 1) count' fs hr f hf
          refine ⟨j + 1, t', b, score, by simpa using h₁, ?_, h₃⟩
          rw [← h₂]; congr 1; omega

theorem zip_fst_snd {α β : Type} (l : List (α × β)) :
    (l.map Prod.fst).zip (l.map Prod.snd) = l := by
  induction l with
  | nil => rfl
  | cons x l ih => simp [ih]

theorem mem_zip_attachSymbols (T : Ledger) :
    ∀ (symbols : List String) (Bs : List (Nat × Nat)) (x : (Int × TransferEntry) × (Nat × Nat)),
      x ∈ (attachSymbols T symbols).zip Bs →
      ∃ t sym, (t, x.2) ∈ T.zip Bs ∧ x.1 = (t.1, { t.2 with symbol := some sym }) := by
  induction T with
  | nil => intro symbols Bs x hx; simp [attachSymbols] at hx
  | cons t T ih =>
    intro symbols Bs x hx
    cases symbols with
    | nil => simp [attachSymbols] at hx
    | cons sym symbols =>
      cases Bs with
      | nil => simp at hx
      | cons b Bs =>
        simp only [attachSymbols, List.zipWith_cons_cons, List.zip_cons_cons,
          List.mem_cons] at hx
        rcases hx with rfl | hx
        · exact ⟨t, sym, by simp, rfl⟩
        · obtain ⟨t', sym', h₁, h₂⟩ := ih symbols Bs x hx
          exact ⟨t', sym', by simp [h₁], h₂⟩

theorem isContract_iff (c : Collaborators) (t : Int × TransferEntry) :
    isContract c t = true ↔ c.getAddressType t.2.address = Except.ok AddressType.Contract := by
  unfold isContract
  cases h : c.getAddressType t.2.address with
  | error e => simp
  | ok ty => cases ty <;> simp

theorem insertAt_perm {α : Type} (k : Nat) (x : α) (l : List α) :
    (insertAt k x l).Perm (x :: l) := by
  have h : (l.take k ++ x :: l.drop k).Perm (x :: (l.take k ++ l.drop k)) := List.perm_middle
  rw [List.take_append_drop] at h
  exact h

theorem settleOrder_perm {α : Type} (rank : Nat → Nat) (pending : List α) :
    ∀ (j : Nat) (settled : List α),
      (settleOrder rank j settled pending).Perm (settled ++ pending) := by
  induction pending with
  | nil => intro j settled; simp [settleOrder]
  | cons x pending ih =>
    intro j settled
    unfold settleOrder
    refine (ih (j + 1) (insertAt (rank j) x settled)).trans ?_
    exact ((insertAt_perm (rank j) x settled).append_right pending).trans List.perm_middle.symm

theorem promiseAll_ok_inv {α : Type} (l : List (Except Failure α)) :
    ∀ as : List α, promiseAll l = Except.ok as →
      (∀ r ∈ l, ∃ a, r = Except.ok a) ∧ as = l.filterMap Except.toOption := by
  induction l with
  | nil =>
    intro as h
    simp only [promiseAll, Except.ok.injEq] at h
    subst h
    simp
  | cons r l ih =>
    intro as h
    cases r with
    | error e => simp [promiseAll] at h
    | ok a =>
      cases hr : promiseAll l with
      | error e => simp [promiseAll, hr] at h
      | ok rest =>
        simp only [promiseAll, hr, Except.ok.injEq] at h
        subst h
        obtain ⟨h₁, h₂⟩ := ih rest hr
        refine ⟨?_, ?_⟩
        · intro r hmem
          rcases List.mem_cons.mp hmem with rfl | hmem
          · exact ⟨a, rfl⟩
          · exact h₁ r hmem
        · simp [List.filterMap_cons, Except.toOption, h₂]

theorem promiseAll_ok_of_forall {α : Type} (l : List (Except Failure α))
    (h : ∀ r ∈ l, ∃ a, r = Except.ok a) :
    promiseAll l = Except.ok (l.filterMap Except.toOption) := by
  induction l with
  | nil => rfl
  | cons r l ih =>
    obtain ⟨a, rfl⟩ := h r (List.mem_cons_self _ _)
    have := ih fun r hr => h r (List.mem_cons_of_mem _ hr)
    simp [promiseAll, this, List.filterMap_cons, Except.toOption]

theorem promiseAll_perm_ok {α : Type} (l₁ l₂ : List (Except Failure α)) (hp : l₁.Perm l₂)
    (as : List α) (h : promiseAll l₁ = Except.ok as) :
    ∃ bs, promiseAll l₂ = Except.ok bs ∧ as.Perm bs := by
  obtain ⟨hall, has⟩ := promiseAll_ok_inv l₁ as h
  refine ⟨l₂.filterMap Except.toOption,
    promiseAll_ok_of_forall l₂ (fun r hr => hall r (hp.mem_iff.mpr hr)), ?_⟩
  rw [has]
  exact hp.filterMap _

theorem handleBlock_ok_inv (cfg : Config) (c : Collaborators) (s s' : State) (blockNumber : Int)
    (findings : List Finding)
    (h : handleBlock cfg c s blockNumber = (Except.ok findings, s')) :
    ∃ pre post T₁ B₁ T₂ B₂ symbols F FB emitted,
      c.tryAll ((selectTransfers cfg s.transfersObj blockNumber).map fun e => balanceCall e.2)
        (preDrainBlock cfg blockNumber) = Except.ok pre ∧
      c.tryAll ((selectTransfers cfg s.transfersObj blockNumber).map fun e => balanceCall e.2)
        (postDrainBlock cfg blockNumber) = Except.ok post ∧
      balanceFilter pre post 0 (selectTransfers cfg s.transfersObj blockNumber)
        = Except.ok (T₁, B₁) ∧
      ownershipFilter c T₁ B₁ = Except.ok (T₂, B₂) ∧
      promiseAll (T₂.map fun t => c.getAssetSymbol t.2.asset) = Except.ok symbols ∧
      valuationFilter cfg c blockNumber B₂ 0 (attachSymbols T₂ symbols) ([], [])
        = Except.ok (F, FB) ∧
      promiseAll (emitAll cfg c FB 0 s.transfersCount F) = Except.ok emitted ∧
      findings.Perm emitted ∧
      s' = { transfersObj := []
             transfersCount :=
               if cfg.isRelevantChain then s.transfersCount + F.length else s.transfersCount } := by
  unfold handleBlock at h
  simp only [] at h
  cases h₁ : c.tryAll ((selectTransfers cfg s.transfersObj blockNumber).map fun e => balanceCall e.2)
      (preDrainBlock cfg blockNumber) with
  | error e => simp [h₁] at h
  | ok pre =>
  cases h₂ : c.tryAll ((selectTransfers cfg s.transfersObj blockNumber).map fun e => balanceCall e.2)
      (postDrainBlock cfg blockNumber) with
  | error e => simp [h₁, h₂] at h
  | ok post =>
  cases h₃ : balanceFilter pre post 0 (selectTransfers cfg s.transfersObj blockNumber) with
  | error e => simp [h₁, h₂, h₃] at h
  | ok r₁ =>
  obtain ⟨T₁, B₁⟩ := r₁
  cases h₄ : ownershipFilter c T₁ B₁ with
  | error e => simp [h₁, h₂, h₃, h₄] at h
  | ok r₂ =>
  obtain ⟨T₂, B₂⟩ := r₂
  cases h₅ : promiseAll (T₂.map fun t => c.getAssetSymbol t.2.asset) with
  | error e => simp [h₁, h₂, h₃, h₄, h₅] at h
  | ok symbols =>
  cases h₆ : valuationFilter cfg c blockNumber B₂ 0 (attachSymbols T₂ symbols) ([], []) with
  | error e => simp [h₁, h₂, h₃, h₄, h₅, h₆] at h
  | ok r₃ =>
  obtain ⟨F, FB⟩ := r₃
  cases h₇ : promiseAll (settleOrder (c.scoreArrival blockNumber) 0 []
      (emitAll cfg c FB 0 s.transfersCount F)) with
  | error e => simp [h₁, h₂, h₃, h₄, h₅, h₆, h₇] at h
  | ok fs =>
  simp only [h₁, h₂, h₃, h₄, h₅, h₆, h₇, Prod.mk.injEq, Except.ok.injEq] at h
  obtain ⟨emitted, hemitted, hperm⟩ := promiseAll_perm_ok _ _
    (settleOrder_perm (c.scoreArrival blockNumber) (emitAll cfg c FB 0 s.transfersCount F) 0 [])
    fs h₇
  rw [List.nil_append] at hemitted
  refine ⟨pre, post, T₁, B₁, T₂, B₂, symbols, F, FB, emitted, ?_, ?_, h₃, h₄, h₅, h₆,
    hemitted, ?_, h.2.symm⟩
  · rfl
  · rfl
  · rw [← h.1]
    exact hperm

/-- Where a returned finding comes from: an index of the selected list whose
two batch results pass the balance check, whose address is classified as a
contract, and whose entry and balances the finding reports. -/
theorem finding_provenance (cfg : Config) (c : Collaborators) (s s' : State) (blockNumber : Int)
    (findings : List Finding)
    (h : handleBlock cfg c s blockNumber = (Except.ok findings, s')) :
    ∀ f ∈ findings, ∃ (i : Nat) (t : Int × TransferEntry) (p q : CallResult)
      (pre post : List CallResult) (sym : String) (score : ℚ),
      (selectTransfers cfg s.transfersObj blockNumber)[i]? = some t ∧
      c.tryAll ((selectTransfers cfg s.transfersObj blockNumber).map fun e => balanceCall e.2)
        (preDrainBlock cfg blockNumber) = Except.ok pre ∧
      c.tryAll ((selectTransfers cfg s.transfersObj blockNumber).map fun e => balanceCall e.2)
        (postDrainBlock cfg blockNumber) = Except.ok post ∧
      pre[i]? = some p ∧ post[i]? = some q ∧ balanceCheck p q = true ∧
      c.getAddressType t.2.address = Except.ok AddressType.Contract ∧
      passesValuation cfg c blockNumber
        ((t.1, { t.2 with symbol := some sym }), (p.returnData, q.returnData)) = true ∧
      f = buildFinding { t.2 with symbol := some sym } (p.returnData, q.returnData) score := by
  obtain ⟨pre, post, T₁, B₁, T₂, B₂, symbols, F, FB, emitted, h₁, h₂, h₃, h₄, h₅, h₆, h₇,
      hperm, -⟩ :=
    handleBlock_ok_inv cfg c s s' blockNumber findings h
  intro f hf
  obtain ⟨j, t', b, score, hF, hFB, rfl⟩ :=
    emitAll_sound cfg c FB F 0 s.transfersCount emitted h₇ f (hperm.mem_iff.mp hf)
  have hv := valuationFilter_ok cfg c blockNumber B₂ (attachSymbols T₂ symbols) 0 ([], []) (F, FB) h₆
  simp only [List.nil_append, List.drop_zero, Prod.mk.injEq] at hv
  have hzip : (t', b) ∈ F.zip FB := by
    rw [List.mem_iff_getElem?]
    exact ⟨j, List.getElem?_zip_eq_some.mpr ⟨hF, by simpa using hFB⟩⟩
  rw [hv.1, hv.2, zip_fst_snd, List.mem_filter] at hzip
  obtain ⟨t₂, sym, hmem, ht'⟩ := mem_zip_attachSymbols T₂ symbols B₂ (t', b) hzip.1
  have hs₁ := balanceFilter_sound pre post _ 0 T₁ B₁ h₃
  have ho := ownershipFilter_of_answers c T₁ B₁ hs₁.1 (ownershipFilter_ok_inv c T₁ B₁ _ h₄)
  rw [h₄] at ho
  simp only [Except.ok.injEq, Prod.mk.injEq] at ho
  rw [ho.1, ho.2, zip_fst_snd, keptByOwnership, List.mem_filter] at hmem
  obtain ⟨i, p, q, g₁, g₂, g₃, g₄, g₅⟩ := hs₁.2 (t₂, b) hmem.1
  simp only [zero_add] at g₂ g₃
  simp only at g₅ ht'
  subst g₅
  subst ht'
  exact ⟨i, t₂, p, q, pre, post, sym, score, g₁, h₁, h₂, g₂, g₃, g₄,
    (isContract_iff c t₂).mp hmem.2, hzip.2, rfl⟩

/-! ## Enumeration order and selection -/

theorem insertByKey_perm (x : Int × TransferEntry) (l : Ledger) :
    (insertByKey x l).Perm (x :: l) := by
  induction l with
  | nil => exact List.Perm.refl _
  | cons y l ih =>
    unfold insertByKey
    by_cases h : x.1 ≤ y.1
    · simp [h]
    · simp only [h, if_false]
      exact (List.Perm.cons y ih).trans (List.Perm.swap x y l)

theorem sortByKey_perm (l : Ledger) : (sortByKey l).Perm l := by
  induction l with
  | nil => exact List.Perm.refl _
  | cons x l ih => exact (insertByKey_perm x (sortByKey l)).trans (List.Perm.cons x ih)

theorem objectEntries_perm (l : Ledger) : (objectEntries l).Perm l := by
  unfold objectEntries
  exact (List.Perm.append_right _ (sortByKey_perm _)).trans (List.filter_append_perm _ l)

theorem usesLongLag_iff (n : Nat) : usesLongLag n = true ↔ n = 56 ∨ n = 137 ∨ n = 250 := by
  simp [usesLongLag]

theorem selectTransfers_eq_filter (cfg : Config) (l : Ledger) (blockNumber : Int) :
    selectTransfers cfg l blockNumber = (objectEntries l).filter (isSelected cfg blockNumber) := by
  unfold selectTransfers
  rw [List.filter_filter, List.filter_filter]
  congr 1
  funext t
  unfold isSelected
  by_cases h : usesLongLag cfg.chainId = true
  · have h' := (usesLongLag_iff _).mp h
    simp only [h, h', if_true]
    cases decide (t.2.value < 0) <;> cases decide (t.2.address ≠ AddressZero) <;> simp
  · have h' : ¬(cfg.chainId = 56 ∨ cfg.chainId = 137 ∨ cfg.chainId = 250) :=
      fun hh => h ((usesLongLag_iff _).mpr hh)
    simp only [h, h', if_false]
    cases decide (t.2.value < 0) <;> cases decide (t.2.address ≠ AddressZero) <;> simp

theorem ensure_keys (k : Int) (fresh : TransferEntry) (l : Ledger)
    (h : (l.map Prod.fst).Nodup) : ((ensure k fresh l).map Prod.fst).Nodup := by
  unfold ensure
  cases hl : lookup k l with
  | some e => exact h
  | none =>
    have hk : k ∉ l.map Prod.fst := by
      rw [mem_keys_iff, hl]; simp
    simp only [List.map_append, List.map_cons, List.map_nil]
    exact List.Nodup.append h (List.nodup_singleton k) (by simpa using hk)

theorem modify_keys (k : Int) (f : TransferEntry → TransferEntry) (l : Ledger) :
    (modify k f l).map Prod.fst = l.map Prod.fst := by
  induction l with
  | nil => rfl
  | cons x l ih =>
    obtain ⟨k', e⟩ := x
    by_cases h : k = k' <;> simp [modify, h, ih]

theorem recordTransfer_keys (hashCode : String → String → Int) (hash txFrom : String)
    (blockNumber : Int) (asset fromAddr toAddr : String) (value : Nat) (l : Ledger)
    (h : (l.map Prod.fst).Nodup) :
    ((recordTransfer hashCode hash txFrom blockNumber asset fromAddr toAddr value l).map
      Prod.fst).Nodup := by
  unfold recordTransfer
  simp only [modify_keys]
  exact ensure_keys _ _ _ (ensure_keys _ _ _ h)

theorem wellKeyed_runTransactions (hashCode : String → String → Int) (txs : List TxEvent)
    (s : State) (h : WellKeyed hashCode s.transfersObj) :
    WellKeyed hashCode (runTransactions hashCode s txs).transfersObj := by
  refine ⟨?_, keyedBy_runTransactions hashCode txs s h.2⟩
  have h₁ := h.1
  clear h
  induction txs generalizing s with
  | nil => exact h₁
  | cons tx txs ih =>
    apply ih
    simp only [handleTransaction]
    rw [accumulate_eq_foldl]
    generalize acceptedTransfers tx = ms
    generalize s.transfersObj = l at h₁
    induction ms generalizing l with
    | nil => exact h₁
    | cons m ms ihm => exact ihm _ (recordTransfer_keys _ _ _ _ _ _ _ _ _ h₁)

theorem wellKeyed_nil (hashCode : String → String → Int) : WellKeyed hashCode [] :=
  ⟨List.nodup_nil, fun k e he => by simp [lookup] at he⟩

theorem lookup_of_mem (l : Ledger) (h : (l.map Prod.fst).Nodup) (x : Int × TransferEntry)
    (hx : x ∈ l) : lookup x.1 l = some x.2 := by
  induction l with
  | nil => simp at hx
  | cons y l ih =>
    obtain ⟨k', e'⟩ := y
    simp only [List.map_cons, List.nodup_cons] at h
    rcases List.mem_cons.mp hx with rfl | hx
    · simp [lookup]
    · have hne : x.1 ≠ k' := by
        intro heq
        exact h.1 (heq ▸ List.mem_map_of_mem Prod.fst hx)
      simp only [lookup, hne, if_false]
      exact ih h.2 hx

theorem mem_selectTransfers (cfg : Config) (l : Ledger) (blockNumber : Int)
    (t : Int × TransferEntry) :
    t ∈ selectTransfers cfg l blockNumber ↔ t ∈ l ∧ isSelected cfg blockNumber t = true := by
  rw [selectTransfers_eq_filter, List.mem_filter, (objectEntries_perm l).mem_iff]

/-! ## Block pass -/

/-- C3. Whenever `handleBlock` returns (rather than rejects), the ledger read
through `getTransfersObj` afterwards is empty, whatever the previous state, the
block and the findings returned. -/
theorem handleBlock_clears_ledger (cfg : Config) (c : Collaborators) (s s' : State)
    (blockNumber : Int) (findings : List Finding)
    (h : handleBlock cfg c s blockNumber = (Except.ok findings, s')) :
    getTransfersObj s' = [] := by
  obtain ⟨_, _, _, _, _, _, _, _, _, _, _, _, _, _, _, _, _, _, hs⟩ :=
    handleBlock_ok_inv cfg c s s' blockNumber findings h
  rw [hs]
  rfl

/-- Worked example: the pass over the sample state at block 11 returns one
finding when the classifier answers `Contract` and none when it answers `EOA`;
the ledger, which held entries, is empty afterwards. -/
theorem handleBlock_clears_ledger_witness :
    handleBlock (provideInitialize 1) (sampleCollaborators AddressType.Contract) sampleState 11
        = (Except.ok [sampleFinding], { transfersObj := [], transfersCount := 0 }) ∧
    handleBlock (provideInitialize 1) (sampleCollaborators AddressType.EOA) sampleState 11
        = (Except.ok [], { transfersObj := [], transfersCount := 0 }) ∧
    sampleState.transfersObj ≠ [] ∧
    getTransfersObj { transfersObj := [], transfersCount := 0 } = [] :=
  ⟨rfl, rfl, by decide,
    handleBlock_clears_ledger (provideInitialize 1) (sampleCollaborators AddressType.Contract)
      sampleState { transfersObj := [], transfersCount := 0 } 11 [sampleFinding] rfl⟩

/-- C4. An entry whose value is greater than or equal to zero is not in the list
selected by `handleBlock`; every returned finding reports the address and asset
of a selected ledger entry of negative value; and in a ledger as the handlers
build it (one entry per key, each under the key of its address and asset) no
returned finding has the address and asset of an entry of non-negative value as
its `metadata.contract` and `metadata.asset`. -/
theorem nonnegative_entry_never_reported (hashCode : String → String → Int) (cfg : Config)
    (c : Collaborators) (s : State) (blockNumber : Int) (e : Int × TransferEntry)
    (hv : 0 ≤ e.2.value) :
    e ∉ selectTransfers cfg s.transfersObj blockNumber ∧
    ∀ findings s', handleBlock cfg c s blockNumber = (Except.ok findings, s') →
      (∀ f ∈ findings, ∃ t ∈ selectTransfers cfg s.transfersObj blockNumber,
        t ∈ s.transfersObj ∧ t.2.value < 0 ∧
        f.metadata.contract = t.2.address ∧ f.metadata.asset = t.2.asset) ∧
      (WellKeyed hashCode s.transfersObj → e ∈ s.transfersObj →
        ∀ f ∈ findings,
          ¬(f.metadata.contract = e.2.address ∧ f.metadata.asset = e.2.asset)) := by
  have hsel : ∀ t ∈ selectTransfers cfg s.transfersObj blockNumber,
      t ∈ s.transfersObj ∧ t.2.value < 0 := by
    intro t ht
    have := (mem_selectTransfers cfg _ blockNumber t).mp ht
    refine ⟨this.1, ?_⟩
    have h₂ := this.2
    simp only [isSelected, Bool.and_eq_true, decide_eq_true_eq] at h₂
    exact h₂.1.1
  refine ⟨fun he => absurd (hsel e he).2 (not_lt.mpr hv), ?_⟩
  intro findings s' h
  have hprov : ∀ f ∈ findings, ∃ t ∈ selectTransfers cfg s.transfersObj blockNumber,
      t ∈ s.transfersObj ∧ t.2.value < 0 ∧
      f.metadata.contract = t.2.address ∧ f.metadata.asset = t.2.asset := by
    intro f hf
    obtain ⟨i, t, p, q, pre, post, sym, score, hi, -, -, -, -, -, -, -, rfl⟩ :=
      finding_provenance cfg c s s' blockNumber findings h f hf
    have ht : t ∈ selectTransfers cfg s.transfersObj blockNumber :=
      List.mem_iff_getElem?.mpr ⟨i, hi⟩
    exact ⟨t, ht, (hsel t ht).1, (hsel t ht).2, rfl, rfl⟩
  refine ⟨hprov, ?_⟩
  intro hwk he f hf hsame
  obtain ⟨t, -, htl, htv, hc, ha⟩ := hprov f hf
  have h₁ := lookup_of_mem _ hwk.1 t htl
  have h₂ := lookup_of_mem _ hwk.1 e he
  have k₁ := hwk.2 _ _ h₁
  have k₂ := hwk.2 _ _ h₂
  rw [← hc, ← ha, hsame.1, hsame.2, k₂] at k₁
  rw [← k₁, h₂] at h₁
  have := Option.some.inj h₁
  rw [this] at hv
  exact absurd htv (not_lt.mpr hv)

/-- Worked example: the receiver of the sample drain is neither selected nor
reported. -/
theorem nonnegative_entry_never_reported_witness :
    0 ≤ sampleReceiverEntry.2.value ∧
    sampleReceiverEntry ∈ sampleState.transfersObj ∧
    sampleReceiverEntry ∉ selectTransfers (provideInitialize 1) sampleState.transfersObj 11 ∧
    ¬(sampleFinding.metadata.contract = sampleReceiverEntry.2.address ∧
      sampleFinding.metadata.asset = sampleReceiverEntry.2.asset) :=
  ⟨by decide, by decide,
    (nonnegative_entry_never_reported sampleHashCode (provideInitialize 1)
      (sampleCollaborators AddressType.Contract) sampleState 11 sampleReceiverEntry
      (by decide)).1,
    ((nonnegative_entry_never_reported sampleHashCode (provideInitialize 1)
      (sampleCollaborators AddressType.Contract) sampleState 11 sampleReceiverEntry
      (by decide)).2 [sampleFinding] { transfersObj := [], transfersCount := 0 } rfl).2
      (wellKeyed_runTransactions sampleHashCode _ _ (wellKeyed_nil sampleHashCode))
      (by decide) sampleFinding (List.mem_singleton.mpr rfl)⟩

/-- C5. The list that `handleBlock` selects for block number B holds exactly the
ledger entries with value below zero, an address other than the zero address,
and a block number equal to B - 2 on chains 56, 137 and 250 and to B - 1 on
every other chain, each as often as the ledger holds it. -/
theorem selection_exact (cfg : Config) (l : Ledger) (blockNumber : Int) :
    (selectTransfers cfg l blockNumber).Perm (l.filter (isSelected cfg blockNumber)) ∧
    ∀ t, t ∈ selectTransfers cfg l blockNumber ↔
      t ∈ l ∧ t.2.value < 0 ∧ t.2.address ≠ AddressZero ∧
        t.2.blockNumber = blockNumber -
          (if cfg.chainId = 56 ∨ cfg.chainId = 137 ∨ cfg.chainId = 250 then 2 else 1) := by
  constructor
  · rw [selectTransfers_eq_filter]
    exact (objectEntries_perm l).filter _
  · intro t
    rw [mem_selectTransfers]
    simp only [isSelected, Bool.and_eq_true, decide_eq_true_eq, and_assoc]

theorem valuationFilter_congr (cfg : Config) (c c' : Collaborators)
    (h₁ : c'.getValueInUsd = c.getValueInUsd) (h₂ : c'.getTotalSupply = c.getTotalSupply)
    (h₃ : c'.USD_VALUE_THRESHOLD = c.USD_VALUE_THRESHOLD) (blockNumber : Int)
    (balances : List (Nat × Nat)) (ts : Ledger) :
    ∀ (i : Nat) (acc : Ledger × List (Nat × Nat)),
      valuationFilter cfg c' blockNumber balances i ts acc =
        valuationFilter cfg c blockNumber balances i ts acc := by
  induction ts with
  | nil => intro i acc; rfl
  | cons t ts ih =>
    intro i acc
    have hstep : valuationStep cfg c' blockNumber balances acc t i =
        valuationStep cfg c blockNumber balances acc t i := by
      unfold valuationStep
      rw [h₁, h₂, h₃]
    unfold valuationFilter
    rw [hstep]
    cases valuationStep cfg c blockNumber balances acc t i with
    | error e => rfl
    | ok acc' => exact ih (i + 1) acc'

theorem emitAll_congr (cfg : Config) (c c' : Collaborators)
    (h : c'.calculateAlertRate = c.calculateAlertRate) (FB : List (Nat × Nat)) (F : Ledger) :
    ∀ (i count : Nat), emitAll cfg c' FB i count F = emitAll cfg c FB i count F := by
  induction F with
  | nil => intro i count; rfl
  | cons t F ih =>
    intro i count
    unfold emitAll
    simp only [ih]
    congr 1
    unfold emitCallback
    rw [h]

theorem balanceCheck_of_failed (p q : CallResult)
    (h : p.success = false ∨ q.success = false) : balanceCheck p q = false := by
  unfold balanceCheck
  rcases h with h | h <;> simp [h]

theorem balanceFilter_of_lengths (ts : Ledger) (pre post : List CallResult)
    (h₁ : pre.length = ts.length) (h₂ : post.length = ts.length) :
    balanceFilter pre post 0 ts =
      Except.ok ((keptByBalance ts pre post).map (fun x => x.1),
        (keptByBalance ts pre post).map (fun x => (x.2.1.returnData, x.2.2.returnData))) := by
  have := balanceFilter_eq ts [] [] pre post rfl h₁ h₂
  simpa using this

theorem keptByBalance_append (ts₁ ts₂ : Ledger) (pre₁ pre₂ post₁ post₂ : List CallResult)
    (h₁ : pre₁.length = ts₁.length) (h₂ : post₁.length = ts₁.length) :
    keptByBalance (ts₁ ++ ts₂) (pre₁ ++ pre₂) (post₁ ++ post₂) =
      keptByBalance ts₁ pre₁ post₁ ++ keptByBalance ts₂ pre₂ post₂ := by
  unfold keptByBalance
  rw [List.zip_append (by rw [h₁, h₂]), List.zip_append (by simp [h₁, h₂]), List.filter_append]

/-- C7. When the two batch results are as long as the selected list, the
failure-and-magnitude stage returns exactly the entries whose own pair of
results passes the check of lines 171-178, in order; an entry at a position
where the pre-drain or the post-drain result has `success = false` is not
returned and the entries before and after it are returned as if it were absent;
and every finding returned by `handleBlock` reports an entry whose two results
have `success = true`. -/
theorem failed_lookup_drops_only_its_entry (cfg : Config) (c : Collaborators) (s : State)
    (blockNumber : Int) :
    (∀ (ts : Ledger) (pre post : List CallResult),
      pre.length = ts.length → post.length = ts.length →
      balanceFilter pre post 0 ts =
        Except.ok
          (((ts.zip (pre.zip post)).filter fun x => balanceCheck x.2.1 x.2.2).map
              (fun x => x.1),
           ((ts.zip (pre.zip post)).filter fun x => balanceCheck x.2.1 x.2.2).map
              (fun x => (x.2.1.returnData, x.2.2.returnData)))) ∧
    (∀ (ts₁ ts₂ : Ledger) (t : Int × TransferEntry) (pre₁ pre₂ post₁ post₂ : List CallResult)
      (p q : CallResult),
      pre₁.length = ts₁.length → post₁.length = ts₁.length →
      pre₂.length = ts₂.length → post₂.length = ts₂.length →
      (p.success = false ∨ q.success = false) →
      ∃ R₁ R₂, balanceFilter pre₁ post₁ 0 ts₁ = Except.ok R₁ ∧
        balanceFilter pre₂ post₂ 0 ts₂ = Except.ok R₂ ∧
        balanceFilter (pre₁ ++ p :: pre₂) (post₁ ++ q :: post₂) 0 (ts₁ ++ t :: ts₂) =
          Except.ok (R₁.1 ++ R₂.1, R₁.2 ++ R₂.2)) ∧
    (∀ findings s', handleBlock cfg c s blockNumber = (Except.ok findings, s') →
      ∀ f ∈ findings, ∃ (i : Nat) (t : Int × TransferEntry) (p q : CallResult)
        (pre post : List CallResult),
        (selectTransfers cfg s.transfersObj blockNumber)[i]? = some t ∧
        c.tryAll ((selectTransfers cfg s.transfersObj blockNumber).map fun e => balanceCall e.2)
          (preDrainBlock cfg blockNumber) = Except.ok pre ∧
        c.tryAll ((selectTransfers cfg s.transfersObj blockNumber).map fun e => balanceCall e.2)
          (postDrainBlock cfg blockNumber) = Except.ok post ∧
        pre[i]? = some p ∧ post[i]? = some q ∧ p.success = true ∧ q.success = true ∧
        f.metadata.contract = t.2.address ∧ f.metadata.asset = t.2.asset ∧
        f.metadata.blockNumber = t.2.blockNumber) := by
  refine ⟨fun ts pre post h₁ h₂ => balanceFilter_of_lengths ts pre post h₁ h₂, ?_, ?_⟩
  · intro ts₁ ts₂ t pre₁ pre₂ post₁ post₂ p q h₁ h₂ h₃ h₄ hfail
    refine ⟨_, _, balanceFilter_of_lengths ts₁ pre₁ post₁ h₁ h₂,
      balanceFilter_of_lengths ts₂ pre₂ post₂ h₃ h₄, ?_⟩
    rw [balanceFilter_of_lengths _ _ _ (by simp [h₁, h₃]) (by simp [h₂, h₄]),
      keptByBalance_append ts₁ (t :: ts₂) pre₁ (p :: pre₂) post₁ (q :: post₂) h₁ h₂]
    have hcons : keptByBalance (t :: ts₂) (p :: pre₂) (q :: post₂) =
        keptByBalance ts₂ pre₂ post₂ := by
      simp [keptByBalance, List.filter_cons, balanceCheck_of_failed p q hfail]
    rw [hcons]
    simp
  · intro findings s' h f hf
    obtain ⟨i, t, p, q, pre, post, sym, score, hi, h₁, h₂, hp, hq, hc, -, -, rfl⟩ :=
      finding_provenance cfg c s s' blockNumber findings h f hf
    simp only [balanceCheck, Bool.and_eq_true, decide_eq_true_eq] at hc
    exact ⟨i, t, p, q, pre, post, hi, h₁, h₂, hp, hq, hc.1.2, hc.1.1, rfl, rfl, rfl⟩

/-- C8. With both lookups successful, the entry at a position of the selected
list is returned by the magnitude filter, together with its two balances, if and
only if its post-drain balance is below the floor of one hundredth of its
pre-drain balance; the entries around it are unaffected.  A pre-drain balance of
1000 keeps the entry at a post-drain balance of 9 and drops it at 10. -/
theorem magnitude_filter_threshold :
    (∀ p q : CallResult, p.success = true → q.success = true →
      (balanceCheck p q = true ↔ q.returnData < p.returnData / 100)) ∧
    (∀ (ts₁ ts₂ : Ledger) (t : Int × TransferEntry) (pre₁ pre₂ post₁ post₂ : List CallResult)
      (p q : CallResult),
      pre₁.length = ts₁.length → post₁.length = ts₁.length →
      pre₂.length = ts₂.length → post₂.length = ts₂.length →
      p.success = true → q.success = true →
      ∃ R₁ R₂, balanceFilter pre₁ post₁ 0 ts₁ = Except.ok R₁ ∧
        balanceFilter pre₂ post₂ 0 ts₂ = Except.ok R₂ ∧
        balanceFilter (pre₁ ++ p :: pre₂) (post₁ ++ q :: post₂) 0 (ts₁ ++ t :: ts₂) =
          Except.ok
            (if q.returnData < p.returnData / 100 then
              (R₁.1 ++ t :: R₂.1, R₁.2 ++ (p.returnData, q.returnData) :: R₂.2)
             else (R₁.1 ++ R₂.1, R₁.2 ++ R₂.2))) ∧
    (∀ t : Int × TransferEntry,
      balanceFilter [{ success := true, returnData := 1000 }]
          [{ success := true, returnData := 9 }] 0 [t] = Except.ok ([t], [(1000, 9)]) ∧
      balanceFilter [{ success := true, returnData := 1000 }]
          [{ success := true, returnData := 10 }] 0 [t] = Except.ok ([], [])) := by
  have hiff : ∀ p q : CallResult, p.success = true → q.success = true →
      (balanceCheck p q = true ↔ q.returnData < p.returnData / 100) := by
    intro p q hp hq
    simp [balanceCheck, hp, hq]
  refine ⟨hiff, ?_, ?_⟩
  · intro ts₁ ts₂ t pre₁ pre₂ post₁ post₂ p q h₁ h₂ h₃ h₄ hp hq
    refine ⟨_, _, balanceFilter_of_lengths ts₁ pre₁ post₁ h₁ h₂,
      balanceFilter_of_lengths ts₂ pre₂ post₂ h₃ h₄, ?_⟩
    rw [balanceFilter_of_lengths _ _ _ (by simp [h₁, h₃]) (by simp [h₂, h₄]),
      keptByBalance_append ts₁ (t :: ts₂) pre₁ (p :: pre₂) post₁ (q :: post₂) h₁ h₂]
    by_cases hlt : q.returnData < p.returnData / 100
    · have hcons : keptByBalance (t :: ts₂) (p :: pre₂) (q :: post₂) =
          (t, p, q) :: keptByBalance ts₂ pre₂ post₂ := by
        simp [keptByBalance, List.filter_cons, (hiff p q hp hq).mpr hlt]
      rw [hcons, if_pos hlt]
      simp
    · have hcons : keptByBalance (t :: ts₂) (p :: pre₂) (q :: post₂) =
          keptByBalance ts₂ pre₂ post₂ := by
        have : balanceCheck p q = false := by
          cases hb : balanceCheck p q with
          | false => rfl
          | true => exact absurd ((hiff p q hp hq).mp hb) hlt
        simp [keptByBalance, List.filter_cons, this]
      rw [hcons, if_neg hlt]
      simp
  · intro t
    constructor <;> rfl

/-- Worked example: a failed pre-drain lookup at the first position drops that
entry and keeps the second one. -/
theorem failed_lookup_drops_only_its_entry_witness :
    (∃ R₁ R₂, balanceFilter [] [] 0 [] = Except.ok R₁ ∧
      balanceFilter [{ success := true, returnData := 1000000 }]
        [{ success := true, returnData := 10 }] 0 [sampleSenderEntry] = Except.ok R₂ ∧
      balanceFilter
        ([] ++ { success := false, returnData := 0 } :: [{ success := true, returnData := 1000000 }])
        ([] ++ { success := true, returnData := 0 } :: [{ success := true, returnData := 10 }]) 0
        ([] ++ sampleReceiverEntry :: [sampleSenderEntry]) =
          Except.ok (R₁.1 ++ R₂.1, R₁.2 ++ R₂.2)) ∧
    balanceFilter
        [{ success := false, returnData := 0 }, { success := true, returnData := 1000000 }]
        [{ success := true, returnData := 0 }, { success := true, returnData := 10 }] 0
        [sampleReceiverEntry, sampleSenderEntry] =
      Except.ok ([sampleSenderEntry], [(1000000, 10)]) ∧
    ∀ f ∈ [sampleFinding], ∃ (i : Nat) (t : Int × TransferEntry) (p q : CallResult)
      (pre post : List CallResult),
      (selectTransfers (provideInitialize 1) sampleState.transfersObj 11)[i]? = some t ∧
      (sampleCollaborators AddressType.Contract).tryAll
        ((selectTransfers (provideInitialize 1) sampleState.transfersObj 11).map
          fun e => balanceCall e.2)
        (preDrainBlock (provideInitialize 1) 11) = Except.ok pre ∧
      (sampleCollaborators AddressType.Contract).tryAll
        ((selectTransfers (provideInitialize 1) sampleState.transfersObj 11).map
          fun e => balanceCall e.2)
        (postDrainBlock (provideInitialize 1) 11) = Except.ok post ∧
      pre[i]? = some p ∧ post[i]? = some q ∧ p.success = true ∧ q.success = true ∧
      f.metadata.contract = t.2.address ∧ f.metadata.asset = t.2.asset ∧
      f.metadata.blockNumber = t.2.blockNumber :=
  ⟨(failed_lookup_drops_only_its_entry (provideInitialize 1)
      (sampleCollaborators AddressType.Contract) sampleState 11).2.1
      [] [sampleSenderEntry] sampleReceiverEntry [] [{ success := true, returnData := 1000000 }]
      [] [{ success := true, returnData := 10 }] { success := false, returnData := 0 }
      { success := true, returnData := 0 } rfl rfl rfl rfl (Or.inl rfl),
    rfl,
    (failed_lookup_drops_only_its_entry (provideInitialize 1)
      (sampleCollaborators AddressType.Contract) sampleState 11).2.2
      [sampleFinding] { transfersObj := [], transfersCount := 0 } rfl⟩

/-- Worked example: pre-drain balance 1000 against post-drain balances 9 and
10. -/
theorem magnitude_filter_threshold_witness :
    (balanceCheck { success := true, returnData := 1000 } { success := true, returnData := 9 }
        = true ↔ 9 < 1000 / 100) ∧
    (balanceCheck { success := true, returnData := 1000 } { success := true, returnData := 10 }
        = true ↔ 10 < 1000 / 100) ∧
    balanceCheck { success := true, returnData := 1000 } { success := true, returnData := 9 }
      = true ∧
    balanceCheck { success := true, returnData := 1000 } { success := true, returnData := 10 }
      = false :=
  ⟨magnitude_filter_threshold.1 { success := true, returnData := 1000 }
      { success := true, returnData := 9 } rfl rfl,
    magnitude_filter_threshold.1 { success := true, returnData := 1000 }
      { success := true, returnData := 10 } rfl rfl,
    by decide, by decide⟩

/-- C9. A pair of results that passes the check of lines 171-178 has lost at
least 99% of the pre-drain balance, and the two balances that a returned finding
reports are such a pair: 100 * (pre - post) >= 99 * pre. -/
theorem kept_entry_lost_99_percent (cfg : Config) (c : Collaborators) (s : State)
    (blockNumber : Int) :
    (∀ p q : CallResult, balanceCheck p q = true →
      100 * ((p.returnData : Int) - (q.returnData : Int)) ≥ 99 * (p.returnData : Int)) ∧
    (∀ findings s', handleBlock cfg c s blockNumber = (Except.ok findings, s') →
      ∀ f ∈ findings, ∃ preDrainBalance postDrainBalance : Nat,
        f.metadata.preDrainBalance = bigNumberToString preDrainBalance ∧
        f.metadata.postDrainBalance = bigNumberToString postDrainBalance ∧
        postDrainBalance < preDrainBalance / 100 ∧
        100 * ((preDrainBalance : Int) - (postDrainBalance : Int))
          ≥ 99 * (preDrainBalance : Int)) := by
  have key : ∀ a b : Nat, b < a / 100 → 100 * ((a : Int) - (b : Int)) ≥ 99 * (a : Int) := by
    intro a b h
    omega
  constructor
  · intro p q h
    simp only [balanceCheck, Bool.and_eq_true, decide_eq_true_eq] at h
    exact key _ _ h.2
  · intro findings s' h f hf
    obtain ⟨i, t, p, q, pre, post, sym, score, -, -, -, -, -, hc, -, -, rfl⟩ :=
      finding_provenance cfg c s s' blockNumber findings h f hf
    simp only [balanceCheck, Bool.and_eq_true, decide_eq_true_eq] at hc
    exact ⟨p.returnData, q.returnData, rfl, rfl, hc.2, key _ _ hc.2⟩

/-- Worked example: the balances of the sample finding. -/
theorem kept_entry_lost_99_percent_witness :
    ∀ f ∈ [sampleFinding], ∃ preDrainBalance postDrainBalance : Nat,
      f.metadata.preDrainBalance = bigNumberToString preDrainBalance ∧
      f.metadata.postDrainBalance = bigNumberToString postDrainBalance ∧
      postDrainBalance < preDrainBalance / 100 ∧
      100 * ((preDrainBalance : Int) - (postDrainBalance : Int))
        ≥ 99 * (preDrainBalance : Int) :=
  (kept_entry_lost_99_percent (provideInitialize 1) (sampleCollaborators AddressType.Contract)
    sampleState 11).2 [sampleFinding] { transfersObj := [], transfersCount := 0 } rfl

/-- C10. Every finding returned by `handleBlock` reports an address that the
classifier classifies as `Contract`, so an entry whose address gets any other
class is never reported, whatever its balances and valuation; and when the
batches answer for every selected entry and the classifier gives every selected
address a class other than `Contract`, `handleBlock` returns no finding. -/
theorem non_contract_never_reported (cfg : Config) (c : Collaborators) (s : State)
    (blockNumber : Int) :
    (∀ findings s', handleBlock cfg c s blockNumber = (Except.ok findings, s') →
      ∀ f ∈ findings, ∃ t ∈ selectTransfers cfg s.transfersObj blockNumber,
        f.metadata.contract = t.2.address ∧ f.metadata.asset = t.2.asset ∧
        c.getAddressType f.metadata.contract = Except.ok AddressType.Contract) ∧
    (∀ pre post : List CallResult,
      c.tryAll ((selectTransfers cfg s.transfersObj blockNumber).map fun e => balanceCall e.2)
        (preDrainBlock cfg blockNumber) = Except.ok pre →
      c.tryAll ((selectTransfers cfg s.transfersObj blockNumber).map fun e => balanceCall e.2)
        (postDrainBlock cfg blockNumber) = Except.ok post →
      pre.length = (selectTransfers cfg s.transfersObj blockNumber).length →
      post.length = (selectTransfers cfg s.transfersObj blockNumber).length →
      (∀ t ∈ selectTransfers cfg s.transfersObj blockNumber,
        ∃ type, c.getAddressType t.2.address = Except.ok type ∧ type ≠ AddressType.Contract) →
      handleBlock cfg c s blockNumber =
        (Except.ok [], { transfersObj := [], transfersCount := s.transfersCount })) := by
  constructor
  · intro findings s' h f hf
    obtain ⟨i, t, p, q, pre, post, sym, score, hi, -, -, -, -, -, hty, -, rfl⟩ :=
      finding_provenance cfg c s s' blockNumber findings h f hf
    exact ⟨t, List.mem_iff_getElem?.mpr ⟨i, hi⟩, rfl, rfl, hty⟩
  · intro pre post h₁ h₂ hl₁ hl₂ hall
    have hb := balanceFilter_of_lengths _ pre post hl₁ hl₂
    have hsub : ∀ x ∈ keptByBalance (selectTransfers cfg s.transfersObj blockNumber) pre post,
        x.1 ∈ selectTransfers cfg s.transfersObj blockNumber := by
      intro x hx
      unfold keptByBalance at hx
      exact (List.of_mem_zip (List.mem_filter.mp hx).1).1
    have hnot : ∀ t ∈ selectTransfers cfg s.transfersObj blockNumber, isContract c t = false := by
      intro t ht
      obtain ⟨ty, hty, hne⟩ := hall t ht
      cases hc : isContract c t with
      | false => rfl
      | true =>
        rw [(isContract_iff c t).mp hc] at hty
        exact absurd (Except.ok.inj hty).symm hne
    have ho := ownershipFilter_of_answers c
      ((keptByBalance (selectTransfers cfg s.transfersObj blockNumber) pre post).map fun x => x.1)
      ((keptByBalance (selectTransfers cfg s.transfersObj blockNumber) pre post).map
        fun x => (x.2.1.returnData, x.2.2.returnData))
      (by simp)
      (by
        intro t ht
        obtain ⟨x, hx, rfl⟩ := List.mem_map.mp ht
        obtain ⟨ty, hty, -⟩ := hall x.1 (hsub x hx)
        exact ⟨ty, hty⟩)
    have hk : keptByOwnership c
        ((keptByBalance (selectTransfers cfg s.transfersObj blockNumber) pre post).map
          fun x => x.1)
        ((keptByBalance (selectTransfers cfg s.transfersObj blockNumber) pre post).map
          fun x => (x.2.1.returnData, x.2.2.returnData)) = [] := by
      unfold keptByOwnership
      rw [List.filter_eq_nil_iff]
      intro x hx
      have hx₁ := (List.of_mem_zip hx).1
      obtain ⟨y, hy, hyx⟩ := List.mem_map.mp hx₁
      rw [← hyx, hnot y.1 (hsub y hy)]
      simp
    rw [hk] at ho
    unfold handleBlock
    simp only [h₁, h₂, hb, ho, List.map_nil, promiseAll, attachSymbols, List.zipWith_nil_left,
      valuationFilter, emitAll, List.length_nil, Nat.add_zero, ite_self]

/-- Worked example: the sample pass with every address classified `EOA`. -/
theorem non_contract_never_reported_witness :
    (∀ t ∈ selectTransfers (provideInitialize 1) sampleState.transfersObj 11,
      ∃ type, (sampleCollaborators AddressType.EOA).getAddressType t.2.address
        = Except.ok type ∧ type ≠ AddressType.Contract) ∧
    handleBlock (provideInitialize 1) (sampleCollaborators AddressType.EOA) sampleState 11 =
      (Except.ok [], { transfersObj := [], transfersCount := sampleState.transfersCount }) :=
  ⟨fun _ _ => ⟨AddressType.EOA, rfl, by decide⟩,
    (non_contract_never_reported (provideInitialize 1) (sampleCollaborators AddressType.EOA)
      sampleState 11).2 _ _ rfl rfl (by decide) (by decide)
      (fun _ _ => ⟨AddressType.EOA, rfl, by decide⟩)⟩

/-! ## Ignored events and evidence -/

theorem acceptsLog_eq_false (e : TransferLog)
    (h : e.value = 0 ∨ e.address = toLowerCase e.fromAddr) : acceptsLog e = false := by
  unfold acceptsLog
  rcases h with h | h <;> simp [h]

theorem spelling_eq_zero_iff (v : HexQuantity) :
    v.spelling = "0x0" ↔ v.first = 0 ∧ v.rest = [] := by
  have hd : ∀ d : Fin 16, Nat.digitChar d.val = '0' ↔ d = 0 := by decide
  obtain ⟨first, rest⟩ := v
  simp only [HexQuantity.spelling, String.ext_iff, String.data_append, List.map_cons]
  show '0' :: 'x' :: Nat.digitChar first.val :: rest.map (fun d => Nat.digitChar d.val)
      = ['0', 'x', '0'] ↔ first = 0 ∧ rest = []
  simp only [List.cons.injEq, true_and, hd, List.map_eq_nil_iff]

theorem acceptsTrace_eq_false (t : TraceAction)
    (h : t.value = none ∨ t.value = some { first := 0, rest := [] } ∨ t.callType ≠ "call") :
    acceptsTrace t = false := by
  unfold acceptsTrace
  rcases h with h | h | h
  · simp [h]
  · simp [h, (spelling_eq_zero_iff { first := 0, rest := [] }).mpr ⟨rfl, rfl⟩]
  · cases t.value <;> simp [h]

/-- Events that `handleTransaction` ignores.  The state stays as it was for a
transaction whose Transfer logs all have value zero or are emitted by their own
sender and whose traces all have no value, the value `0x0` or a call type other
than "call"; and such a log or trace, wherever it stands among the events of a
transaction, changes nothing in what the transaction does to the ledger. -/
theorem ignored_events_unchanged (hashCode : String → String → Int) (s : State) :
    (∀ tx : TxEvent,
      (∀ e ∈ tx.logs, e.value = 0 ∨ e.address = toLowerCase e.fromAddr) →
      (∀ t ∈ tx.traces, t.value = none ∨ t.value = some { first := 0, rest := [] } ∨
        t.callType ≠ "call") →
      handleTransaction hashCode s tx = ([], s)) ∧
    (∀ (tx : TxEvent) (logs₁ logs₂ : List TransferLog) (e : TransferLog),
      (e.value = 0 ∨ e.address = toLowerCase e.fromAddr) →
      handleTransaction hashCode s { tx with logs := logs₁ ++ e :: logs₂ } =
        handleTransaction hashCode s { tx with logs := logs₁ ++ logs₂ }) ∧
    (∀ (tx : TxEvent) (traces₁ traces₂ : List TraceAction) (t : TraceAction),
      (t.value = none ∨ t.value = some { first := 0, rest := [] } ∨ t.callType ≠ "call") →
      handleTransaction hashCode s { tx with traces := traces₁ ++ t :: traces₂ } =
        handleTransaction hashCode s { tx with traces := traces₁ ++ traces₂ }) := by
  refine ⟨?_, ?_, ?_⟩
  · intro tx hlogs htraces
    have h₁ : tx.logs.filter acceptsLog = [] := by
      rw [List.filter_eq_nil_iff]
      intro e he
      rw [acceptsLog_eq_false e (hlogs e he)]
      simp
    have h₂ : ∀ (ts : List TraceAction) (l : Ledger),
        (∀ t ∈ ts, t.value = none ∨ t.value = some { first := 0, rest := [] } ∨
          t.callType ≠ "call") →
        ts.foldl (applyTrace hashCode tx.hash tx.txFrom tx.blockNumber) l = l := by
      intro ts
      induction ts with
      | nil => intro l _; rfl
      | cons t ts ih =>
        intro l h
        rw [List.foldl_cons]
        have ht := acceptsTrace_eq_false t (h t (List.mem_cons_self _ _))
        simp only [applyTrace, ht, Bool.false_eq_true, if_false]
        exact ih l fun t' ht' => h t' (List.mem_cons_of_mem _ ht')
    simp only [handleTransaction, accumulate, h₁, List.foldl_nil, h₂ tx.traces _ htraces]
  · intro tx logs₁ logs₂ e he
    simp only [handleTransaction, accumulate, List.filter_append, List.filter_cons,
      acceptsLog_eq_false e he, Bool.false_eq_true, if_false]
  · intro tx traces₁ traces₂ t ht
    simp only [handleTransaction, accumulate, List.foldl_append, List.foldl_cons, applyTrace,
      acceptsTrace_eq_false t ht, Bool.false_eq_true, if_false]

/-- Worked example: the sample state is unchanged by the sample transaction of
ignored events. -/
theorem ignored_events_unchanged_example :
    (∀ e ∈ sampleIgnoredTx.logs, e.value = 0 ∨ e.address = toLowerCase e.fromAddr) ∧
    (∀ t ∈ sampleIgnoredTx.traces,
      t.value = none ∨ t.value = some { first := 0, rest := [] } ∨ t.callType ≠ "call") ∧
    handleTransaction sampleHashCode sampleState sampleIgnoredTx = ([], sampleState) :=
  ⟨by decide, by decide,
    (ignored_events_unchanged sampleHashCode sampleState).1 sampleIgnoredTx
      (by decide) (by decide)⟩

/-- C19. A call trace whose value is zero written `0x00` is not ignored: from
the empty ledger, `handleTransaction` creates an entry of the native currency
for the sender and one for the receiver, both with value 0, and records the
transaction as evidence in the sender entry.  The same trace with the value
written `0x0`, and a Transfer log with value zero, leave the ledger empty. -/
theorem zero_value_trace_is_recorded :
    HexQuantity.spelling { first := 0, rest := [0] } = "0x00" ∧
    HexQuantity.toNat { first := 0, rest := [0] } = 0 ∧
    handleTransaction sampleHashCode { transfersObj := [], transfersCount := 0 }
        (sampleZeroTraceTx { first := 0, rest := [0] }) =
      ([], { transfersObj :=
               [(sampleHashCode "0xC" "native",
                 { asset := "native", address := "0xC", value := 0, blockNumber := 10,
                   txs := [("0xD", [{ hash := "h4", txFrom := "0xK" }])], symbol := none }),
                (sampleHashCode "0xD" "native",
                 { asset := "native", address := "0xD", value := 0, blockNumber := 10,
                   txs := [], symbol := none })]
             transfersCount := 0 }) ∧
    HexQuantity.spelling { first := 0, rest := [] } = "0x0" ∧
    handleTransaction sampleHashCode { transfersObj := [], transfersCount := 0 }
        (sampleZeroTraceTx { first := 0, rest := [] }) =
      ([], { transfersObj := [], transfersCount := 0 }) ∧
    handleTransaction sampleHashCode { transfersObj := [], transfersCount := 0 }
        { hash := "h4", txFrom := "0xK", blockNumber := 10
          logs := [{ address := "0xt", fromAddr := "0xC", toAddr := "0xD", value := 0 }]
          traces := [] } =
      ([], { transfersObj := [], transfersCount := 0 }) :=
  ⟨rfl, rfl, rfl, rfl, rfl, rfl⟩

theorem recordsFor_pushTx_same (toAddr : String) (r : TxRecord)
    (txs : List (String × List TxRecord)) :
    recordsFor toAddr (pushTx toAddr r txs) = recordsFor toAddr txs ++ [r] := by
  induction txs with
  | nil => simp [pushTx, recordsFor]
  | cons x txs ih =>
    obtain ⟨k, rs⟩ := x
    by_cases h : toAddr = k
    · simp [pushTx, recordsFor, h]
    · simp [pushTx, recordsFor, h, ih]

theorem recordsFor_pushTx_other (toAddr other : String) (r : TxRecord)
    (txs : List (String × List TxRecord)) (hne : other ≠ toAddr) :
    recordsFor other (pushTx toAddr r txs) = recordsFor other txs := by
  induction txs with
  | nil => simp [pushTx, recordsFor, hne]
  | cons x txs ih =>
    obtain ⟨k, rs⟩ := x
    by_cases h : toAddr = k
    · subst h
      simp [pushTx, recordsFor, hne]
    · by_cases h' : other = k
      · simp [pushTx, recordsFor, h, h']
      · simp [pushTx, recordsFor, h, h', ih]

theorem lookup_recordTransfer_sender (hashCode : String → String → Int) (hash txFrom : String)
    (blockNumber : Int) (asset fromAddr toAddr : String) (value : Nat) (l : Ledger)
    (hne : hashCode fromAddr asset ≠ hashCode toAddr asset) :
    ∃ e, lookup (hashCode fromAddr asset)
        (recordTransfer hashCode hash txFrom blockNumber asset fromAddr toAddr value l) = some e ∧
      e.txs = pushTx toAddr { hash := hash, txFrom := txFrom } (txsAt l (hashCode fromAddr asset)) := by
  unfold recordTransfer txsAt
  simp only [lookup_modify, lookup_ensure, hne, if_true, if_false]
  cases lookup (hashCode fromAddr asset) l <;> exact ⟨_, rfl, rfl⟩

theorem lookup_recordTransfer_receiver (hashCode : String → String → Int) (hash txFrom : String)
    (blockNumber : Int) (asset fromAddr toAddr : String) (value : Nat) (l : Ledger)
    (hne : hashCode fromAddr asset ≠ hashCode toAddr asset) :
    ∃ e, lookup (hashCode toAddr asset)
        (recordTransfer hashCode hash txFrom blockNumber asset fromAddr toAddr value l) = some e ∧
      e.txs = txsAt l (hashCode toAddr asset) := by
  unfold recordTransfer txsAt
  simp only [lookup_modify, lookup_ensure, hne.symm, if_true, if_false]
  cases lookup (hashCode toAddr asset) l <;> exact ⟨_, rfl, rfl⟩

theorem lookup_recordTransfer_other (hashCode : String → String → Int) (hash txFrom : String)
    (blockNumber : Int) (asset fromAddr toAddr : String) (value : Nat) (l : Ledger) (k : Int)
    (h₁ : k ≠ hashCode fromAddr asset) (h₂ : k ≠ hashCode toAddr asset) :
    lookup k (recordTransfer hashCode hash txFrom blockNumber asset fromAddr toAddr value l) =
      lookup k l := by
  unfold recordTransfer
  simp only [lookup_modify, lookup_ensure, h₁, h₂, if_false]

/-- C18. With an injective key function, the callback run for an accepted
transfer from S to R (S different from R) in a transaction with hash h and
initiator f appends the one record (h, f) at the end of the records kept under R
in the `txs` of the sender entry, starting that list when it is absent and
keeping the earlier records in order; the records kept there under any other
counterparty, the `txs` of the receiver entry and every entry under another key
are unchanged.  `handleTransaction` runs this callback once for each accepted
transfer of the transaction, in order. -/
theorem evidence_appended_to_sender (hashCode : String → String → Int)
    (hinj : Function.Injective (Function.uncurry hashCode)) (hash txFrom : String)
    (blockNumber : Int) (asset S R : String) (value : Nat) (l : Ledger) (hSR : S ≠ R) :
    recordsFor R
        (txsAt (recordTransfer hashCode hash txFrom blockNumber asset S R value l)
          (hashCode S asset)) =
      recordsFor R (txsAt l (hashCode S asset)) ++ [{ hash := hash, txFrom := txFrom }] ∧
    (∀ other, other ≠ R →
      recordsFor other
          (txsAt (recordTransfer hashCode hash txFrom blockNumber asset S R value l)
            (hashCode S asset)) =
        recordsFor other (txsAt l (hashCode S asset))) ∧
    txsAt (recordTransfer hashCode hash txFrom blockNumber asset S R value l) (hashCode R asset) =
      txsAt l (hashCode R asset) ∧
    (∀ k, k ≠ hashCode S asset → k ≠ hashCode R asset →
      lookup k (recordTransfer hashCode hash txFrom blockNumber asset S R value l) =
        lookup k l) ∧
    (∀ (s : State) (tx : TxEvent),
      handleTransaction hashCode s tx =
        ([], { s with
          transfersObj :=
            (acceptedTransfers tx).foldl
              (fun acc m =>
                recordTransfer hashCode tx.hash tx.txFrom tx.blockNumber m.asset m.fromAddr
                  m.toAddr m.value acc)
              s.transfersObj })) := by
  have hne : hashCode S asset ≠ hashCode R asset := by
    intro h
    have := @hinj (S, asset) (R, asset) h
    simp only [Prod.mk.injEq, and_true] at this
    exact hSR this
  obtain ⟨e₁, h₁, t₁⟩ :=
    lookup_recordTransfer_sender hashCode hash txFrom blockNumber asset S R value l hne
  obtain ⟨e₂, h₂, t₂⟩ :=
    lookup_recordTransfer_receiver hashCode hash txFrom blockNumber asset S R value l hne
  have hs : txsAt (recordTransfer hashCode hash txFrom blockNumber asset S R value l)
      (hashCode S asset) =
        pushTx R { hash := hash, txFrom := txFrom } (txsAt l (hashCode S asset)) := by
    rw [← t₁]
    simp [txsAt, h₁]
  refine ⟨?_, ?_, ?_, ?_, ?_⟩
  · rw [hs, recordsFor_pushTx_same]
  · intro other hother
    rw [hs, recordsFor_pushTx_other _ _ _ _ hother]
  · rw [← t₂]
    simp [txsAt, h₂]
  · intro k hk₁ hk₂
    exact lookup_recordTransfer_other hashCode hash txFrom blockNumber asset S R value l k hk₁ hk₂
  · intro s tx
    simp only [handleTransaction, accumulate_eq_foldl]
    rfl

/-- Worked example: a second transfer from `0xC` to `0xD` in the sample state
adds its record after the record of the sample drain. -/
theorem evidence_appended_to_sender_witness :
    Function.Injective (Function.uncurry pairKey) ∧ "0xC" ≠ "0xD" ∧
    recordsFor "0xD"
        (txsAt (recordTransfer pairKey "h9" "0xJ" 10 "0xt" "0xC" "0xD" 4
            (runTransactions pairKey { transfersObj := [], transfersCount := 0 }
              [sampleDrainTx]).transfersObj)
          (pairKey "0xC" "0xt")) =
      recordsFor "0xD"
          (txsAt (runTransactions pairKey { transfersObj := [], transfersCount := 0 }
              [sampleDrainTx]).transfersObj (pairKey "0xC" "0xt")) ++
        [{ hash := "h9", txFrom := "0xJ" }] ∧
    recordsFor "0xD"
        (txsAt (recordTransfer sampleHashCode "h9" "0xJ" 10 "0xt" "0xC" "0xD" 4
            sampleState.transfersObj) (sampleHashCode "0xC" "0xt")) =
      [{ hash := "h1", txFrom := "0xI" }, { hash := "h9", txFrom := "0xJ" }] :=
  ⟨pairKey_injective, by decide,
    (evidence_appended_to_sender pairKey pairKey_injective "h9" "0xJ" 10 "0xt" "0xC" "0xD" 4
      (runTransactions pairKey { transfersObj := [], transfersCount := 0 }
        [sampleDrainTx]).transfersObj (by decide)).1,
    by decide⟩

/-! ## Valuation filter -/

theorem valuationStep_of_value (cfg : Config) (c : Collaborators) (blockNumber : Int)
    (balances : List (Nat × Nat)) (acc : Ledger × List (Nat × Nat))
    (transfer : Int × TransferEntry) (i : Nat) (b : Nat × Nat) (usdValue : ℚ)
    (hb : balances[i]? = some b)
    (hv : c.getValueInUsd blockNumber cfg.chainId ((b.1 : Int) - (b.2 : Int)) transfer.2.asset
      = Except.ok usdValue) :
    valuationStep cfg c blockNumber balances acc transfer i =
      if usdValue > c.USD_VALUE_THRESHOLD then
        Except.ok (acc.1 ++ [transfer], acc.2 ++ [b])
      else if usdValue = 0 ∧ transfer.2.asset ≠ "native" then
        match c.getTotalSupply blockNumber transfer.2.asset with
        | Except.error e => Except.error e
        | Except.ok totalSupply =>
          if (b.1 : Int) - (b.2 : Int) > ((totalSupply / 20 : Nat) : Int) then
            Except.ok (acc.1 ++ [transfer], acc.2 ++ [b])
          else Except.ok acc
      else Except.ok acc := by
  unfold valuationStep
  simp only [hb, hv]

theorem passesValuation_iff (cfg : Config) (c : Collaborators) (blockNumber : Int)
    (x : (Int × TransferEntry) × (Nat × Nat)) :
    passesValuation cfg c blockNumber x = true ↔
      ∃ usdValue,
        c.getValueInUsd blockNumber cfg.chainId ((x.2.1 : Int) - (x.2.2 : Int)) x.1.2.asset
          = Except.ok usdValue ∧
        (usdValue > c.USD_VALUE_THRESHOLD ∨
          (usdValue = 0 ∧ x.1.2.asset ≠ "native" ∧
            ∃ totalSupply, c.getTotalSupply blockNumber x.1.2.asset = Except.ok totalSupply ∧
              (x.2.1 : Int) - (x.2.2 : Int) > ((totalSupply / 20 : Nat) : Int))) := by
  unfold passesValuation shouldInclude
  cases hv : c.getValueInUsd blockNumber cfg.chainId ((x.2.1 : Int) - (x.2.2 : Int)) x.1.2.asset with
  | error e => simp
  | ok v =>
    simp only [Except.ok.injEq, exists_eq_left']
    by_cases h₁ : v > c.USD_VALUE_THRESHOLD
    · simp [h₁]
    · by_cases h₂ : v = 0 ∧ x.1.2.asset ≠ "native"
      · simp only [if_neg h₁, if_pos h₂]
        cases hts : c.getTotalSupply blockNumber x.1.2.asset with
        | error e => simp [h₁]
        | ok ts =>
          by_cases h₃ : (x.2.1 : Int) - (x.2.2 : Int) > ((ts / 20 : Nat) : Int)
          · simp only [decide_eq_true h₃, true_iff]
            exact Or.inr ⟨h₂.1, h₂.2, ts, rfl, h₃⟩
          · simp only [decide_eq_false h₃, Bool.false_eq_true, false_iff]
            rintro (h | ⟨-, -, ts', hts', hgt⟩)
            · exact h₁ h
            · rw [← Except.ok.inj hts'] at hgt
              exact h₃ hgt
      · simp only [if_neg h₁, if_neg h₂, Bool.false_eq_true, false_iff]
        rintro (h | ⟨h₃, h₄, -⟩)
        · exact h₁ h
        · exact h₂ ⟨h₃, h₄⟩

/-- C11. At the valuation filter an entry with balances (pre, post), with
`amountLost = pre - post`, `usdValue` the answer of `getValueInUsd` and
`totalSupply` the answer of `getTotalSupply`, is appended to the kept entries if
and only if `usdValue > USD_VALUE_THRESHOLD`, or `usdValue = 0`, the asset is not
native and `amountLost > floor(totalSupply / 20)`.  An entry with
`0 < usdValue <= USD_VALUE_THRESHOLD` is never kept, whatever the total supply
call does; with a threshold that is not negative a native asset of USD value 0
is never kept.  The stage as a whole returns exactly the entries that satisfy
the rule, paired with their balances. -/
theorem valuation_filter_rule (cfg : Config) (c : Collaborators) (blockNumber : Int) :
    (∀ (balances : List (Nat × Nat)) (acc : Ledger × List (Nat × Nat))
      (transfer : Int × TransferEntry) (i : Nat) (b : Nat × Nat) (usdValue : ℚ)
      (totalSupply : Nat),
      balances[i]? = some b →
      c.getValueInUsd blockNumber cfg.chainId ((b.1 : Int) - (b.2 : Int)) transfer.2.asset
        = Except.ok usdValue →
      c.getTotalSupply blockNumber transfer.2.asset = Except.ok totalSupply →
      valuationStep cfg c blockNumber balances acc transfer i =
        Except.ok
          (if usdValue > c.USD_VALUE_THRESHOLD ∨
              (usdValue = 0 ∧ transfer.2.asset ≠ "native" ∧
                (b.1 : Int) - (b.2 : Int) > ((totalSupply / 20 : Nat) : Int)) then
            (acc.1 ++ [transfer], acc.2 ++ [b])
          else acc)) ∧
    (∀ (balances : List (Nat × Nat)) (acc : Ledger × List (Nat × Nat))
      (transfer : Int × TransferEntry) (i : Nat) (b : Nat × Nat) (usdValue : ℚ),
      balances[i]? = some b →
      c.getValueInUsd blockNumber cfg.chainId ((b.1 : Int) - (b.2 : Int)) transfer.2.asset
        = Except.ok usdValue →
      0 < usdValue → usdValue ≤ c.USD_VALUE_THRESHOLD →
      valuationStep cfg c blockNumber balances acc transfer i = Except.ok acc) ∧
    (∀ (balances : List (Nat × Nat)) (acc : Ledger × List (Nat × Nat))
      (transfer : Int × TransferEntry) (i : Nat) (b : Nat × Nat),
      balances[i]? = some b →
      c.getValueInUsd blockNumber cfg.chainId ((b.1 : Int) - (b.2 : Int)) transfer.2.asset
        = Except.ok 0 →
      transfer.2.asset = "native" → 0 ≤ c.USD_VALUE_THRESHOLD →
      valuationStep cfg c blockNumber balances acc transfer i = Except.ok acc) ∧
    (∀ (balances : List (Nat × Nat)) (transfers : Ledger) (R : Ledger × List (Nat × Nat)),
      valuationFilter cfg c blockNumber balances 0 transfers ([], []) = Except.ok R →
      R.1.length = R.2.length ∧
      R.1.zip R.2 = (transfers.zip balances).filter (passesValuation cfg c blockNumber) ∧
      ∀ x, x ∈ R.1.zip R.2 ↔
        x ∈ transfers.zip balances ∧
        ∃ usdValue,
          c.getValueInUsd blockNumber cfg.chainId ((x.2.1 : Int) - (x.2.2 : Int)) x.1.2.asset
            = Except.ok usdValue ∧
          (usdValue > c.USD_VALUE_THRESHOLD ∨
            (usdValue = 0 ∧ x.1.2.asset ≠ "native" ∧
              ∃ totalSupply, c.getTotalSupply blockNumber x.1.2.asset = Except.ok totalSupply ∧
                (x.2.1 : Int) - (x.2.2 : Int) > ((totalSupply / 20 : Nat) : Int)))) := by
  refine ⟨?_, ?_, ?_, ?_⟩
  · intro balances acc transfer i b usdValue totalSupply hb hv hts
    rw [valuationStep_of_value cfg c blockNumber balances acc transfer i b usdValue hb hv, hts]
    by_cases h₁ : usdValue > c.USD_VALUE_THRESHOLD
    · simp [h₁]
    · by_cases h₂ : usdValue = 0 ∧ transfer.2.asset ≠ "native"
      · by_cases h₃ : (b.1 : Int) - (b.2 : Int) > ((totalSupply / 20 : Nat) : Int)
        · rw [if_neg h₁, if_pos h₂]
          simp only []
          rw [if_pos h₃, if_pos (Or.inr ⟨h₂.1, h₂.2, h₃⟩)]
        · rw [if_neg h₁, if_pos h₂]
          simp only []
          rw [if_neg h₃, if_neg]
          rintro (h | ⟨-, -, h⟩)
          · exact h₁ h
          · exact h₃ h
      · rw [if_neg h₁, if_neg h₂, if_neg]
        rintro (h | ⟨h₃, h₄, -⟩)
        · exact h₁ h
        · exact h₂ ⟨h₃, h₄⟩
  · intro balances acc transfer i b usdValue hb hv hpos hle
    rw [valuationStep_of_value cfg c blockNumber balances acc transfer i b usdValue hb hv,
      if_neg (not_lt.mpr hle), if_neg]
    rintro ⟨h, -⟩
    exact (ne_of_gt hpos) h
  · intro balances acc transfer i b hb hv hnative hth
    rw [valuationStep_of_value cfg c blockNumber balances acc transfer i b 0 hb hv,
      if_neg (not_lt.mpr hth), if_neg]
    rintro ⟨-, h⟩
    exact h hnative
  · intro balances transfers R h
    have hR := valuationFilter_ok cfg c blockNumber balances transfers 0 ([], []) R h
    simp only [List.nil_append, List.drop_zero] at hR
    have hz : R.1.zip R.2 = (transfers.zip balances).filter (passesValuation cfg c blockNumber) := by
      rw [hR]
      exact zip_fst_snd _
    refine ⟨by rw [hR]; simp, hz, ?_⟩
    intro x
    rw [hz, List.mem_filter, passesValuation_iff]

/-- Worked example: without a price, a native loss is dropped and a token loss
of 999990 units is kept against a total supply of 1000000 units. -/
theorem valuation_filter_rule_witness :
    valuationStep (provideInitialize 1) (unpricedCollaborators 1000000) 11 [(1000000, 10)]
        ([], []) sampleTokenEntry 0 =
      Except.ok
        (if (0 : ℚ) > (unpricedCollaborators 1000000).USD_VALUE_THRESHOLD ∨
            ((0 : ℚ) = 0 ∧ sampleTokenEntry.2.asset ≠ "native" ∧
              ((1000000 : Nat) : Int) - ((10 : Nat) : Int) > ((1000000 / 20 : Nat) : Int)) then
          ([] ++ [sampleTokenEntry], [] ++ [(1000000, 10)])
        else ([], [])) ∧
    valuationStep (provideInitialize 1) (unpricedCollaborators 1000000) 11 [(1000000, 10)]
        ([], []) sampleTokenEntry 0 =
      Except.ok ([sampleTokenEntry], [(1000000, 10)]) ∧
    valuationStep (provideInitialize 1) (unpricedCollaborators 1000000) 11 [(1000000, 10)]
        ([], []) (7, { sampleTokenEntry.2 with asset := "native" }) 0 = Except.ok ([], []) :=
  ⟨(valuation_filter_rule (provideInitialize 1) (unpricedCollaborators 1000000) 11).1
      [(1000000, 10)] ([], []) sampleTokenEntry 0 (1000000, 10) 0 1000000 rfl rfl rfl,
    rfl,
    (valuation_filter_rule (provideInitialize 1) (unpricedCollaborators 1000000) 11).2.2.1
      [(1000000, 10)] ([], []) (7, { sampleTokenEntry.2 with asset := "native" }) 0 (1000000, 10)
      rfl rfl rfl (by norm_num [unpricedCollaborators, sampleCollaborators])⟩

/-- C12. In the total-supply fallback (USD value 0, asset not native, threshold
not negative) an entry with `amountLost = pre - post` is kept if and only if
`20 * amountLost > totalSupply`; with a total supply of `20 * k` an amount lost
of `k` is not kept and an amount lost of `k + 1` is kept. -/
theorem total_supply_fallback_strict (cfg : Config) (c : Collaborators) (blockNumber : Int)
    (balances : List (Nat × Nat)) (acc : Ledger × List (Nat × Nat))
    (transfer : Int × TransferEntry) (i : Nat) (b : Nat × Nat) (totalSupply : Nat)
    (hb : balances[i]? = some b)
    (hv : c.getValueInUsd blockNumber cfg.chainId ((b.1 : Int) - (b.2 : Int)) transfer.2.asset
      = Except.ok 0)
    (hth : 0 ≤ c.USD_VALUE_THRESHOLD) (hasset : transfer.2.asset ≠ "native")
    (hts : c.getTotalSupply blockNumber transfer.2.asset = Except.ok totalSupply) :
    valuationStep cfg c blockNumber balances acc transfer i =
        Except.ok
          (if 20 * ((b.1 : Int) - (b.2 : Int)) > (totalSupply : Int) then
            (acc.1 ++ [transfer], acc.2 ++ [b])
          else acc) ∧
    (∀ k : Nat, totalSupply = 20 * k →
      ((b.1 : Int) - (b.2 : Int) = k →
        valuationStep cfg c blockNumber balances acc transfer i = Except.ok acc) ∧
      ((b.1 : Int) - (b.2 : Int) = k + 1 →
        valuationStep cfg c blockNumber balances acc transfer i =
          Except.ok (acc.1 ++ [transfer], acc.2 ++ [b]))) := by
  have key : ((b.1 : Int) - (b.2 : Int) > ((totalSupply / 20 : Nat) : Int)) ↔
      20 * ((b.1 : Int) - (b.2 : Int)) > (totalSupply : Int) := by
    constructor <;> intro h <;> omega
  have hstep : valuationStep cfg c blockNumber balances acc transfer i =
      Except.ok
        (if 20 * ((b.1 : Int) - (b.2 : Int)) > (totalSupply : Int) then
          (acc.1 ++ [transfer], acc.2 ++ [b])
        else acc) := by
    rw [valuationStep_of_value cfg c blockNumber balances acc transfer i b 0 hb hv,
      if_neg (not_lt.mpr hth), if_pos ⟨rfl, hasset⟩, hts]
    simp only []
    by_cases h : (b.1 : Int) - (b.2 : Int) > ((totalSupply / 20 : Nat) : Int)
    · rw [if_pos h, if_pos (key.mp h)]
    · rw [if_neg h, if_neg (fun h' => h (key.mpr h'))]
  refine ⟨hstep, ?_⟩
  intro k hk
  constructor
  · intro h
    rw [hstep, if_neg]
    rw [h, hk]
    push_cast
    omega
  · intro h
    rw [hstep, if_pos]
    rw [h, hk]
    push_cast
    omega

/-- Worked example: against a total supply of 1000000 units, a loss of 50000
units (5%) is dropped and a loss of 50001 units is kept. -/
theorem total_supply_fallback_strict_witness :
    valuationStep (provideInitialize 1) (unpricedCollaborators 1000000) 11 [(50000, 0)]
        ([], []) sampleTokenEntry 0 = Except.ok ([], []) ∧
    valuationStep (provideInitialize 1) (unpricedCollaborators 1000000) 11 [(50001, 0)]
        ([], []) sampleTokenEntry 0 = Except.ok ([] ++ [sampleTokenEntry], [] ++ [(50001, 0)]) :=
  ⟨((total_supply_fallback_strict (provideInitialize 1) (unpricedCollaborators 1000000) 11
      [(50000, 0)] ([], []) sampleTokenEntry 0 (50000, 0) 1000000 rfl rfl
      (by norm_num [unpricedCollaborators, sampleCollaborators]) (by decide) rfl).2
      50000 rfl).1 rfl,
    ((total_supply_fallback_strict (provideInitialize 1) (unpricedCollaborators 1000000) 11
      [(50001, 0)] ([], []) sampleTokenEntry 0 (50001, 0) 1000000 rfl rfl
      (by norm_num [unpricedCollaborators, sampleCollaborators]) (by decide) rfl).2
      50000 rfl).2 rfl⟩

/-- C20. The balance filter drops an entry with pre-drain balance 150 and
post-drain balance 1, and one with pre-drain balance 99 and post-drain balance
0, although both post-drain balances are below 1% of the pre-drain balance:
the check compares with the integer quotient `pre / 100`. -/
theorem balance_filter_drops_below_one_percent (t : Int × TransferEntry) :
    100 * 1 < 150 ∧
    balanceFilter [{ success := true, returnData := 150 }]
      [{ success := true, returnData := 1 }] 0 [t] = Except.ok ([], []) ∧
    100 * 0 < 99 ∧
    balanceFilter [{ success := true, returnData := 99 }]
      [{ success := true, returnData := 0 }] 0 [t] = Except.ok ([], []) :=
  ⟨by decide, rfl, by decide, rfl⟩

/-! ## Attribution, counter and exactness of the pass -/

theorem mem_uniq (xs : List String) (a : String) : a ∈ uniq xs ↔ a ∈ xs := by
  induction xs with
  | nil => simp [uniq]
  | cons x xs ih =>
    simp only [uniq, List.mem_cons, List.mem_filter, decide_eq_true_eq, ih]
    constructor
    · rintro (h | ⟨h, -⟩)
      · exact Or.inl h
      · exact Or.inr h
    · rintro (h | h)
      · exact Or.inl h
      · by_cases hx : a = x
        · exact Or.inl hx
        · exact Or.inr ⟨h, hx⟩

theorem uniq_nodup (xs : List String) : (uniq xs).Nodup := by
  induction xs with
  | nil => simp [uniq]
  | cons x xs ih =>
    simp only [uniq, List.nodup_cons, List.mem_filter, decide_eq_true_eq, ne_eq, not_and,
      not_not]
    exact ⟨fun _ => trivial, ih.filter _⟩

theorem mem_evidence (t : TransferEntry) (r : TxRecord) :
    r ∈ evidence t ↔ ∃ p ∈ t.txs, r ∈ p.2 := by
  simp only [evidence, List.mem_flatten, List.mem_map]
  constructor
  · rintro ⟨rs, ⟨p, hp, rfl⟩, hr⟩
    exact ⟨p, hp, hr⟩
  · rintro ⟨p, hp, hr⟩
    exact ⟨p.2, ⟨p, hp, rfl⟩, hr⟩

theorem emitAll_ok (cfg : Config) (c : Collaborators) (FB : List (Nat × Nat)) (F : Ledger) :
    ∀ (i count : Nat) (findings : List Finding),
      promiseAll (emitAll cfg c FB i count F) = Except.ok findings →
      findings.length = F.length ∧
      ∀ (j : Nat) (t : Int × TransferEntry), F[j]? = some t →
        ∃ b score, FB[i + j]? = some b ∧
          c.calculateAlertRate cfg.chainId BOT_ID "ASSET-DRAINED"
            (if cfg.isRelevantChain then ScanCountType.CustomScanCount
             else ScanCountType.TransferCount)
            (if cfg.isRelevantChain then count + (j + 1) else count) = Except.ok score ∧
          findings[j]? = some (buildFinding t.2 b score) := by
  induction F with
  | nil =>
    intro i count findings h
    simp only [emitAll, promiseAll, Except.ok.injEq] at h
    subst h
    simp
  | cons t F ih =>
    intro i count findings h
    unfold emitAll at h
    generalize hcount : (if cfg.isRelevantChain = true then count + 1 else count) = count' at h
    cases he : emitCallback cfg c FB count' t i with
    | error e => simp [promiseAll, he] at h
    | ok f₀ =>
      cases hr : promiseAll (emitAll cfg c FB (i + 1) count' F) with
      | error e => simp [promiseAll, he, hr] at h
      | ok fs =>
        simp only [promiseAll, he, hr, Except.ok.injEq] at h
        subst h
        obtain ⟨hlen, hrest⟩ := ih (i + 1) count' fs hr
        refine ⟨by simp [hlen], ?_⟩
        intro j t' hj
        cases j with
        | zero =>
          simp only [List.getElem?_cons_zero, Option.some.injEq] at hj
          subst hj
          unfold emitCallback at he
          cases hsc : c.calculateAlertRate cfg.chainId BOT_ID "ASSET-DRAINED"
              (if cfg.isRelevantChain then ScanCountType.CustomScanCount
               else ScanCountType.TransferCount) count' with
          | error e => simp [hsc] at he
          | ok score =>
            simp only [hsc] at he
            cases hb : FB[i]? with
            | none => simp [hb] at he
            | some b =>
              simp only [hb, Except.ok.injEq] at he
              refine ⟨b, score, by simpa using hb, ?_, by simp [he]⟩
              rw [← hsc, ← hcount]
        | succ j =>
          simp only [List.getElem?_cons_succ] at hj
          obtain ⟨b, score, h₁, h₂, h₃⟩ := hrest j t' hj
          refine ⟨b, score, ?_, ?_, by simpa using h₃⟩
          · rw [← h₁]; congr 1; omega
          · subst hcount
            cases hrel : cfg.isRelevantChain
            · simp only [hrel, Bool.false_eq_true, if_false] at h₂ ⊢
              exact h₂
            · simp only [hrel, if_true] at h₂ ⊢
              rw [← h₂]
              congr 1
              omega

theorem balanceFilter_ok (pre post : List CallResult) (ts : Ledger) :
    ∀ (i : Nat) (R : Ledger × List (Nat × Nat)),
      balanceFilter pre post i ts = Except.ok R →
      R = ((keptByBalance ts (pre.drop i) (post.drop i)).map (fun x => x.1),
        (keptByBalance ts (pre.drop i) (post.drop i)).map
          (fun x => (x.2.1.returnData, x.2.2.returnData))) := by
  induction ts with
  | nil => intro i R h; simp only [balanceFilter, Except.ok.injEq] at h; simp [← h, keptByBalance]
  | cons t ts ih =>
    intro i R h
    unfold balanceFilter at h
    cases hq : post[i]? with
    | none => simp [hq] at h
    | some q =>
      have hqi : i < post.length := by
        by_contra hcon
        rw [List.getElem?_eq_none (by omega)] at hq
        simp at hq
      have hqd : post.drop i = q :: post.drop (i + 1) := by
        rw [List.drop_eq_getElem_cons hqi]
        congr 1
        rw [List.getElem?_eq_getElem hqi] at hq
        exact Option.some.inj hq
      simp only [hq] at h
      by_cases hs : q.success = true
      · simp only [hs, if_true] at h
        cases hp : pre[i]? with
        | none => simp [hp] at h
        | some p =>
          have hpi : i < pre.length := by
            by_contra hcon
            rw [List.getElem?_eq_none (by omega)] at hp
            simp at hp
          have hpd : pre.drop i = p :: pre.drop (i + 1) := by
            rw [List.drop_eq_getElem_cons hpi]
            congr 1
            rw [List.getElem?_eq_getElem hpi] at hp
            exact Option.some.inj hp
          simp only [hp] at h
          cases hr : balanceFilter pre post (i + 1) ts with
          | error e => simp [hr] at h
          | ok r =>
            have hrec := ih (i + 1) r hr
            simp only [hr] at h
            rw [hpd, hqd]
            by_cases hc : balanceCheck p q = true
            · simp only [hc, if_true, Except.ok.injEq] at h
              rw [← h, hrec]
              simp [keptByBalance, List.filter_cons, hc]
            · simp only [hc, Bool.false_eq_true, if_false, Except.ok.injEq] at h
              rw [← h, hrec]
              simp [keptByBalance, List.filter_cons, hc]
      · simp only [hs] at h
        have hrec := ih (i + 1) R h
        rw [hrec, hqd]
        have hc : ∀ p, balanceCheck p q = false := by
          intro p; simp [balanceCheck, hs]
        cases hpd : pre.drop i with
        | nil =>
          have : pre.drop (i + 1) = [] := by
            rw [List.drop_eq_nil_iff] at hpd ⊢
            omega
          simp [keptByBalance, this]
        | cons p rest =>
          have : pre.drop (i + 1) = rest := by
            rw [← List.drop_drop, hpd]
            rfl
          simp [keptByBalance, List.filter_cons, hc, this]

theorem handleBlock_count (cfg : Config) (c : Collaborators) (s : State) (blockNumber : Int) :
    s.transfersCount ≤ (handleBlock cfg c s blockNumber).2.transfersCount := by
  unfold handleBlock
  simp only []
  repeat' split
  all_goals first | exact Nat.le_refl _ | exact Nat.le_add_right _ _

/-- C13. Every finding returned by `handleBlock` is built from a selected entry
t: its initiators have no duplicates and are exactly the `txFrom` values of the
records of `t.txs` over all counterparties, its transaction hashes have no
duplicates and are exactly the hashes of these records, its addresses are exactly
the counterparty keys of `t.txs`, and its labels are the Victim label of
`t.address` with confidence 1 followed by one Attacker label with confidence 1/2
for each initiator, in order. -/
theorem finding_attribution (cfg : Config) (c : Collaborators) (s s' : State)
    (blockNumber : Int) (findings : List Finding)
    (h : handleBlock cfg c s blockNumber = (Except.ok findings, s')) :
    ∀ f ∈ findings, ∃ t ∈ selectTransfers cfg s.transfersObj blockNumber,
      f.metadata.contract = t.2.address ∧ f.metadata.asset = t.2.asset ∧
      f.metadata.initiators.Nodup ∧
      (∀ a, a ∈ f.metadata.initiators ↔ ∃ p ∈ t.2.txs, ∃ r ∈ p.2, r.txFrom = a) ∧
      f.metadata.txHashes.Nodup ∧
      (∀ a, a ∈ f.metadata.txHashes ↔ ∃ p ∈ t.2.txs, ∃ r ∈ p.2, r.hash = a) ∧
      f.addresses.Nodup ∧
      (∀ a, a ∈ f.addresses ↔ ∃ p ∈ t.2.txs, p.1 = a) ∧
      f.labels =
        { entity := t.2.address, label := "Victim", confidence := 1 } ::
          f.metadata.initiators.map fun a =>
            { entity := a, label := "Attacker", confidence := 1 / 2 } := by
  intro f hf
  obtain ⟨i, t, p, q, pre, post, sym, score, hi, -, -, -, -, -, -, -, rfl⟩ :=
    finding_provenance cfg c s s' blockNumber findings h f hf
  refine ⟨t, List.mem_iff_getElem?.mpr ⟨i, hi⟩, rfl, rfl, uniq_nodup _, ?_, uniq_nodup _, ?_,
    uniq_nodup _, ?_, rfl⟩
  · intro a
    simp only [buildFinding, initiatorsOf, mem_uniq, List.mem_map, mem_evidence]
    constructor
    · rintro ⟨r, ⟨p, hp, hr⟩, rfl⟩
      exact ⟨p, hp, r, hr, rfl⟩
    · rintro ⟨p, hp, r, hr, rfl⟩
      exact ⟨r, ⟨p, hp, hr⟩, rfl⟩
  · intro a
    simp only [buildFinding, txHashesOf, mem_uniq, List.mem_map, mem_evidence]
    constructor
    · rintro ⟨r, ⟨p, hp, hr⟩, rfl⟩
      exact ⟨p, hp, r, hr, rfl⟩
    · rintro ⟨p, hp, r, hr, rfl⟩
      exact ⟨r, ⟨p, hp, hr⟩, rfl⟩
  · intro a
    simp only [buildFinding, mem_uniq, List.mem_map]

/-- Worked example: two counterparties and two initiators, one of them twice. -/
theorem finding_attribution_witness :
    handleBlock (provideInitialize 1) (sampleCollaborators AddressType.Contract)
        sampleUnionState 11 =
      (Except.ok [sampleUnionFinding], { transfersObj := [], transfersCount := 0 }) ∧
    sampleUnionFinding.metadata.initiators = ["0xI", "0xJ"] ∧
    ∃ t ∈ selectTransfers (provideInitialize 1) sampleUnionState.transfersObj 11,
      sampleUnionFinding.metadata.contract = t.2.address ∧
      sampleUnionFinding.metadata.asset = t.2.asset ∧
      sampleUnionFinding.metadata.initiators.Nodup ∧
      (∀ a, a ∈ sampleUnionFinding.metadata.initiators ↔
        ∃ p ∈ t.2.txs, ∃ r ∈ p.2, r.txFrom = a) ∧
      sampleUnionFinding.metadata.txHashes.Nodup ∧
      (∀ a, a ∈ sampleUnionFinding.metadata.txHashes ↔ ∃ p ∈ t.2.txs, ∃ r ∈ p.2, r.hash = a) ∧
      sampleUnionFinding.addresses.Nodup ∧
      (∀ a, a ∈ sampleUnionFinding.addresses ↔ ∃ p ∈ t.2.txs, p.1 = a) ∧
      sampleUnionFinding.labels =
        { entity := t.2.address, label := "Victim", confidence := 1 } ::
          sampleUnionFinding.metadata.initiators.map fun a =>
            { entity := a, label := "Attacker", confidence := 1 / 2 } :=
  ⟨rfl, rfl,
    finding_attribution (provideInitialize 1) (sampleCollaborators AddressType.Contract)
      sampleUnionState { transfersObj := [], transfersCount := 0 } 11 [sampleUnionFinding] rfl
      sampleUnionFinding (List.mem_singleton.mpr rfl)⟩

theorem isRelevantChain_iff (n : Nat) :
    (provideInitialize n).isRelevantChain = true ↔ n = 10 ∨ n = 250 ∨ n = 43114 := by
  simp [provideInitialize]

theorem forall₂_filter {α β : Type} (R : α → β → Prop) (p : α → Bool) (q : β → Bool)
    (hpq : ∀ a b, R a b → p a = q b) :
    ∀ (xs : List α) (ys : List β), List.Forall₂ R xs ys →
      List.Forall₂ R (xs.filter p) (ys.filter q) := by
  intro xs ys h
  induction h with
  | nil => exact List.Forall₂.nil
  | @cons a b as bs hab _ ih =>
    have := hpq a b hab
    cases hq : q b with
    | false => simp [List.filter_cons, this, hq, ih]
    | true => simp [List.filter_cons, this, hq, ih, hab]

theorem forall₂_comp {α β γ : Type} (R : α → β → Prop) (S : β → γ → Prop) :
    ∀ (xs : List α) (ys : List β) (zs : List γ), List.Forall₂ R xs ys → List.Forall₂ S ys zs →
      List.Forall₂ (fun x z => ∃ y, R x y ∧ S y z) xs zs := by
  intro xs ys zs h
  induction h generalizing zs with
  | nil => intro h'; cases h'; exact List.Forall₂.nil
  | cons hab _ ih =>
    intro h'
    cases h' with
    | cons hbc hrest => exact List.Forall₂.cons ⟨_, hab, hbc⟩ (ih _ hrest)

theorem promiseAll_map_forall₂ {α β : Type} (f : α → Except Failure β) (xs : List α) :
    ∀ ys : List β, promiseAll (xs.map f) = Except.ok ys →
      List.Forall₂ (fun x y => f x = Except.ok y) xs ys := by
  induction xs with
  | nil =>
    intro ys h
    simp only [List.map_nil, promiseAll, Except.ok.injEq] at h
    subst h
    exact List.Forall₂.nil
  | cons x xs ih =>
    intro ys h
    simp only [List.map_cons] at h
    cases hx : f x with
    | error e => simp [promiseAll, hx] at h
    | ok y =>
      cases hr : promiseAll (xs.map f) with
      | error e => simp [promiseAll, hx, hr] at h
      | ok ys' =>
        simp only [promiseAll, hx, hr, Except.ok.injEq] at h
        subst h
        exact List.Forall₂.cons hx (ih ys' hr)

theorem promiseAll_map_total {α β : Type} (f : α → Except Failure β) (xs : List α)
    (h : ∀ x ∈ xs, ∃ y, f x = Except.ok y) :
    ∃ ys, promiseAll (xs.map f) = Except.ok ys ∧ ys.length = xs.length := by
  induction xs with
  | nil => exact ⟨[], rfl, rfl⟩
  | cons x xs ih =>
    obtain ⟨y, hy⟩ := h x (List.mem_cons_self _ _)
    obtain ⟨ys, hys, hlen⟩ := ih fun z hz => h z (List.mem_cons_of_mem _ hz)
    exact ⟨y :: ys, by simp [promiseAll, hy, hys], by simp [hlen]⟩

theorem attachSymbols_forall₂ (c : Collaborators)
    (K : List ((Int × TransferEntry) × CallResult × CallResult)) :
    ∀ symbols : List String,
      List.Forall₂ (fun (t : Int × TransferEntry) s => c.getAssetSymbol t.2.asset = Except.ok s)
        (K.map fun x => x.1) symbols →
      List.Forall₂
        (fun x (y : (Int × TransferEntry) × (Nat × Nat)) =>
          ∃ sym, c.getAssetSymbol x.1.2.asset = Except.ok sym ∧
            y = ((x.1.1, { x.1.2 with symbol := some sym }), (withBalances x).2))
        K ((attachSymbols (K.map fun x => x.1) symbols).zip (K.map fun x => (withBalances x).2)) := by
  induction K with
  | nil => intro symbols _; simp [attachSymbols]
  | cons x K ih =>
    intro symbols h
    cases h with
    | cons hs hrest =>
      simp only [List.map_cons, attachSymbols, List.zipWith_cons_cons, List.zip_cons_cons]
      exact List.Forall₂.cons ⟨_, hs, rfl⟩ (ih _ hrest)

theorem emitAll_forall₂ (cfg : Config) (c : Collaborators) (FB : List (Nat × Nat)) (F : Ledger) :
    ∀ (i count : Nat) (findings : List Finding),
      promiseAll (emitAll cfg c FB i count F) = Except.ok findings →
      List.Forall₂ (fun (y : (Int × TransferEntry) × (Nat × Nat)) f =>
          ∃ score, f = buildFinding y.1.2 y.2 score)
        (F.zip (FB.drop i)) findings := by
  induction F with
  | nil =>
    intro i count findings h
    simp only [emitAll, promiseAll, Except.ok.injEq] at h
    subst h
    simp
  | cons t F ih =>
    intro i count findings h
    unfold emitAll at h
    generalize (if cfg.isRelevantChain = true then count + 1 else count) = count' at h
    cases he : emitCallback cfg c FB count' t i with
    | error e => simp [promiseAll, he] at h
    | ok f₀ =>
      cases hr : promiseAll (emitAll cfg c FB (i + 1) count' F) with
      | error e => simp [promiseAll, he, hr] at h
      | ok fs =>
        simp only [promiseAll, he, hr, Except.ok.injEq] at h
        subst h
        unfold emitCallback at he
        cases hsc : c.calculateAlertRate cfg.chainId BOT_ID "ASSET-DRAINED"
            (if cfg.isRelevantChain then ScanCountType.CustomScanCount
             else ScanCountType.TransferCount) count' with
        | error e => simp [hsc] at he
        | ok score =>
          simp only [hsc] at he
          cases hb : FB[i]? with
          | none => simp [hb] at he
          | some b =>
            simp only [hb, Except.ok.injEq] at he
            have hi : i < FB.length := by
              by_contra hcon
              rw [List.getElem?_eq_none (by omega)] at hb
              simp at hb
            have hd : FB.drop i = b :: FB.drop (i + 1) := by
              rw [List.drop_eq_getElem_cons hi]
              congr 1
              rw [List.getElem?_eq_getElem hi] at hb
              exact Option.some.inj hb
            rw [hd, List.zip_cons_cons]
            exact List.Forall₂.cons ⟨score, he.symm⟩ (ih (i + 1) count' fs hr)

theorem emitAll_total (cfg : Config) (c : Collaborators) (FB : List (Nat × Nat)) (F : Ledger)
    (hsc : ∀ n id alert strategy k, ∃ score,
      c.calculateAlertRate n id alert strategy k = Except.ok score) :
    ∀ (i count : Nat), i + F.length ≤ FB.length →
      ∃ findings, promiseAll (emitAll cfg c FB i count F) = Except.ok findings := by
  induction F with
  | nil => intro i count _; exact ⟨[], rfl⟩
  | cons t F ih =>
    intro i count hlen
    simp only [List.length_cons] at hlen
    unfold emitAll
    generalize (if cfg.isRelevantChain = true then count + 1 else count) = count'
    obtain ⟨fs, hfs⟩ := ih (i + 1) count' (by omega)
    obtain ⟨score, hscore⟩ := hsc cfg.chainId BOT_ID "ASSET-DRAINED"
      (if cfg.isRelevantChain then ScanCountType.CustomScanCount
       else ScanCountType.TransferCount) count'
    have hb : FB[i]? = some FB[i] := List.getElem?_eq_getElem (by omega)
    refine ⟨buildFinding t.2 FB[i] score :: fs, ?_⟩
    simp [promiseAll, emitCallback, hscore, hb, hfs]

theorem valuationFilter_total (cfg : Config) (c : Collaborators) (blockNumber : Int)
    (balances : List (Nat × Nat))
    (husd : ∀ b n amount asset, ∃ v, c.getValueInUsd b n amount asset = Except.ok v)
    (hts : ∀ b asset, ∃ totalSupply, c.getTotalSupply b asset = Except.ok totalSupply)
    (ts : Ledger) :
    ∀ (i : Nat) (acc : Ledger × List (Nat × Nat)), i + ts.length ≤ balances.length →
      ∃ R, valuationFilter cfg c blockNumber balances i ts acc = Except.ok R := by
  induction ts with
  | nil => intro i acc _; exact ⟨acc, rfl⟩
  | cons t ts ih =>
    intro i acc hlen
    simp only [List.length_cons] at hlen
    have hb : balances[i]? = some balances[i] := List.getElem?_eq_getElem (by omega)
    obtain ⟨v, hv⟩ := husd blockNumber cfg.chainId
      ((balances[i].1 : Int) - (balances[i].2 : Int)) t.2.asset
    obtain ⟨supply, hsupply⟩ := hts blockNumber t.2.asset
    have hstep : ∃ acc', valuationStep cfg c blockNumber balances acc t i = Except.ok acc' := by
      rw [valuationStep_of_value cfg c blockNumber balances acc t i balances[i] v hb hv, hsupply]
      simp only []
      split
      · exact ⟨_, rfl⟩
      · split
        · split <;> exact ⟨_, rfl⟩
        · exact ⟨_, rfl⟩
    obtain ⟨acc', hacc⟩ := hstep
    unfold valuationFilter
    rw [hacc]
    exact ih (i + 1) acc' (by omega)

theorem handleBlock_findings (cfg : Config) (c : Collaborators) (s s' : State)
    (blockNumber : Int) (findings : List Finding)
    (h : handleBlock cfg c s blockNumber = (Except.ok findings, s')) :
    ∃ pre post emitted,
      c.tryAll ((selectTransfers cfg s.transfersObj blockNumber).map fun e => balanceCall e.2)
        (preDrainBlock cfg blockNumber) = Except.ok pre ∧
      c.tryAll ((selectTransfers cfg s.transfersObj blockNumber).map fun e => balanceCall e.2)
        (postDrainBlock cfg blockNumber) = Except.ok post ∧
      findings.Perm emitted ∧
      List.Forall₂
        (fun x f => ∃ sym score, c.getAssetSymbol x.1.2.asset = Except.ok sym ∧
          f = buildFinding { x.1.2 with symbol := some sym }
            (x.2.1.returnData, x.2.2.returnData) score)
        (qualifying cfg c blockNumber s.transfersObj pre post) emitted ∧
      ∀ (j : Nat) (f : Finding), emitted[j]? = some f →
        c.calculateAlertRate cfg.chainId BOT_ID "ASSET-DRAINED"
          (if cfg.isRelevantChain then ScanCountType.CustomScanCount
           else ScanCountType.TransferCount)
          (if cfg.isRelevantChain then s.transfersCount + (j + 1) else s.transfersCount)
          = Except.ok f.metadata.anomalyScore := by
  obtain ⟨pre, post, T₁, B₁, T₂, B₂, symbols, F, FB, emitted, h₁, h₂, h₃, h₄, h₅, h₆, h₇,
      hperm, -⟩ :=
    handleBlock_ok_inv cfg c s s' blockNumber findings h
  refine ⟨pre, post, emitted, h₁, h₂, hperm, ?_, ?_⟩
  swap
  · obtain ⟨hlen, hall⟩ := emitAll_ok cfg c FB F 0 s.transfersCount emitted h₇
    intro j f hj
    have hjlt : j < F.length := by
      rw [← hlen]
      exact (List.getElem?_eq_some.mp hj).1
    obtain ⟨b, score, -, hsc, hf⟩ := hall j F[j] (List.getElem?_eq_getElem hjlt)
    rw [hj] at hf
    rw [Option.some.inj hf]
    exact hsc
  have hbf := balanceFilter_ok pre post _ 0 (T₁, B₁) h₃
  simp only [List.drop_zero, Prod.mk.injEq] at hbf
  obtain ⟨hT₁, hB₁⟩ := hbf
  have hlen : T₁.length = B₁.length := by rw [hT₁, hB₁]; simp
  have ho := ownershipFilter_of_answers c T₁ B₁ hlen (ownershipFilter_ok_inv c T₁ B₁ _ h₄)
  rw [h₄] at ho
  simp only [Except.ok.injEq, Prod.mk.injEq] at ho
  have hKO : keptByOwnership c T₁ B₁ =
      ((keptByBalance (selectTransfers cfg s.transfersObj blockNumber) pre post).filter
        fun x => isContract c x.1).map withBalances := by
    unfold keptByOwnership
    rw [hT₁, hB₁, List.zip_map', List.filter_map]
    rfl
  obtain ⟨hT₂, hB₂⟩ := ho
  rw [hKO, List.map_map] at hT₂ hB₂
  have hsym := promiseAll_map_forall₂ (fun t : Int × TransferEntry => c.getAssetSymbol t.2.asset)
    T₂ symbols h₅
  rw [hT₂] at hsym
  have hatt := attachSymbols_forall₂ c _ symbols hsym
  have hv := valuationFilter_ok cfg c blockNumber B₂ (attachSymbols T₂ symbols) 0 ([], [])
    (F, FB) h₆
  simp only [List.nil_append, List.drop_zero, Prod.mk.injEq] at hv
  have hzip : F.zip FB =
      ((attachSymbols T₂ symbols).zip B₂).filter (passesValuation cfg c blockNumber) := by
    rw [hv.1, hv.2, zip_fst_snd]
  have hfil := forall₂_filter _ (fun x => passesValuation cfg c blockNumber (withBalances x))
    (passesValuation cfg c blockNumber)
    (by
      rintro x y ⟨sym, -, rfl⟩
      rfl)
    _ _ hatt
  have hemit := emitAll_forall₂ cfg c FB F 0 s.transfersCount emitted h₇
  rw [List.drop_zero, hzip, hT₂, hB₂] at hemit
  have hcomp := forall₂_comp _ _ _ _ _ hfil hemit
  refine List.Forall₂.imp ?_ hcomp
  rintro x f ⟨y, ⟨sym, hsym', rfl⟩, score, rfl⟩
  exact ⟨sym, score, hsym', rfl⟩

theorem handleBlock_total (cfg : Config) (c : Collaborators) (s : State) (blockNumber : Int)
    (pre post : List CallResult)
    (hpre : c.tryAll
      ((selectTransfers cfg s.transfersObj blockNumber).map fun e => balanceCall e.2)
      (preDrainBlock cfg blockNumber) = Except.ok pre)
    (hpost : c.tryAll
      ((selectTransfers cfg s.transfersObj blockNumber).map fun e => balanceCall e.2)
      (postDrainBlock cfg blockNumber) = Except.ok post)
    (hl₁ : pre.length = (selectTransfers cfg s.transfersObj blockNumber).length)
    (hl₂ : post.length = (selectTransfers cfg s.transfersObj blockNumber).length)
    (hty : ∀ a, ∃ type, c.getAddressType a = Except.ok type)
    (hsym : ∀ a, ∃ sym, c.getAssetSymbol a = Except.ok sym)
    (husd : ∀ b n amount asset, ∃ v, c.getValueInUsd b n amount asset = Except.ok v)
    (hts : ∀ b asset, ∃ totalSupply, c.getTotalSupply b asset = Except.ok totalSupply)
    (hsc : ∀ n id alert strategy k, ∃ score,
      c.calculateAlertRate n id alert strategy k = Except.ok score) :
    ∃ findings s', handleBlock cfg c s blockNumber = (Except.ok findings, s') := by
  have hb := balanceFilter_of_lengths _ pre post hl₁ hl₂
  generalize hK : keptByBalance (selectTransfers cfg s.transfersObj blockNumber) pre post = K
    at hb
  have ho := ownershipFilter_of_answers c (K.map fun x => x.1)
    (K.map fun x => (x.2.1.returnData, x.2.2.returnData)) (by simp)
    (fun t _ => hty t.2.address)
  generalize hKO : keptByOwnership c (K.map fun x => x.1)
    (K.map fun x => (x.2.1.returnData, x.2.2.returnData)) = KO at ho
  obtain ⟨symbols, hsymbols, hslen⟩ := promiseAll_map_total
    (fun t : Int × TransferEntry => c.getAssetSymbol t.2.asset) (KO.map Prod.fst)
    (fun t _ => hsym t.2.asset)
  obtain ⟨⟨F, FB⟩, hR⟩ := valuationFilter_total cfg c blockNumber (KO.map Prod.snd) husd hts
    (attachSymbols (KO.map Prod.fst) symbols) 0 ([], [])
    (by simp [attachSymbols, hslen])
  have hRz := valuationFilter_ok cfg c blockNumber _ _ 0 ([], []) (F, FB) hR
  simp only [Prod.mk.injEq] at hRz
  obtain ⟨fs, hfs⟩ := emitAll_total cfg c FB F hsc 0 s.transfersCount
    (by rw [hRz.1, hRz.2]; simp)
  obtain ⟨bs, hbs, -⟩ := promiseAll_perm_ok _ _
    (settleOrder_perm (c.scoreArrival blockNumber) (emitAll cfg c FB 0 s.transfersCount F) 0
      []).symm fs (by rw [List.nil_append]; exact hfs)
  refine ⟨bs,
    { transfersObj := []
      transfersCount :=
        if cfg.isRelevantChain then s.transfersCount + F.length else s.transfersCount }, ?_⟩
  unfold handleBlock
  simp only [hpre, hpost, hb, ho, hsymbols, hR, hbs]

/-- C14. `handleBlock` returns one finding for each selected entry that passes
the magnitude, ownership and valuation filters, and no other finding: the
returned findings are, in the order in which their scores arrive, the findings
built one for each of these entries, and the finding of an entry has alert id
"ASSET-DRAINED", the address, asset and block number of the entry and the two
balances read for it in decimal.  When the two batches answer for every selected
entry and every collaborator answers, `handleBlock` does return. -/
theorem one_finding_per_qualifying_entry (cfg : Config) (c : Collaborators) (s : State)
    (blockNumber : Int) :
    (∀ (pre post : List CallResult) (x : (Int × TransferEntry) × CallResult × CallResult),
      x ∈ qualifying cfg c blockNumber s.transfersObj pre post ↔
        x ∈ (selectTransfers cfg s.transfersObj blockNumber).zip (pre.zip post) ∧
        balanceCheck x.2.1 x.2.2 = true ∧
        c.getAddressType x.1.2.address = Except.ok AddressType.Contract ∧
        passesValuation cfg c blockNumber (x.1, (x.2.1.returnData, x.2.2.returnData)) = true) ∧
    (∀ findings s', handleBlock cfg c s blockNumber = (Except.ok findings, s') →
      ∃ pre post emitted,
        c.tryAll ((selectTransfers cfg s.transfersObj blockNumber).map fun e => balanceCall e.2)
          (preDrainBlock cfg blockNumber) = Except.ok pre ∧
        c.tryAll ((selectTransfers cfg s.transfersObj blockNumber).map fun e => balanceCall e.2)
          (postDrainBlock cfg blockNumber) = Except.ok post ∧
        findings.Perm emitted ∧
        List.Forall₂
          (fun x f =>
            (∃ sym score, c.getAssetSymbol x.1.2.asset = Except.ok sym ∧
              f = buildFinding { x.1.2 with symbol := some sym }
                (x.2.1.returnData, x.2.2.returnData) score) ∧
            f.alertId = "ASSET-DRAINED" ∧ f.metadata.contract = x.1.2.address ∧
            f.metadata.asset = x.1.2.asset ∧ f.metadata.blockNumber = x.1.2.blockNumber ∧
            f.metadata.preDrainBalance = bigNumberToString x.2.1.returnData ∧
            f.metadata.postDrainBalance = bigNumberToString x.2.2.returnData)
          (qualifying cfg c blockNumber s.transfersObj pre post) emitted) ∧
    (∀ pre post : List CallResult,
      c.tryAll ((selectTransfers cfg s.transfersObj blockNumber).map fun e => balanceCall e.2)
        (preDrainBlock cfg blockNumber) = Except.ok pre →
      c.tryAll ((selectTransfers cfg s.transfersObj blockNumber).map fun e => balanceCall e.2)
        (postDrainBlock cfg blockNumber) = Except.ok post →
      pre.length = (selectTransfers cfg s.transfersObj blockNumber).length →
      post.length = (selectTransfers cfg s.transfersObj blockNumber).length →
      (∀ a, ∃ type, c.getAddressType a = Except.ok type) →
      (∀ a, ∃ sym, c.getAssetSymbol a = Except.ok sym) →
      (∀ b n amount asset, ∃ v, c.getValueInUsd b n amount asset = Except.ok v) →
      (∀ b asset, ∃ totalSupply, c.getTotalSupply b asset = Except.ok totalSupply) →
      (∀ n id alert strategy k, ∃ score,
        c.calculateAlertRate n id alert strategy k = Except.ok score) →
      ∃ findings s', handleBlock cfg c s blockNumber = (Except.ok findings, s')) := by
  refine ⟨?_, ?_, ?_⟩
  · intro pre post x
    simp only [qualifying, keptByBalance, List.mem_filter, isContract_iff, withBalances,
      and_assoc]
  · intro findings s' h
    obtain ⟨pre, post, emitted, h₁, h₂, hperm, hall, -⟩ :=
      handleBlock_findings cfg c s s' blockNumber findings h
    refine ⟨pre, post, emitted, h₁, h₂, hperm, List.Forall₂.imp ?_ hall⟩
    rintro x f ⟨sym, score, hsym, rfl⟩
    exact ⟨⟨sym, score, hsym, rfl⟩, rfl, rfl, rfl, rfl, rfl, rfl⟩
  · intro pre post h₁ h₂ h₃ h₄ h₅ h₆ h₇ h₈ h₉
    exact handleBlock_total cfg c s blockNumber pre post h₁ h₂ h₃ h₄ h₅ h₆ h₇ h₈ h₉

/-- Worked example: contract `0xC` sends 999990 units of token `0xt` in block 10
(transaction `h1`, initiator `0xI`); with balances 1000000 before and 10 after,
the pass at block 11 on chain 1 returns exactly one finding.  With two drained
entries whose scores arrive in reverse order, the pass returns the finding of
the second entry first. -/
theorem one_finding_per_qualifying_entry_witness :
    handleBlock (provideInitialize 1) (sampleCollaborators AddressType.Contract) sampleState 11
      = (Except.ok [sampleFinding], { transfersObj := [], transfersCount := 0 }) ∧
    sampleFinding.metadata.contract = "0xC" ∧ sampleFinding.metadata.asset = "0xt" ∧
    sampleFinding.metadata.initiators = ["0xI"] ∧ sampleFinding.metadata.txHashes = ["h1"] ∧
    sampleFinding.metadata.preDrainBalance = "1000000" ∧
    sampleFinding.metadata.postDrainBalance = "10" ∧
    (∃ pre post emitted,
      (sampleCollaborators AddressType.Contract).tryAll
        ((selectTransfers (provideInitialize 1) sampleState.transfersObj 11).map
          fun e => balanceCall e.2)
        (preDrainBlock (provideInitialize 1) 11) = Except.ok pre ∧
      (sampleCollaborators AddressType.Contract).tryAll
        ((selectTransfers (provideInitialize 1) sampleState.transfersObj 11).map
          fun e => balanceCall e.2)
        (postDrainBlock (provideInitialize 1) 11) = Except.ok post ∧
      [sampleFinding].Perm emitted ∧
      List.Forall₂
        (fun x f =>
          (∃ sym score,
            (sampleCollaborators AddressType.Contract).getAssetSymbol x.1.2.asset
              = Except.ok sym ∧
            f = buildFinding { x.1.2 with symbol := some sym }
              (x.2.1.returnData, x.2.2.returnData) score) ∧
          f.alertId = "ASSET-DRAINED" ∧ f.metadata.contract = x.1.2.address ∧
          f.metadata.asset = x.1.2.asset ∧ f.metadata.blockNumber = x.1.2.blockNumber ∧
          f.metadata.preDrainBalance = bigNumberToString x.2.1.returnData ∧
          f.metadata.postDrainBalance = bigNumberToString x.2.2.returnData)
        (qualifying (provideInitialize 1) (sampleCollaborators AddressType.Contract) 11
          sampleState.transfersObj pre post) emitted) ∧
    (qualifying (provideInitialize 10) countingCollaborators 11 sampleState.transfersObj
        [{ success := true, returnData := 1000000 }, { success := true, returnData := 1000000 }]
        [{ success := true, returnData := 10 }, { success := true, returnData := 10 }]).map
      (fun x => x.1.2.address) = ["0xD", "0xC"] ∧
    ∃ pre post emitted,
      countingCollaborators.tryAll
        ((selectTransfers (provideInitialize 10) sampleState.transfersObj 11).map
          fun e => balanceCall e.2)
        (preDrainBlock (provideInitialize 10) 11) = Except.ok pre ∧
      countingCollaborators.tryAll
        ((selectTransfers (provideInitialize 10) sampleState.transfersObj 11).map
          fun e => balanceCall e.2)
        (postDrainBlock (provideInitialize 10) 11) = Except.ok post ∧
      [sampleScoredFinding 2, sampleNativeFinding 1].Perm emitted ∧
      List.Forall₂
        (fun x f =>
          (∃ sym score,
            countingCollaborators.getAssetSymbol x.1.2.asset = Except.ok sym ∧
            f = buildFinding { x.1.2 with symbol := some sym }
              (x.2.1.returnData, x.2.2.returnData) score) ∧
          f.alertId = "ASSET-DRAINED" ∧ f.metadata.contract = x.1.2.address ∧
          f.metadata.asset = x.1.2.asset ∧ f.metadata.blockNumber = x.1.2.blockNumber ∧
          f.metadata.preDrainBalance = bigNumberToString x.2.1.returnData ∧
          f.metadata.postDrainBalance = bigNumberToString x.2.2.returnData)
        (qualifying (provideInitialize 10) countingCollaborators 11
          sampleState.transfersObj pre post) emitted :=
  ⟨rfl, rfl, rfl, rfl, rfl, rfl, rfl,
    (one_finding_per_qualifying_entry (provideInitialize 1)
      (sampleCollaborators AddressType.Contract) sampleState 11).2.1
      [sampleFinding] { transfersObj := [], transfersCount := 0 } rfl,
    rfl,
    (one_finding_per_qualifying_entry (provideInitialize 10) countingCollaborators
      sampleState 11).2.1
      [sampleScoredFinding 2, sampleNativeFinding 1] { transfersObj := [], transfersCount := 2 }
      rfl⟩

/-- C17. For a block pass that returns, the findings are those built for the
qualifying entries in the order in which the entries are processed, returned in
the order in which their scores arrive.  On a chain with id 10, 250 or 43114 the
counter `transfersCount` grows by the number of findings and the score in the
finding of the j-th processed entry (counted from 1) is the answer of
`calculateAlertRate` for the custom-scan-count strategy and the counter value
old + j; on any other chain the counter keeps its value and every score is the
answer for the transfer-count strategy and the old counter value.  On every
path, returning or rejecting, the counter after `handleBlock` is at least the
counter before, and `handleTransaction` does not change it. -/
theorem alert_counter (networkChainId : Nat) (c : Collaborators) (s : State)
    (blockNumber : Int) :
    (∀ findings s',
      handleBlock (provideInitialize networkChainId) c s blockNumber
        = (Except.ok findings, s') →
      ∃ pre post emitted,
        c.tryAll ((selectTransfers (provideInitialize networkChainId) s.transfersObj
            blockNumber).map fun e => balanceCall e.2)
          (preDrainBlock (provideInitialize networkChainId) blockNumber) = Except.ok pre ∧
        c.tryAll ((selectTransfers (provideInitialize networkChainId) s.transfersObj
            blockNumber).map fun e => balanceCall e.2)
          (postDrainBlock (provideInitialize networkChainId) blockNumber) = Except.ok post ∧
        findings.Perm emitted ∧
        List.Forall₂
          (fun x f => ∃ sym score, c.getAssetSymbol x.1.2.asset = Except.ok sym ∧
            f = buildFinding { x.1.2 with symbol := some sym }
              (x.2.1.returnData, x.2.2.returnData) score)
          (qualifying (provideInitialize networkChainId) c blockNumber s.transfersObj pre post)
          emitted ∧
        ((networkChainId = 10 ∨ networkChainId = 250 ∨ networkChainId = 43114) →
          s'.transfersCount = s.transfersCount + findings.length ∧
          ∀ (j : Nat) (f : Finding), emitted[j]? = some f →
            c.calculateAlertRate networkChainId BOT_ID "ASSET-DRAINED"
              ScanCountType.CustomScanCount (s.transfersCount + (j + 1))
              = Except.ok f.metadata.anomalyScore) ∧
        (¬(networkChainId = 10 ∨ networkChainId = 250 ∨ networkChainId = 43114) →
          s'.transfersCount = s.transfersCount ∧
          ∀ (j : Nat) (f : Finding), emitted[j]? = some f →
            c.calculateAlertRate networkChainId BOT_ID "ASSET-DRAINED"
              ScanCountType.TransferCount s.transfersCount
              = Except.ok f.metadata.anomalyScore)) ∧
    s.transfersCount ≤
      (handleBlock (provideInitialize networkChainId) c s blockNumber).2.transfersCount ∧
    (∀ (hashCode : String → String → Int) (tx : TxEvent),
      (handleTransaction hashCode s tx).2.transfersCount = s.transfersCount) := by
  refine ⟨?_, handleBlock_count _ c s blockNumber, fun _ _ => rfl⟩
  intro findings s' h
  obtain ⟨pre, post, emitted, h₁, h₂, hperm, hall, hscore⟩ :=
    handleBlock_findings _ c s s' blockNumber findings h
  obtain ⟨pre', post', T₁, B₁, T₂, B₂, symbols, F, FB, emitted', -, -, -, -, -, -, h₇,
      hperm', hs⟩ :=
    handleBlock_ok_inv _ c s s' blockNumber findings h
  have hlen : findings.length = F.length := by
    rw [hperm'.length_eq]
    exact (emitAll_ok _ c FB F 0 s.transfersCount emitted' h₇).1
  refine ⟨pre, post, emitted, h₁, h₂, hperm, hall, ?_, ?_⟩
  · intro hrel
    have hr := (isRelevantChain_iff networkChainId).mpr hrel
    refine ⟨by rw [hs, hlen]; simp [hr], ?_⟩
    intro j f hj
    have := hscore j f hj
    simpa only [hr, if_true] using this
  · intro hrel
    have hr : (provideInitialize networkChainId).isRelevantChain = false := by
      cases hb : (provideInitialize networkChainId).isRelevantChain with
      | false => rfl
      | true => exact absurd ((isRelevantChain_iff networkChainId).mp hb) hrel
    refine ⟨by rw [hs]; simp [hr], ?_⟩
    intro j f hj
    have := hscore j f hj
    simpa only [hr, Bool.false_eq_true, if_false] using this

/-- Worked example on chain 10 with two drained entries, a score equal to the
counter, and scores arriving in reverse order: the entry of `0xD` is processed
first and scored with counter 1, the entry of `0xC` second with counter 2; the
finding of `0xC` is returned first and the counter ends at 2.  On chain 1 the
counter stays at 0. -/
theorem alert_counter_witness :
    handleBlock (provideInitialize 10) countingCollaborators sampleState 11 =
      (Except.ok [sampleScoredFinding 2, sampleNativeFinding 1],
        { transfersObj := [], transfersCount := 2 }) ∧
    (∃ pre post emitted,
      countingCollaborators.tryAll
        ((selectTransfers (provideInitialize 10) sampleState.transfersObj 11).map
          fun e => balanceCall e.2)
        (preDrainBlock (provideInitialize 10) 11) = Except.ok pre ∧
      countingCollaborators.tryAll
        ((selectTransfers (provideInitialize 10) sampleState.transfersObj 11).map
          fun e => balanceCall e.2)
        (postDrainBlock (provideInitialize 10) 11) = Except.ok post ∧
      [sampleScoredFinding 2, sampleNativeFinding 1].Perm emitted ∧
      List.Forall₂
        (fun x f => ∃ sym score, countingCollaborators.getAssetSymbol x.1.2.asset
            = Except.ok sym ∧
          f = buildFinding { x.1.2 with symbol := some sym }
            (x.2.1.returnData, x.2.2.returnData) score)
        (qualifying (provideInitialize 10) countingCollaborators 11 sampleState.transfersObj
          pre post) emitted ∧
      (2 : Nat) = sampleState.transfersCount +
        [sampleScoredFinding 2, sampleNativeFinding 1].length ∧
      ∀ (j : Nat) (f : Finding), emitted[j]? = some f →
        countingCollaborators.calculateAlertRate 10 BOT_ID "ASSET-DRAINED"
          ScanCountType.CustomScanCount (sampleState.transfersCount + (j + 1))
          = Except.ok f.metadata.anomalyScore) ∧
    (∃ pre post emitted,
      (sampleCollaborators AddressType.Contract).tryAll
        ((selectTransfers (provideInitialize 1) sampleState.transfersObj 11).map
          fun e => balanceCall e.2)
        (preDrainBlock (provideInitialize 1) 11) = Except.ok pre ∧
      (sampleCollaborators AddressType.Contract).tryAll
        ((selectTransfers (provideInitialize 1) sampleState.transfersObj 11).map
          fun e => balanceCall e.2)
        (postDrainBlock (provideInitialize 1) 11) = Except.ok post ∧
      [sampleFinding].Perm emitted ∧
      (0 : Nat) = sampleState.transfersCount ∧
      ∀ (j : Nat) (f : Finding), emitted[j]? = some f →
        (sampleCollaborators AddressType.Contract).calculateAlertRate 1 BOT_ID "ASSET-DRAINED"
          ScanCountType.TransferCount sampleState.transfersCount
          = Except.ok f.metadata.anomalyScore) := by
  refine ⟨rfl, ?_, ?_⟩
  · obtain ⟨pre, post, emitted, h₁, h₂, hperm, hall, hrel, -⟩ :=
      (alert_counter 10 countingCollaborators sampleState 11).1
        [sampleScoredFinding 2, sampleNativeFinding 1]
        { transfersObj := [], transfersCount := 2 } rfl
    exact ⟨pre, post, emitted, h₁, h₂, hperm, hall, hrel (by decide)⟩
  · obtain ⟨pre, post, emitted, h₁, h₂, hperm, -, -, hirr⟩ :=
      (alert_counter 1 (sampleCollaborators AddressType.Contract) sampleState 11).1
        [sampleFinding] { transfersObj := [], transfersCount := 0 } rfl
    exact ⟨pre, post, emitted, h₁, h₂, hperm, hirr (by decide)⟩

/-- C6. For every chain id and every entry selected by `handleBlock`, the
pre-drain batch is read at the block before the block recorded in the entry and
the post-drain batch at the recorded block itself.  When the pass returns, the
findings are those of the entries that qualify with the answers at these two
blocks in these two roles: the balance printed as `preDrainBalance` and compared
as the earlier one is the answer for the block before, the balance printed as
`postDrainBalance` is the answer for the recorded block.  The pass rejects when
the batch at the block before rejects, and it reads the multicall provider at
these two blocks only. -/
theorem balance_batches_pinned (cfg : Config) (c : Collaborators) (s : State)
    (blockNumber : Int) (t : Int × TransferEntry)
    (ht : t ∈ selectTransfers cfg s.transfersObj blockNumber) :
    postDrainBlock cfg blockNumber = t.2.blockNumber ∧
    preDrainBlock cfg blockNumber = t.2.blockNumber - 1 ∧
    (∀ findings s', handleBlock cfg c s blockNumber = (Except.ok findings, s') →
      ∃ pre post emitted,
        c.tryAll ((selectTransfers cfg s.transfersObj blockNumber).map fun e => balanceCall e.2)
          (t.2.blockNumber - 1) = Except.ok pre ∧
        c.tryAll ((selectTransfers cfg s.transfersObj blockNumber).map fun e => balanceCall e.2)
          t.2.blockNumber = Except.ok post ∧
        findings.Perm emitted ∧
        List.Forall₂
          (fun x f => f.metadata.contract = x.1.2.address ∧ f.metadata.asset = x.1.2.asset ∧
            f.metadata.preDrainBalance = bigNumberToString x.2.1.returnData ∧
            f.metadata.postDrainBalance = bigNumberToString x.2.2.returnData)
          (qualifying cfg c blockNumber s.transfersObj pre post) emitted ∧
        ∀ f ∈ findings, ∃ (i : Nat) (u : Int × TransferEntry) (p q : CallResult),
          (selectTransfers cfg s.transfersObj blockNumber)[i]? = some u ∧
          pre[i]? = some p ∧ post[i]? = some q ∧
          f.metadata.contract = u.2.address ∧ f.metadata.asset = u.2.asset ∧
          f.metadata.preDrainBalance = bigNumberToString p.returnData ∧
          f.metadata.postDrainBalance = bigNumberToString q.returnData ∧
          q.returnData < p.returnData / 100) ∧
    (∀ e, c.tryAll ((selectTransfers cfg s.transfersObj blockNumber).map fun e => balanceCall e.2)
        (t.2.blockNumber - 1) = Except.error e →
      handleBlock cfg c s blockNumber = (Except.error e, s)) ∧
    ∀ tryAll' : List BalanceCall → Int → Except Failure (List CallResult),
      tryAll' ((selectTransfers cfg s.transfersObj blockNumber).map fun e => balanceCall e.2)
          (t.2.blockNumber - 1) =
        c.tryAll ((selectTransfers cfg s.transfersObj blockNumber).map fun e => balanceCall e.2)
          (t.2.blockNumber - 1) →
      tryAll' ((selectTransfers cfg s.transfersObj blockNumber).map fun e => balanceCall e.2)
          t.2.blockNumber =
        c.tryAll ((selectTransfers cfg s.transfersObj blockNumber).map fun e => balanceCall e.2)
          t.2.blockNumber →
      handleBlock cfg { c with tryAll := tryAll' } s blockNumber =
        handleBlock cfg c s blockNumber := by
  have hb : (if usesLongLag cfg.chainId then decide (t.2.blockNumber = blockNumber - 2)
      else decide (t.2.blockNumber = blockNumber - 1)) = true := by
    unfold selectTransfers at ht
    exact (List.mem_filter.mp ht).2
  have hpost : postDrainBlock cfg blockNumber = t.2.blockNumber := by
    unfold postDrainBlock
    cases h : usesLongLag cfg.chainId <;> simp only [h, if_true, if_false, Bool.false_eq_true,
      decide_eq_true_eq] at hb ⊢ <;> exact hb.symm
  have hpre : preDrainBlock cfg blockNumber = t.2.blockNumber - 1 := by
    unfold preDrainBlock
    cases h : usesLongLag cfg.chainId <;> simp only [h, if_true, if_false, Bool.false_eq_true,
      decide_eq_true_eq] at hb ⊢ <;> omega
  refine ⟨hpost, hpre, ?_, ?_, ?_⟩
  · intro findings s' h
    obtain ⟨pre, post, emitted, h₁, h₂, hperm, hall, -⟩ :=
      handleBlock_findings cfg c s s' blockNumber findings h
    rw [hpre] at h₁
    rw [hpost] at h₂
    refine ⟨pre, post, emitted, h₁, h₂, hperm, List.Forall₂.imp ?_ hall, ?_⟩
    · rintro x f ⟨sym, score, -, rfl⟩
      exact ⟨rfl, rfl, rfl, rfl⟩
    · intro f hf
      obtain ⟨i, u, p, q, pre', post', sym, score, hi, g₁, g₂, hp, hq, hchk, -, -, rfl⟩ :=
        finding_provenance cfg c s s' blockNumber findings h f hf
      rw [hpre, h₁] at g₁
      rw [hpost, h₂] at g₂
      rw [← Except.ok.inj g₁] at hp
      rw [← Except.ok.inj g₂] at hq
      refine ⟨i, u, p, q, hi, hp, hq, rfl, rfl, rfl, rfl, ?_⟩
      unfold balanceCheck at hchk
      simp only [Bool.and_eq_true, decide_eq_true_eq] at hchk
      exact hchk.2
  · intro e he
    unfold handleBlock
    simp only [hpre, he]
  · intro tryAll' h₁ h₂
    unfold handleBlock
    simp only [hpost, hpre, h₁, h₂]
    cases c.tryAll ((selectTransfers cfg s.transfersObj blockNumber).map fun e => balanceCall e.2)
        (t.2.blockNumber - 1) with
    | error e => rfl
    | ok pre =>
    cases c.tryAll ((selectTransfers cfg s.transfersObj blockNumber).map fun e => balanceCall e.2)
        t.2.blockNumber with
    | error e => rfl
    | ok post =>
    simp only []
    cases balanceFilter pre post 0 (selectTransfers cfg s.transfersObj blockNumber) with
    | error e => rfl
    | ok r₁ =>
    have ho : ownershipFilter { c with tryAll := tryAll' } r₁.1 r₁.2 = ownershipFilter c r₁.1 r₁.2 :=
      rfl
    simp only [ho]
    cases ownershipFilter c r₁.1 r₁.2 with
    | error e => rfl
    | ok r₂ =>
    simp only []
    cases promiseAll (r₂.1.map fun t => c.getAssetSymbol t.2.asset) with
    | error e => rfl
    | ok symbols =>
    simp only [valuationFilter_congr cfg c { c with tryAll := tryAll' } rfl rfl rfl]
    cases valuationFilter cfg c blockNumber r₂.2 0 (attachSymbols r₂.1 symbols) ([], []) with
    | error e => rfl
    | ok r₃ =>
    simp only [emitAll_congr cfg c { c with tryAll := tryAll' } rfl]

/-- Worked example: the sample entry of block 10 is verified at block 11 on
chain 1 and at block 12 on chain 56.  The pass at block 11 returns the sample
finding, whose `preDrainBalance` 1000000 is the answer for block 9 and whose
`postDrainBalance` 10 is the answer for block 10. -/
theorem balance_batches_pinned_witness :
    sampleSenderEntry ∈ selectTransfers (provideInitialize 1) sampleState.transfersObj 11 ∧
    postDrainBlock (provideInitialize 1) 11 = 10 ∧
    preDrainBlock (provideInitialize 1) 11 = 10 - 1 ∧
    postDrainBlock (provideInitialize 56) 12 = 10 ∧
    preDrainBlock (provideInitialize 56) 12 = 10 - 1 ∧
    handleBlock (provideInitialize 1) (sampleCollaborators AddressType.Contract) sampleState 11
      = (Except.ok [sampleFinding], { transfersObj := [], transfersCount := 0 }) ∧
    (sampleCollaborators AddressType.Contract).tryAll
        ((selectTransfers (provideInitialize 1) sampleState.transfersObj 11).map
          fun e => balanceCall e.2) (10 - 1)
      = Except.ok [{ success := true, returnData := 100 },
                   { success := true, returnData := 1000000 }] ∧
    (sampleCollaborators AddressType.Contract).tryAll
        ((selectTransfers (provideInitialize 1) sampleState.transfersObj 11).map
          fun e => balanceCall e.2) 10
      = Except.ok [{ success := true, returnData := 50 },
                   { success := true, returnData := 10 }] ∧
    ∃ pre post emitted,
      (sampleCollaborators AddressType.Contract).tryAll
        ((selectTransfers (provideInitialize 1) sampleState.transfersObj 11).map
          fun e => balanceCall e.2) (sampleSenderEntry.2.blockNumber - 1) = Except.ok pre ∧
      (sampleCollaborators AddressType.Contract).tryAll
        ((selectTransfers (provideInitialize 1) sampleState.transfersObj 11).map
          fun e => balanceCall e.2) sampleSenderEntry.2.blockNumber = Except.ok post ∧
      [sampleFinding].Perm emitted ∧
      List.Forall₂
        (fun x f => f.metadata.contract = x.1.2.address ∧ f.metadata.asset = x.1.2.asset ∧
          f.metadata.preDrainBalance = bigNumberToString x.2.1.returnData ∧
          f.metadata.postDrainBalance = bigNumberToString x.2.2.returnData)
        (qualifying (provideInitialize 1) (sampleCollaborators AddressType.Contract) 11
          sampleState.transfersObj pre post) emitted ∧
      ∀ f ∈ [sampleFinding], ∃ (i : Nat) (u : Int × TransferEntry) (p q : CallResult),
        (selectTransfers (provideInitialize 1) sampleState.transfersObj 11)[i]? = some u ∧
        pre[i]? = some p ∧ post[i]? = some q ∧
        f.metadata.contract = u.2.address ∧ f.metadata.asset = u.2.asset ∧
        f.metadata.preDrainBalance = bigNumberToString p.returnData ∧
        f.metadata.postDrainBalance = bigNumberToString q.returnData ∧
        q.returnData < p.returnData / 100 :=
  ⟨by decide,
    (balance_batches_pinned (provideInitialize 1) (sampleCollaborators AddressType.Contract)
      sampleState 11 sampleSenderEntry (by decide)).1,
    (balance_batches_pinned (provideInitialize 1) (sampleCollaborators AddressType.Contract)
      sampleState 11 sampleSenderEntry (by decide)).2.1,
    (balance_batches_pinned (provideInitialize 56) (sampleCollaborators AddressType.Contract)
      sampleState 12 sampleSenderEntry (by decide)).1,
    (balance_batches_pinned (provideInitialize 56) (sampleCollaborators AddressType.Contract)
      sampleState 12 sampleSenderEntry (by decide)).2.1,
    rfl, rfl, rfl,
    (balance_batches_pinned (provideInitialize 1) (sampleCollaborators AddressType.Contract)
      sampleState 11 sampleSenderEntry (by decide)).2.2.1 [sampleFinding]
      { transfersObj := [], transfersCount := 0 } rfl⟩

/-! ## Rejecting paths -/

theorem promiseAll_map_error {α β : Type} (f : α → Except Failure β) (xs : List α) (x : α)
    (e : Failure) (hx : x ∈ xs) (he : f x = Except.error e) :
    ∃ e', promiseAll (xs.map f) = Except.error e' := by
  induction xs with
  | nil => simp at hx
  | cons y ys ih =>
    simp only [List.map_cons]
    cases hy : f y with
    | error e₀ => exact ⟨e₀, by simp [promiseAll]⟩
    | ok b =>
      rcases List.mem_cons.mp hx with rfl | hx'
      · rw [he] at hy; cases hy
      · obtain ⟨e', he'⟩ := ih hx'
        exact ⟨e', by simp [promiseAll, he']⟩

theorem ownershipFilter_error (c : Collaborators) (T : Ledger) (Bs : List (Nat × Nat))
    (t : Int × TransferEntry) (e : Failure) (ht : t ∈ T)
    (he : c.getAddressType t.2.address = Except.error e) :
    ∃ e', ownershipFilter c T Bs = Except.error e' := by
  obtain ⟨e', he'⟩ := promiseAll_map_error (ownershipCallback c) T t e ht
    (by simp [ownershipCallback, he])
  exact ⟨e', by simp [ownershipFilter, he']⟩

theorem valuationFilter_error (cfg : Config) (c : Collaborators) (blockNumber : Int)
    (balances : List (Nat × Nat)) (x : (Int × TransferEntry) × (Nat × Nat)) (e : Failure)
    (he : shouldInclude cfg c blockNumber x.1 x.2 = Except.error e) (ts : Ledger) :
    ∀ (i : Nat) (acc : Ledger × List (Nat × Nat)), x ∈ ts.zip (balances.drop i) →
      ∃ e', valuationFilter cfg c blockNumber balances i ts acc = Except.error e' := by
  induction ts with
  | nil => intro i acc hx; simp at hx
  | cons t ts ih =>
    intro i acc hx
    unfold valuationFilter
    rw [valuationStep_eq]
    cases hb : balances[i]? with
    | none => exact ⟨_, rfl⟩
    | some b =>
      have hi : i < balances.length := by
        by_contra hcon
        rw [List.getElem?_eq_none (by omega)] at hb
        simp at hb
      have hd : balances.drop i = b :: balances.drop (i + 1) := by
        rw [List.drop_eq_getElem_cons hi]
        congr 1
        rw [List.getElem?_eq_getElem hi] at hb
        exact Option.some.inj hb
      rw [hd, List.zip_cons_cons] at hx
      simp only []
      cases hs : shouldInclude cfg c blockNumber t b with
      | error e₀ => exact ⟨e₀, rfl⟩
      | ok inc =>
        rcases List.mem_cons.mp hx with rfl | hx'
        · rw [he] at hs; cases hs
        · exact ih (i + 1) _ hx'

theorem storeSymbols_keys (transfers l : Ledger) :
    (storeSymbols transfers l).map Prod.fst = l.map Prod.fst := by
  unfold storeSymbols
  induction transfers generalizing l with
  | nil => rfl
  | cons t ts ih => rw [List.foldl_cons, ih, modify_keys]

theorem storeSymbols_valueAt (transfers l : Ledger) (k : Int) :
    valueAt (storeSymbols transfers l) k = valueAt l k := by
  unfold storeSymbols
  induction transfers generalizing l with
  | nil => rfl
  | cons t ts ih =>
    rw [List.foldl_cons, ih, valueAt_modify k t.1 _ 0 (fun e => by simp)]
    by_cases h : k = t.1
    · cases valueAt l k <;> simp [h]
    · simp [h]

theorem handleBlock_error_ledger (cfg : Config) (c : Collaborators) (s s' : State)
    (blockNumber : Int) (e : Failure)
    (h : handleBlock cfg c s blockNumber = (Except.error e, s')) :
    s'.transfersObj.map Prod.fst = s.transfersObj.map Prod.fst ∧
    ∀ k, valueAt s'.transfersObj k = valueAt s.transfersObj k := by
  unfold handleBlock at h
  simp only [] at h
  repeat' split at h
  all_goals
    simp only [Prod.mk.injEq] at h
    first
      | (obtain ⟨-, rfl⟩ := h
         first
          | exact ⟨rfl, fun _ => rfl⟩
          | exact ⟨storeSymbols_keys _ _, fun k => storeSymbols_valueAt _ _ k⟩)
      | exact absurd h.1 (by simp)

/-- Counterexample to C15: two entries of the sample state are drained, the
classifier rejects for address `0xD` and answers `Contract` for `0xC`.  The
pass rejects instead of returning the finding for `0xC`, and the ledger keeps
its entries; had the classifier answered `EOA` for `0xD`, the finding for `0xC`
would have been returned. -/
theorem collaborator_failure_counterexample :
    handleBlock (provideInitialize 1)
        (classifierCollaborators (Except.error Failure.rejected)) sampleState 11 =
      (Except.error Failure.rejected, sampleState) ∧
    getTransfersObj sampleState ≠ [] ∧
    handleBlock (provideInitialize 1)
        (classifierCollaborators (Except.ok AddressType.EOA)) sampleState 11 =
      (Except.ok [sampleFinding], { transfersObj := [], transfersCount := 0 }) ∧
    ¬∃ findings s',
      handleBlock (provideInitialize 1)
          (classifierCollaborators (Except.error Failure.rejected)) sampleState 11 =
        (Except.ok findings, s') := by
  refine ⟨rfl, by decide, rfl, ?_⟩
  rintro ⟨findings, s', h⟩
  have h' : handleBlock (provideInitialize 1)
      (classifierCollaborators (Except.error Failure.rejected)) sampleState 11 =
      (Except.error Failure.rejected, sampleState) := rfl
  rw [h'] at h
  cases h

/-- C15, amended. When the classifier rejects for an entry that passed the
balance filter, `handleBlock` rejects and leaves the state as it was; when the
USD valuation rejects, or the total-supply call rejects in the fallback, for an
entry that reached the valuation filter, `handleBlock` rejects and leaves the
ledger with the symbols stored in it.  On every rejecting path no finding is
returned and the ledger keeps its keys and values: it is not cleared. -/
theorem collaborator_failure_rejects (cfg : Config) (c : Collaborators) (s : State)
    (blockNumber : Int) (pre post : List CallResult) (T₁ : Ledger) (B₁ : List (Nat × Nat))
    (hpre : c.tryAll
      ((selectTransfers cfg s.transfersObj blockNumber).map fun e => balanceCall e.2)
      (preDrainBlock cfg blockNumber) = Except.ok pre)
    (hpost : c.tryAll
      ((selectTransfers cfg s.transfersObj blockNumber).map fun e => balanceCall e.2)
      (postDrainBlock cfg blockNumber) = Except.ok post)
    (hbal : balanceFilter pre post 0 (selectTransfers cfg s.transfersObj blockNumber)
      = Except.ok (T₁, B₁)) :
    (∀ (t : Int × TransferEntry) (e : Failure), t ∈ T₁ →
      c.getAddressType t.2.address = Except.error e →
      ∃ e', handleBlock cfg c s blockNumber = (Except.error e', s)) ∧
    (∀ (T₂ : Ledger) (B₂ : List (Nat × Nat)) (symbols : List String)
      (x : (Int × TransferEntry) × (Nat × Nat)) (e : Failure),
      ownershipFilter c T₁ B₁ = Except.ok (T₂, B₂) →
      promiseAll (T₂.map fun t => c.getAssetSymbol t.2.asset) = Except.ok symbols →
      x ∈ (attachSymbols T₂ symbols).zip B₂ →
      (c.getValueInUsd blockNumber cfg.chainId ((x.2.1 : Int) - (x.2.2 : Int)) x.1.2.asset
          = Except.error e ∨
        (∃ usdValue,
          c.getValueInUsd blockNumber cfg.chainId ((x.2.1 : Int) - (x.2.2 : Int)) x.1.2.asset
            = Except.ok usdValue ∧
          ¬usdValue > c.USD_VALUE_THRESHOLD ∧ usdValue = 0 ∧ x.1.2.asset ≠ "native" ∧
          c.getTotalSupply blockNumber x.1.2.asset = Except.error e)) →
      ∃ e', handleBlock cfg c s blockNumber =
        (Except.error e',
          { s with transfersObj := storeSymbols (attachSymbols T₂ symbols) s.transfersObj })) ∧
    (∀ (e : Failure) (s' : State),
      handleBlock cfg c s blockNumber = (Except.error e, s') →
      s'.transfersObj.map Prod.fst = s.transfersObj.map Prod.fst ∧
      ∀ k, (lookup k s'.transfersObj).map TransferEntry.value =
        (lookup k s.transfersObj).map TransferEntry.value) := by
  refine ⟨?_, ?_, ?_⟩
  · intro t e ht he
    obtain ⟨e', he'⟩ := ownershipFilter_error c T₁ B₁ t e ht he
    refine ⟨e', ?_⟩
    unfold handleBlock
    simp only [hpre, hpost, hbal, he']
  · intro T₂ B₂ symbols x e hown hsym hx hfail
    have hs : shouldInclude cfg c blockNumber x.1 x.2 = Except.error e := by
      unfold shouldInclude
      rcases hfail with h | ⟨v, hv, h₁, h₂, h₃, h₄⟩
      · rw [h]
      · rw [hv]
        simp only []
        rw [if_neg h₁, if_pos ⟨h₂, h₃⟩, h₄]
    obtain ⟨e', he'⟩ := valuationFilter_error cfg c blockNumber B₂ x e hs
      (attachSymbols T₂ symbols) 0 ([], []) (by simpa using hx)
    refine ⟨e', ?_⟩
    unfold handleBlock
    simp only [hpre, hpost, hbal, hown, hsym, he']
  · intro e s' h
    exact handleBlock_error_ledger cfg c s s' blockNumber e h

/-- Worked example: the rejection of the classifier for `0xD` in the sample
state. -/
theorem collaborator_failure_rejects_witness :
    sampleNativeSenderEntry ∈ [sampleNativeSenderEntry, sampleSenderEntry] ∧
    (classifierCollaborators (Except.error Failure.rejected)).getAddressType
      sampleNativeSenderEntry.2.address = Except.error Failure.rejected ∧
    ∃ e', handleBlock (provideInitialize 1)
        (classifierCollaborators (Except.error Failure.rejected)) sampleState 11 =
      (Except.error e', sampleState) :=
  ⟨by decide, rfl,
    (collaborator_failure_rejects (provideInitialize 1)
      (classifierCollaborators (Except.error Failure.rejected)) sampleState 11
      [{ success := true, returnData := 1000000 }, { success := true, returnData := 1000000 }]
      [{ success := true, returnData := 10 }, { success := true, returnData := 10 }]
      [sampleNativeSenderEntry, sampleSenderEntry] [(1000000, 10), (1000000, 10)]
      rfl rfl rfl).1 sampleNativeSenderEntry Failure.rejected (by decide) rfl⟩

/-! ## Block of the valuation -/

theorem valuationFilter_congr_at (cfg : Config) (c c' : Collaborators) (blockNumber : Int)
    (h₁ : ∀ n amount asset,
      c'.getValueInUsd blockNumber n amount asset = c.getValueInUsd blockNumber n amount asset)
    (h₂ : c'.getTotalSupply = c.getTotalSupply)
    (h₃ : c'.USD_VALUE_THRESHOLD = c.USD_VALUE_THRESHOLD)
    (balances : List (Nat × Nat)) (ts : Ledger) :
    ∀ (i : Nat) (acc : Ledger × List (Nat × Nat)),
      valuationFilter cfg c' blockNumber balances i ts acc =
        valuationFilter cfg c blockNumber balances i ts acc := by
  induction ts with
  | nil => intro i acc; rfl
  | cons t ts ih =>
    intro i acc
    have hstep : valuationStep cfg c' blockNumber balances acc t i =
        valuationStep cfg c blockNumber balances acc t i := by
      unfold valuationStep
      simp only [h₁, h₂, h₃]
    unfold valuationFilter
    rw [hstep]
    cases valuationStep cfg c blockNumber balances acc t i with
    | error e => rfl
    | ok acc' => exact ih (i + 1) acc'

/-- Counterexample to C16: the sample entry has origin block 10 and is handled
at block 11.  With a price known at block 10 only, no finding is returned; with
a price known at block 11 only, the finding is returned: the valuation is asked
for block 11. -/
theorem valuation_block_counterexample :
    sampleSenderEntry ∈ selectTransfers (provideInitialize 1) sampleState.transfersObj 11 ∧
    sampleSenderEntry.2.blockNumber = 10 ∧
    handleBlock (provideInitialize 1) (pricedAtCollaborators 10) sampleState 11 =
      (Except.ok [], { transfersObj := [], transfersCount := 0 }) ∧
    handleBlock (provideInitialize 1) (pricedAtCollaborators 11) sampleState 11 =
      (Except.ok [sampleFinding], { transfersObj := [], transfersCount := 0 }) :=
  ⟨by decide, rfl, rfl, rfl⟩

/-- C16, amended. For every selected entry, `handleBlock` asks the valuation
collaborator for the block number of the block being handled, which is the block
number of the entry plus 1, or plus 2 on chains 56, 137 and 250: the outcome of
`handleBlock` depends on `getValueInUsd` at that block number only. -/
theorem valuation_requested_for_current_block (cfg : Config) (c : Collaborators) (s : State)
    (blockNumber : Int) (t : Int × TransferEntry)
    (ht : t ∈ selectTransfers cfg s.transfersObj blockNumber) :
    blockNumber = t.2.blockNumber +
      (if cfg.chainId = 56 ∨ cfg.chainId = 137 ∨ cfg.chainId = 250 then 2 else 1) ∧
    ∀ getValueInUsd' : Int → Nat → Int → String → Except Failure ℚ,
      (∀ n amount asset,
        getValueInUsd' blockNumber n amount asset = c.getValueInUsd blockNumber n amount asset) →
      handleBlock cfg { c with getValueInUsd := getValueInUsd' } s blockNumber =
        handleBlock cfg c s blockNumber := by
  constructor
  · have hsel := ((mem_selectTransfers cfg _ blockNumber t).mp ht).2
    simp only [isSelected, Bool.and_eq_true, decide_eq_true_eq] at hsel
    rw [hsel.2]
    ring
  · intro getValueInUsd' hagree
    unfold handleBlock
    simp only []
    cases c.tryAll ((selectTransfers cfg s.transfersObj blockNumber).map fun e => balanceCall e.2)
        (preDrainBlock cfg blockNumber) with
    | error e => rfl
    | ok pre =>
    cases c.tryAll ((selectTransfers cfg s.transfersObj blockNumber).map fun e => balanceCall e.2)
        (postDrainBlock cfg blockNumber) with
    | error e => rfl
    | ok post =>
    simp only []
    cases balanceFilter pre post 0 (selectTransfers cfg s.transfersObj blockNumber) with
    | error e => rfl
    | ok r₁ =>
    have ho : ownershipFilter { c with getValueInUsd := getValueInUsd' } r₁.1 r₁.2 =
        ownershipFilter c r₁.1 r₁.2 := rfl
    simp only [ho]
    cases ownershipFilter c r₁.1 r₁.2 with
    | error e => rfl
    | ok r₂ =>
    simp only []
    cases promiseAll (r₂.1.map fun t => c.getAssetSymbol t.2.asset) with
    | error e => rfl
    | ok symbols =>
    simp only [valuationFilter_congr_at cfg c { c with getValueInUsd := getValueInUsd' }
      blockNumber hagree rfl rfl]
    cases valuationFilter cfg c blockNumber r₂.2 0 (attachSymbols r₂.1 symbols) ([], []) with
    | error e => rfl
    | ok r₃ =>
    simp only [emitAll_congr cfg c { c with getValueInUsd := getValueInUsd' } rfl]

/-- Worked example: the sample pass at block 11 does not depend on the price at
the origin block 10. -/
theorem valuation_requested_for_current_block_witness :
    sampleSenderEntry ∈ selectTransfers (provideInitialize 1) sampleState.transfersObj 11 ∧
    (11 : Int) = sampleSenderEntry.2.blockNumber +
      (if (provideInitialize 1).chainId = 56 ∨ (provideInitialize 1).chainId = 137 ∨
        (provideInitialize 1).chainId = 250 then 2 else 1) ∧
    handleBlock (provideInitialize 1)
        { sampleCollaborators AddressType.Contract with
          getValueInUsd := fun b _ amount _ =>
            if b = 11 then Except.ok (amount : ℚ) else Except.error Failure.rejected }
        sampleState 11 =
      handleBlock (provideInitialize 1) (sampleCollaborators AddressType.Contract)
        sampleState 11 :=
  ⟨by decide,
    (valuation_requested_for_current_block (provideInitialize 1)
      (sampleCollaborators AddressType.Contract) sampleState 11 sampleSenderEntry
      (by decide)).1,
    (valuation_requested_for_current_block (provideInitialize 1)
      (sampleCollaborators AddressType.Contract) sampleState 11 sampleSenderEntry
      (by decide)).2
      (fun b _ amount _ =>
        if b = 11 then Except.ok (amount : ℚ) else Except.error Failure.rejected)
      (fun _ _ _ => rfl)⟩

theorem selectTransfers_nodup (cfg : Config) (l : Ledger) (blockNumber : Int)
    (h : (l.map Prod.fst).Nodup) : (selectTransfers cfg l blockNumber).Nodup := by
  rw [selectTransfers_eq_filter]
  exact ((objectEntries_perm l).nodup_iff.mpr (List.Nodup.of_map Prod.fst h)).filter _

theorem wellKeyed_same_entry (hashCode : String → String → Int) (l : Ledger)
    (h : WellKeyed hashCode l) (t t' : Int × TransferEntry) (ht : t ∈ l) (ht' : t' ∈ l)
    (ha : t.2.address = t'.2.address) (hx : t.2.asset = t'.2.asset) : t = t' := by
  have h₁ := lookup_of_mem l h.1 t ht
  have h₂ := lookup_of_mem l h.1 t' ht'
  have k₁ := h.2 _ _ h₁
  have k₂ := h.2 _ _ h₂
  rw [ha, hx, k₂] at k₁
  rw [← k₁, h₂] at h₁
  exact Prod.ext k₁.symm (Option.some.inj h₁).symm

/-- C23. The two balances that a returned finding reports are the values that
the pre-drain and the post-drain batch returned at one index of the selected
list, and the entry at that index is the entry the finding reports; in a ledger
as the handlers build it, this index is the index of the finding's own entry.
The two arrays stay aligned through the three filters: each filter returns as
many balance pairs as entries, and the pairs of an entry with its balances
that leave a filter are pairs that entered it. -/
theorem balances_index_aligned (hashCode : String → String → Int) (cfg : Config)
    (c : Collaborators) (s s' : State) (blockNumber : Int) (findings : List Finding)
    (h : handleBlock cfg c s blockNumber = (Except.ok findings, s')) :
    ∃ pre post,
      c.tryAll ((selectTransfers cfg s.transfersObj blockNumber).map fun e => balanceCall e.2)
        (preDrainBlock cfg blockNumber) = Except.ok pre ∧
      c.tryAll ((selectTransfers cfg s.transfersObj blockNumber).map fun e => balanceCall e.2)
        (postDrainBlock cfg blockNumber) = Except.ok post ∧
      (∀ f ∈ findings, ∃ (i : Nat) (t : Int × TransferEntry) (p q : CallResult),
        (selectTransfers cfg s.transfersObj blockNumber)[i]? = some t ∧
        pre[i]? = some p ∧ post[i]? = some q ∧
        f.metadata.contract = t.2.address ∧ f.metadata.asset = t.2.asset ∧
        f.metadata.blockNumber = t.2.blockNumber ∧
        f.metadata.txHashes = txHashesOf t.2 ∧
        f.metadata.preDrainBalance = bigNumberToString p.returnData ∧
        f.metadata.postDrainBalance = bigNumberToString q.returnData) ∧
      (WellKeyed hashCode s.transfersObj →
        ∀ f ∈ findings, ∀ (i : Nat) (t : Int × TransferEntry),
          (selectTransfers cfg s.transfersObj blockNumber)[i]? = some t →
          f.metadata.contract = t.2.address → f.metadata.asset = t.2.asset →
          ∃ p q, pre[i]? = some p ∧ post[i]? = some q ∧
            f.metadata.preDrainBalance = bigNumberToString p.returnData ∧
            f.metadata.postDrainBalance = bigNumberToString q.returnData) ∧
      (∀ (ts T : Ledger) (Bs : List (Nat × Nat)),
        balanceFilter pre post 0 ts = Except.ok (T, Bs) →
        T.length = Bs.length ∧
        ∀ x ∈ T.zip Bs, ∃ (j : Nat) (p q : CallResult),
          ts[j]? = some x.1 ∧ pre[j]? = some p ∧ post[j]? = some q ∧
          x.2 = (p.returnData, q.returnData)) ∧
      (∀ (T T' : Ledger) (Bs Bs' : List (Nat × Nat)), T.length = Bs.length →
        ownershipFilter c T Bs = Except.ok (T', Bs') →
        T'.length = Bs'.length ∧ List.Sublist (T'.zip Bs') (T.zip Bs)) ∧
      (∀ (T F : Ledger) (Bs FB : List (Nat × Nat)),
        valuationFilter cfg c blockNumber Bs 0 T ([], []) = Except.ok (F, FB) →
        F.length = FB.length ∧ List.Sublist (F.zip FB) (T.zip Bs)) := by
  have hprov := finding_provenance cfg c s s' blockNumber findings h
  obtain ⟨pre, post, -, -, -, -, -, -, -, -, h₁, h₂, -⟩ :=
    handleBlock_ok_inv cfg c s s' blockNumber findings h
  have hidx : ∀ f ∈ findings, ∃ (i : Nat) (t : Int × TransferEntry) (p q : CallResult),
      (selectTransfers cfg s.transfersObj blockNumber)[i]? = some t ∧
      pre[i]? = some p ∧ post[i]? = some q ∧
      f.metadata.contract = t.2.address ∧ f.metadata.asset = t.2.asset ∧
      f.metadata.blockNumber = t.2.blockNumber ∧
      f.metadata.txHashes = txHashesOf t.2 ∧
      f.metadata.preDrainBalance = bigNumberToString p.returnData ∧
      f.metadata.postDrainBalance = bigNumberToString q.returnData := by
    intro f hf
    obtain ⟨i, t, p, q, pre', post', sym, score, hi, g₁, g₂, hp, hq, -, -, -, rfl⟩ :=
      hprov f hf
    rw [h₁] at g₁
    rw [h₂] at g₂
    rw [← Except.ok.inj g₁] at hp
    rw [← Except.ok.inj g₂] at hq
    exact ⟨i, t, p, q, hi, hp, hq, rfl, rfl, rfl, rfl, rfl, rfl⟩
  refine ⟨pre, post, h₁, h₂, hidx, ?_, ?_, ?_, ?_⟩
  · intro hwk f hf i t hi hc ha
    obtain ⟨i', t', p, q, hi', hp, hq, hc', ha', -, -, hb₁, hb₂⟩ := hidx f hf
    have hmem : t ∈ selectTransfers cfg s.transfersObj blockNumber :=
      List.mem_iff_getElem?.mpr ⟨i, hi⟩
    have hmem' : t' ∈ selectTransfers cfg s.transfersObj blockNumber :=
      List.mem_iff_getElem?.mpr ⟨i', hi'⟩
    have htt : t = t' :=
      wellKeyed_same_entry hashCode _ hwk t t'
        ((mem_selectTransfers cfg _ blockNumber t).mp hmem).1
        ((mem_selectTransfers cfg _ blockNumber t').mp hmem').1
        (by rw [← hc, hc']) (by rw [← ha, ha'])
    have hii : i = i' := by
      have hnd := selectTransfers_nodup cfg s.transfersObj blockNumber hwk.1
      rw [← htt] at hi'
      exact (List.getElem?_inj (List.getElem?_eq_some.mp hi).1 hnd (hi.trans hi'.symm))
    rw [hii]
    exact ⟨p, q, hp, hq, hb₁, hb₂⟩
  · intro ts T Bs hb
    obtain ⟨hlen, hall⟩ := balanceFilter_sound pre post ts 0 T Bs hb
    refine ⟨hlen, ?_⟩
    intro x hx
    obtain ⟨j, p, q, g₁, g₂, g₃, -, g₅⟩ := hall x hx
    rw [Nat.zero_add] at g₂ g₃
    exact ⟨j, p, q, g₁, g₂, g₃, g₅⟩
  · intro T T' Bs Bs' hlen ho
    have ho' := ownershipFilter_of_answers c T Bs hlen (ownershipFilter_ok_inv c T Bs _ ho)
    rw [ho] at ho'
    simp only [Except.ok.injEq, Prod.mk.injEq] at ho'
    rw [ho'.1, ho'.2, zip_fst_snd]
    exact ⟨by simp, List.filter_sublist _⟩
  · intro T F Bs FB hv
    have hv' := valuationFilter_ok cfg c blockNumber Bs T 0 ([], []) (F, FB) hv
    simp only [List.nil_append, List.drop_zero, Prod.mk.injEq] at hv'
    rw [hv'.1, hv'.2, zip_fst_snd]
    exact ⟨by simp, List.filter_sublist _⟩

/-- Worked example: the balances of the sample finding are the batch results
at the index of the entry of `0xC` in the selected list. -/
theorem balances_index_aligned_witness :
    ∃ pre post,
      (sampleCollaborators AddressType.Contract).tryAll
        ((selectTransfers (provideInitialize 1) sampleState.transfersObj 11).map
          fun e => balanceCall e.2)
        (preDrainBlock (provideInitialize 1) 11) = Except.ok pre ∧
      (sampleCollaborators AddressType.Contract).tryAll
        ((selectTransfers (provideInitialize 1) sampleState.transfersObj 11).map
          fun e => balanceCall e.2)
        (postDrainBlock (provideInitialize 1) 11) = Except.ok post ∧
      ∀ f ∈ [sampleFinding], ∀ (i : Nat) (t : Int × TransferEntry),
        (selectTransfers (provideInitialize 1) sampleState.transfersObj 11)[i]? = some t →
        f.metadata.contract = t.2.address → f.metadata.asset = t.2.asset →
        ∃ p q, pre[i]? = some p ∧ post[i]? = some q ∧
          f.metadata.preDrainBalance = bigNumberToString p.returnData ∧
          f.metadata.postDrainBalance = bigNumberToString q.returnData := by
  obtain ⟨pre, post, h₁, h₂, -, h₄, -⟩ :=
    balances_index_aligned sampleHashCode (provideInitialize 1)
      (sampleCollaborators AddressType.Contract) sampleState
      { transfersObj := [], transfersCount := 0 } 11 [sampleFinding] rfl
  exact ⟨pre, post, h₁, h₂,
    h₄ (wellKeyed_runTransactions sampleHashCode _ _ (wellKeyed_nil sampleHashCode))⟩

theorem modify_modify (k : Int) (f g : TransferEntry → TransferEntry) (l : Ledger) :
    modify k g (modify k f l) = modify k (fun e => g (f e)) l := by
  induction l with
  | nil => rfl
  | cons x l ih =>
    obtain ⟨k', e⟩ := x
    by_cases h : k = k'
    · simp [modify, h]
    · simp [modify, h, ih]

theorem forall_modify (P : TransferEntry → Prop) (k : Int) (f : TransferEntry → TransferEntry)
    (l : Ledger) (hf : ∀ e, P e → P (f e)) (h : ∀ x ∈ l, P x.2) :
    ∀ x ∈ modify k f l, P x.2 := by
  induction l with
  | nil => intro x hx; simp [modify] at hx
  | cons y l ih =>
    obtain ⟨k', e⟩ := y
    intro x hx
    by_cases hk : k = k'
    · simp only [modify, if_pos hk, List.mem_cons] at hx
      rcases hx with rfl | hx
      · exact hf _ (h (k', e) (List.mem_cons_self _ _))
      · exact h x (List.mem_cons_of_mem _ hx)
    · simp only [modify, if_neg hk, List.mem_cons] at hx
      rcases hx with rfl | hx
      · exact h (k', e) (List.mem_cons_self _ _)
      · exact ih (fun z hz => h z (List.mem_cons_of_mem _ hz)) x hx

theorem forall_ensure (P : TransferEntry → Prop) (k : Int) (fresh : TransferEntry)
    (l : Ledger) (hf : P fresh) (h : ∀ x ∈ l, P x.2) :
    ∀ x ∈ ensure k fresh l, P x.2 := by
  unfold ensure
  cases lookup k l with
  | some e => exact h
  | none =>
    intro x hx
    rcases List.mem_append.mp hx with hx | hx
    · exact h x hx
    · simp only [List.mem_singleton] at hx
      subst hx
      exact hf

theorem pushTx_ne_nil (toAddr : String) (r : TxRecord) (txs : List (String × List TxRecord)) :
    pushTx toAddr r txs ≠ [] := by
  cases txs with
  | nil => simp [pushTx]
  | cons p rest =>
    obtain ⟨k, rs⟩ := p
    by_cases h : toAddr = k <;> simp [pushTx, h]

theorem pushTx_records (toAddr : String) (r : TxRecord) (txs : List (String × List TxRecord))
    (h : ∀ p ∈ txs, p.2 ≠ []) : ∀ p ∈ pushTx toAddr r txs, p.2 ≠ [] := by
  induction txs with
  | nil => intro p hp; simp only [pushTx, List.mem_singleton] at hp; subst hp; simp
  | cons q rest ih =>
    obtain ⟨k, rs⟩ := q
    intro p hp
    by_cases hk : toAddr = k
    · simp only [pushTx, if_pos hk, List.mem_cons] at hp
      rcases hp with rfl | hp
      · simp
      · exact h p (List.mem_cons_of_mem _ hp)
    · simp only [pushTx, if_neg hk, List.mem_cons] at hp
      rcases hp with rfl | hp
      · exact h (k, rs) (List.mem_cons_self _ _)
      · exact ih (fun z hz => h z (List.mem_cons_of_mem _ hz)) p hp

theorem backed_recordTransfer (hashCode : String → String → Int) (hash txFrom : String)
    (blockNumber : Int) (asset fromAddr toAddr : String) (value : Nat) (l : Ledger)
    (h : ∀ x ∈ l, Backed x.2) :
    ∀ x ∈ recordTransfer hashCode hash txFrom blockNumber asset fromAddr toAddr value l,
      Backed x.2 := by
  unfold recordTransfer
  simp only []
  rw [modify_modify]
  refine forall_modify Backed _ _ _ ?_ ?_
  · intro e he
    refine ⟨fun ht => ?_, he.2⟩
    have := he.1 ht
    simp only
    omega
  refine forall_modify Backed _ _ _ ?_ ?_
  · intro e he
    exact ⟨fun ht => absurd ht (pushTx_ne_nil _ _ _), pushTx_records _ _ _ he.2⟩
  refine forall_ensure Backed _ _ _ ⟨fun _ => le_refl _, by simp⟩ ?_
  exact forall_ensure Backed _ _ _ ⟨fun _ => le_refl _, by simp⟩ h

theorem backed_accumulate (hashCode : String → String → Int) (tx : TxEvent) (l : Ledger)
    (h : ∀ x ∈ l, Backed x.2) : ∀ x ∈ accumulate hashCode l tx, Backed x.2 := by
  rw [accumulate_eq_foldl]
  generalize acceptedTransfers tx = ms
  induction ms generalizing l with
  | nil => exact h
  | cons m ms ih => exact ih _ (backed_recordTransfer _ _ _ _ _ _ _ _ _ h)

theorem backed_runTransactions (hashCode : String → String → Int) (txs : List TxEvent)
    (s : State) (h : ∀ x ∈ s.transfersObj, Backed x.2) :
    ∀ x ∈ (runTransactions hashCode s txs).transfersObj, Backed x.2 := by
  induction txs generalizing s with
  | nil => exact h
  | cons tx txs ih => exact ih _ (backed_accumulate hashCode tx _ h)

theorem evidence_ne_nil (e : TransferEntry) (h : Backed e) (hv : e.value < 0) :
    evidence e ≠ [] := by
  obtain ⟨h₁, h₂⟩ := h
  unfold evidence
  cases hts : e.txs with
  | nil => exact absurd (h₁ hts) (not_le.mpr hv)
  | cons p rest =>
    have hp : p.2 ≠ [] := h₂ p (by rw [hts]; exact List.mem_cons_self _ _)
    cases hp2 : p.2 with
    | nil => exact absurd hp2 hp
    | cons r rs => simp [hp2]

theorem uniq_ne_nil (xs : List String) (h : xs ≠ []) : uniq xs ≠ [] := by
  cases xs with
  | nil => exact absurd rfl h
  | cons x xs => simp [uniq]

/-- C24. In every ledger that transactions build from the empty ledger, an
entry whose value is negative has at least one evidence record (whatever the
key function, and amounts being non-negative by their type); consequently every
finding that `handleBlock` returns on such a ledger lists at least one
initiator, carries at least one label `Attacker`, lists at least one
transaction hash and names at least one involved address. -/
theorem negative_entry_has_evidence (hashCode : String → String → Int) (cfg : Config)
    (c : Collaborators) (count : Nat) (txs : List TxEvent) (blockNumber : Int)
    (findings : List Finding) (s' : State)
    (h : handleBlock cfg c
      (runTransactions hashCode { transfersObj := [], transfersCount := count } txs)
      blockNumber = (Except.ok findings, s')) :
    (∀ x ∈ (runTransactions hashCode { transfersObj := [], transfersCount := count }
        txs).transfersObj, x.2.value < 0 → x.2.txs ≠ [] ∧ evidence x.2 ≠ []) ∧
    ∀ f ∈ findings,
      f.metadata.initiators ≠ [] ∧ (∃ lb ∈ f.labels, lb.label = "Attacker") ∧
      f.metadata.txHashes ≠ [] ∧ f.addresses ≠ [] := by
  have hb := backed_runTransactions hashCode txs
    { transfersObj := [], transfersCount := count } (by intro x hx; simp at hx)
  have hev : ∀ x ∈ (runTransactions hashCode { transfersObj := [], transfersCount := count }
      txs).transfersObj, x.2.value < 0 → x.2.txs ≠ [] ∧ evidence x.2 ≠ [] := by
    intro x hx hv
    refine ⟨fun ht => absurd ((hb x hx).1 ht) (not_le.mpr hv), evidence_ne_nil _ (hb x hx) hv⟩
  refine ⟨hev, ?_⟩
  intro f hf
  obtain ⟨i, t, p, q, pre, post, sym, score, hi, -, -, -, -, -, -, -, rfl⟩ :=
    finding_provenance cfg c _ s' blockNumber findings h f hf
  have hmem := (mem_selectTransfers cfg _ blockNumber t).mp (List.mem_iff_getElem?.mpr ⟨i, hi⟩)
  have hv : t.2.value < 0 := by
    have := hmem.2
    unfold isSelected at this
    simp only [Bool.and_eq_true, decide_eq_true_eq] at this
    exact this.1.1
  obtain ⟨ht, he⟩ := hev t hmem.1 hv
  have hin : initiatorsOf { t.2 with symbol := some sym } ≠ [] := by
    unfold initiatorsOf
    apply uniq_ne_nil
    intro hnil
    exact he (List.map_eq_nil_iff.mp hnil)
  refine ⟨hin, ?_, ?_, ?_⟩
  · cases hl : initiatorsOf { t.2 with symbol := some sym } with
    | nil => exact absurd hl hin
    | cons a as =>
      exact ⟨{ entity := a, label := "Attacker", confidence := 1 / 2 },
        by simp [buildFinding, hl], rfl⟩
  · show txHashesOf { t.2 with symbol := some sym } ≠ []
    unfold txHashesOf
    apply uniq_ne_nil
    intro hnil
    exact he (List.map_eq_nil_iff.mp hnil)
  · show uniq (t.2.txs.map Prod.fst) ≠ []
    apply uniq_ne_nil
    intro hnil
    exact ht (List.map_eq_nil_iff.mp hnil)

/-- Worked example: the finding of the sample pass on the ledger of the two
sample transactions has an initiator, an attacker label, a transaction hash
and an involved address. -/
theorem negative_entry_has_evidence_witness :
    (∀ x ∈ sampleState.transfersObj, x.2.value < 0 → x.2.txs ≠ [] ∧ evidence x.2 ≠ []) ∧
    ∀ f ∈ [sampleFinding],
      f.metadata.initiators ≠ [] ∧ (∃ lb ∈ f.labels, lb.label = "Attacker") ∧
      f.metadata.txHashes ≠ [] ∧ f.addresses ≠ [] :=
  negative_entry_has_evidence sampleHashCode (provideInitialize 1)
    (sampleCollaborators AddressType.Contract) 0 [sampleDrainTx, sampleNativeTx] 11
    [sampleFinding] { transfersObj := [], transfersCount := 0 } rfl

theorem assetSum_ensure (X : String) (k : Int) (fresh : TransferEntry) (l : Ledger)
    (hf : fresh.value = 0) : assetSum X (ensure k fresh l) = assetSum X l := by
  unfold ensure
  cases lookup k l with
  | some e => rfl
  | none => simp [assetSum, hf]

theorem assetSum_modify (X : String) (k : Int) (f : TransferEntry → TransferEntry) (d : Int)
    (hasset : ∀ e, (f e).asset = e.asset) (hvalue : ∀ e, (f e).value = e.value + d)
    (l : Ledger) :
    assetSum X (modify k f l) =
      assetSum X l + (match lookup k l with
        | some e => if e.asset = X then d else 0
        | none => 0) := by
  induction l with
  | nil => simp [assetSum, modify, lookup]
  | cons x l ih =>
    obtain ⟨k', e⟩ := x
    by_cases h : k = k'
    · simp only [modify, lookup, if_pos h, assetSum, List.map_cons, List.sum_cons, hasset,
        hvalue]
      split <;> ring
    · simp only [modify, lookup, if_neg h, assetSum, List.map_cons, List.sum_cons] at ih ⊢
      rw [ih]
      ring

theorem assetSum_modify_keyed (hashCode : String → String → Int)
    (hinj : Function.Injective (Function.uncurry hashCode)) (X a A : String)
    (f : TransferEntry → TransferEntry) (d : Int)
    (hasset : ∀ e, (f e).asset = e.asset) (hvalue : ∀ e, (f e).value = e.value + d)
    (l : Ledger) (hk : KeyedBy hashCode l) (hsome : (lookup (hashCode a A) l).isSome = true) :
    assetSum X (modify (hashCode a A) f l) = assetSum X l + if A = X then d else 0 := by
  rw [assetSum_modify X _ f d hasset hvalue]
  cases hl : lookup (hashCode a A) l with
  | none => rw [hl] at hsome; exact absurd hsome (by simp)
  | some e =>
    have := @hinj (e.address, e.asset) (a, A) (hk _ _ hl)
    simp only [Prod.mk.injEq] at this
    simp only [this.2]

theorem isSome_lookup_ensure_self (k : Int) (fresh : TransferEntry) (l : Ledger) :
    (lookup k (ensure k fresh l)).isSome = true := by
  rw [lookup_ensure]; simp

theorem isSome_lookup_ensure (k k' : Int) (fresh : TransferEntry) (l : Ledger)
    (h : (lookup k l).isSome = true) : (lookup k (ensure k' fresh l)).isSome = true := by
  rw [lookup_ensure]
  split
  · simp
  · exact h

theorem isSome_lookup_modify (k k' : Int) (f : TransferEntry → TransferEntry) (l : Ledger)
    (h : (lookup k l).isSome = true) : (lookup k (modify k' f l)).isSome = true := by
  rw [lookup_modify]
  split
  · simpa using h
  · exact h

theorem assetSum_moves (hashCode : String → String → Int)
    (hinj : Function.Injective (Function.uncurry hashCode)) (X : String) (hash txFrom : String)
    (asset fromAddr toAddr : String) (value : Nat) (l : Ledger) (hk : KeyedBy hashCode l)
    (s₁ : (lookup (hashCode fromAddr asset) l).isSome = true)
    (s₂ : (lookup (hashCode toAddr asset) l).isSome = true) :
    assetSum X
      (modify (hashCode toAddr asset) (fun e => { e with value := e.value + (value : Int) })
        (modify (hashCode fromAddr asset)
          (fun e => { e with txs := pushTx toAddr { hash := hash, txFrom := txFrom } e.txs })
          (modify (hashCode fromAddr asset)
            (fun e => { e with value := e.value - (value : Int) }) l)))
      = assetSum X l := by
  have k₁ : KeyedBy hashCode (modify (hashCode fromAddr asset)
      (fun e => { e with value := e.value - (value : Int) }) l) :=
    keyedBy_modify _ _ _ _ (fun _ => ⟨rfl, rfl⟩) hk
  have k₂ : KeyedBy hashCode (modify (hashCode fromAddr asset)
      (fun e => { e with txs := pushTx toAddr { hash := hash, txFrom := txFrom } e.txs })
      (modify (hashCode fromAddr asset)
        (fun e => { e with value := e.value - (value : Int) }) l)) :=
    keyedBy_modify _ _ _ _ (fun _ => ⟨rfl, rfl⟩) k₁
  rw [assetSum_modify_keyed hashCode hinj X toAddr asset
      (fun e => { e with value := e.value + (value : Int) }) (value : Int) (fun _ => rfl)
      (fun _ => rfl) _ k₂
      (isSome_lookup_modify _ _ _ _ (isSome_lookup_modify _ _ _ _ s₂)),
    assetSum_modify_keyed hashCode hinj X fromAddr asset
      (fun e => { e with txs := pushTx toAddr { hash := hash, txFrom := txFrom } e.txs }) 0
      (fun _ => rfl) (fun _ => (add_zero _).symm) _ k₁
      (isSome_lookup_modify _ _ _ _ s₁),
    assetSum_modify_keyed hashCode hinj X fromAddr asset
      (fun e => { e with value := e.value - (value : Int) }) (-(value : Int)) (fun _ => rfl)
      (fun _ => sub_eq_add_neg _ _) _ hk s₁]
  split <;> simp

theorem assetSum_recordTransfer (hashCode : String → String → Int)
    (hinj : Function.Injective (Function.uncurry hashCode)) (X : String) (hash txFrom : String)
    (blockNumber : Int) (asset fromAddr toAddr : String) (value : Nat) (l : Ledger)
    (hk : KeyedBy hashCode l) :
    assetSum X (recordTransfer hashCode hash txFrom blockNumber asset fromAddr toAddr value l)
      = assetSum X l := by
  unfold recordTransfer
  simp only []
  have k₁ := keyedBy_ensure hashCode (hashCode fromAddr asset)
    { asset := asset, address := fromAddr, value := 0, blockNumber := blockNumber,
      txs := [], symbol := none } l rfl hk
  have k₂ := keyedBy_ensure hashCode (hashCode toAddr asset)
    { asset := asset, address := toAddr, value := 0, blockNumber := blockNumber,
      txs := [], symbol := none } _ rfl k₁
  rw [assetSum_moves hashCode hinj X hash txFrom asset fromAddr toAddr value _ k₂
      (isSome_lookup_ensure _ _ _ _ (isSome_lookup_ensure_self _ _ _))
      (isSome_lookup_ensure_self _ _ _),
    assetSum_ensure X _ _ _ rfl, assetSum_ensure X _ _ _ rfl]

theorem assetSum_accumulate (hashCode : String → String → Int)
    (hinj : Function.Injective (Function.uncurry hashCode)) (X : String) (tx : TxEvent)
    (l : Ledger) (hk : KeyedBy hashCode l) :
    assetSum X (accumulate hashCode l tx) = assetSum X l := by
  rw [accumulate_eq_foldl]
  generalize acceptedTransfers tx = ms
  induction ms generalizing l with
  | nil => rfl
  | cons m ms ih =>
    simp only [List.foldl_cons]
    rw [ih (applyMovement hashCode tx.hash tx.txFrom tx.blockNumber l m)
      (keyedBy_recordTransfer _ _ _ _ _ _ _ _ _ hk)]
    exact assetSum_recordTransfer hashCode hinj X _ _ _ _ _ _ _ l hk

/-- C25. Conservation: with a key function that is injective on pairs of
address and asset, in the ledger that any list of transactions builds from the
empty ledger, the values of the entries of each asset sum to exactly zero. -/
theorem asset_values_sum_to_zero (hashCode : String → String → Int)
    (hinj : Function.Injective (Function.uncurry hashCode)) (count : Nat)
    (txs : List TxEvent) (X : String) :
    assetSum X
      (runTransactions hashCode { transfersObj := [], transfersCount := count }
        txs).transfersObj = 0 := by
  have h : ∀ (txs : List TxEvent) (s : State), KeyedBy hashCode s.transfersObj →
      assetSum X (runTransactions hashCode s txs).transfersObj = assetSum X s.transfersObj := by
    intro txs
    induction txs with
    | nil => intro s _; rfl
    | cons tx txs ih =>
      intro s hk
      have := ih (handleTransaction hashCode s tx).2 (keyedBy_accumulate hashCode tx _ hk)
      simp only [runTransactions, List.foldl_cons] at this ⊢
      rw [this]
      exact assetSum_accumulate hashCode hinj X tx _ hk
  rw [h txs _ (by intro k e he; simp [lookup] at he)]
  rfl

/-- Worked example: with the injective pair key, the token entries of the two
sample transactions sum to zero. -/
theorem asset_values_sum_to_zero_witness :
    Function.Injective (Function.uncurry pairKey) ∧
    assetSum "0xt"
      (runTransactions pairKey { transfersObj := [], transfersCount := 0 }
        [sampleDrainTx, sampleNativeTx]).transfersObj = 0 :=
  ⟨pairKey_injective,
    asset_values_sum_to_zero pairKey pairKey_injective 0 [sampleDrainTx, sampleNativeTx] "0xt"⟩

theorem blockNumber_recordTransfer (hashCode : String → String → Int) (hash txFrom : String)
    (blockNumber : Int) (asset fromAddr toAddr : String) (value : Nat) (l : Ledger)
    (h : ∀ x ∈ l, x.2.blockNumber = blockNumber) :
    ∀ x ∈ recordTransfer hashCode hash txFrom blockNumber asset fromAddr toAddr value l,
      x.2.blockNumber = blockNumber := by
  unfold recordTransfer
  simp only []
  refine forall_modify (fun e => e.blockNumber = blockNumber) _ _ _ (fun _ he => he) ?_
  refine forall_modify (fun e => e.blockNumber = blockNumber) _ _ _ (fun _ he => he) ?_
  refine forall_modify (fun e => e.blockNumber = blockNumber) _ _ _ (fun _ he => he) ?_
  refine forall_ensure (fun e => e.blockNumber = blockNumber) _ _ _ rfl ?_
  exact forall_ensure (fun e => e.blockNumber = blockNumber) _ _ _ rfl h

theorem blockNumber_accumulate (hashCode : String → String → Int) (tx : TxEvent) (l : Ledger)
    (h : ∀ x ∈ l, x.2.blockNumber = tx.blockNumber) :
    ∀ x ∈ accumulate hashCode l tx, x.2.blockNumber = tx.blockNumber := by
  rw [accumulate_eq_foldl]
  generalize acceptedTransfers tx = ms
  induction ms generalizing l with
  | nil => exact h
  | cons m ms ih => exact ih _ (blockNumber_recordTransfer _ _ _ _ _ _ _ _ _ h)

theorem blockNumber_runTransactions (hashCode : String → String → Int) (b : Int)
    (txs : List TxEvent) (htxs : ∀ tx ∈ txs, tx.blockNumber = b) (s : State)
    (h : ∀ x ∈ s.transfersObj, x.2.blockNumber = b) :
    ∀ x ∈ (runTransactions hashCode s txs).transfersObj, x.2.blockNumber = b := by
  induction txs generalizing s with
  | nil => exact h
  | cons tx txs ih =>
    have hb := htxs tx (List.mem_cons_self _ _)
    refine ih (fun t ht => htxs t (List.mem_cons_of_mem _ ht)) _ ?_
    have := blockNumber_accumulate hashCode tx s.transfersObj (by rw [hb]; exact h)
    rw [hb] at this
    exact this

theorem selectTransfers_longLag_nil (cfg : Config)
    (hchain : cfg.chainId = 56 ∨ cfg.chainId = 137 ∨ cfg.chainId = 250) (l : Ledger)
    (blockNumber : Int) (h : ∀ x ∈ l, x.2.blockNumber = blockNumber - 1) :
    selectTransfers cfg l blockNumber = [] := by
  rw [List.eq_nil_iff_forall_not_mem]
  intro t ht
  obtain ⟨hmem, hsel⟩ := (mem_selectTransfers cfg l blockNumber t).mp ht
  unfold isSelected at hsel
  simp only [if_pos hchain, Bool.and_eq_true, decide_eq_true_eq] at hsel
  have := h t hmem
  omega

theorem handleBlock_of_nothing_selected (cfg : Config) (c : Collaborators) (s : State)
    (blockNumber : Int) (hsel : selectTransfers cfg s.transfersObj blockNumber = [])
    (hbatch : ∀ blockTag, ∃ r, c.tryAll [] blockTag = Except.ok r) :
    handleBlock cfg c s blockNumber =
      (Except.ok [], { transfersObj := [], transfersCount := s.transfersCount }) := by
  obtain ⟨r₁, h₁⟩ := hbatch (preDrainBlock cfg blockNumber)
  obtain ⟨r₂, h₂⟩ := hbatch (postDrainBlock cfg blockNumber)
  unfold handleBlock
  simp only [hsel, List.map_nil, h₁, h₂, balanceFilter, ownershipFilter, promiseAll,
    nullifyBalances, attachSymbols, storeSymbols, valuationFilter, emitAll]
  simp

theorem runBlocks_longLag (hashCode : String → String → Int) (cfg : Config) (c : Collaborators)
    (hchain : cfg.chainId = 56 ∨ cfg.chainId = 137 ∨ cfg.chainId = 250)
    (hbatch : ∀ blockTag, ∃ r, c.tryAll [] blockTag = Except.ok r)
    (blocks : List (List TxEvent)) :
    ∀ (s : State) (first : Int),
      (∀ x ∈ s.transfersObj, x.2.blockNumber = first - 1) →
      (∀ (k : Nat) (txs : List TxEvent), blocks[k]? = some txs →
        ∀ tx ∈ txs, tx.blockNumber = first + k) →
      ∀ call ∈ runBlocks hashCode cfg c s first blocks,
        (∀ x ∈ call.before.transfersObj, x.2.blockNumber = call.blockNumber - 1) ∧
        selectTransfers cfg call.before.transfersObj call.blockNumber = [] ∧
        call.result = Except.ok [] := by
  induction blocks with
  | nil =>
    intro s first hs _ call hcall
    simp only [runBlocks, List.mem_singleton] at hcall
    subst hcall
    have hsel := selectTransfers_longLag_nil cfg hchain s.transfersObj first hs
    exact ⟨hs, hsel, by rw [handleBlock_of_nothing_selected cfg c s first hsel hbatch]⟩
  | cons txs rest ih =>
    intro s first hs hblocks call hcall
    have hsel := selectTransfers_longLag_nil cfg hchain s.transfersObj first hs
    have hret := handleBlock_of_nothing_selected cfg c s first hsel hbatch
    simp only [runBlocks, List.mem_cons] at hcall
    rcases hcall with rfl | hcall
    · exact ⟨hs, hsel, by rw [hret]⟩
    · refine ih _ (first + 1) ?_ ?_ call hcall
      · rw [hret]
        have := blockNumber_runTransactions hashCode first txs
          (fun tx htx => by simpa using hblocks 0 txs (List.getElem?_cons_zero) tx htx)
          { transfersObj := [], transfersCount := s.transfersCount }
          (by intro x hx; simp at hx)
        intro x hx
        rw [this x hx]
        ring
      · intro k txs' hk tx htx
        have := hblocks (k + 1) txs' (by simpa using hk) tx htx
        rw [this]
        push_cast
        ring

/-- C26. On a chain with the long lag (chain id 56, 137 or 250), let
`handleBlock` be invoked for every consecutive block number from `first` on,
starting with an empty ledger, with the transactions of each block handed to
`handleTransaction` between the invocation for that block and the next one,
and let the balance batch of an empty selection return rather than reject.
Then at every invocation all ledger entries carry the current block number
minus 1, no entry is selected, and the invocation returns no finding. -/
theorem long_lag_chain_never_selects (hashCode : String → String → Int) (cfg : Config)
    (c : Collaborators) (count : Nat) (first : Int) (blocks : List (List TxEvent))
    (hchain : cfg.chainId = 56 ∨ cfg.chainId = 137 ∨ cfg.chainId = 250)
    (hbatch : ∀ blockTag, ∃ r, c.tryAll [] blockTag = Except.ok r)
    (hblocks : ∀ (k : Nat) (txs : List TxEvent), blocks[k]? = some txs →
      ∀ tx ∈ txs, tx.blockNumber = first + k) :
    ∀ call ∈ runBlocks hashCode cfg c { transfersObj := [], transfersCount := count } first
        blocks,
      (∀ x ∈ call.before.transfersObj, x.2.blockNumber = call.blockNumber - 1) ∧
      selectTransfers cfg call.before.transfersObj call.blockNumber = [] ∧
      call.result = Except.ok [] :=
  runBlocks_longLag hashCode cfg c hchain hbatch blocks _ first
    (by intro x hx; simp at hx) hblocks

/-- Worked example: chain 56, blocks 10 and 11, the sample drain in block 10;
none of the three invocations selects an entry or returns a finding. -/
theorem long_lag_chain_never_selects_witness :
    ((provideInitialize 56).chainId = 56 ∨ (provideInitialize 56).chainId = 137 ∨
      (provideInitialize 56).chainId = 250) ∧
    (∀ blockTag, ∃ r, (sampleCollaborators AddressType.Contract).tryAll [] blockTag =
      Except.ok r) ∧
    ∀ call ∈ runBlocks sampleHashCode (provideInitialize 56)
        (sampleCollaborators AddressType.Contract) { transfersObj := [], transfersCount := 0 }
        10 [[sampleDrainTx, sampleNativeTx], []],
      (∀ x ∈ call.before.transfersObj, x.2.blockNumber = call.blockNumber - 1) ∧
      selectTransfers (provideInitialize 56) call.before.transfersObj call.blockNumber = [] ∧
      call.result = Except.ok [] :=
  ⟨Or.inl rfl, fun _ => ⟨[], rfl⟩,
    long_lag_chain_never_selects sampleHashCode (provideInitialize 56)
      (sampleCollaborators AddressType.Contract) 0 10 [[sampleDrainTx, sampleNativeTx], []]
      (Or.inl rfl) (fun _ => ⟨[], rfl⟩)
      (by
        intro k txs hk tx htx
        match k, hk with
        | 0, hk =>
          simp only [List.getElem?_cons_zero, Option.some.injEq] at hk
          subst hk
          simp only [List.mem_cons, List.mem_singleton, List.not_mem_nil, or_false] at htx
          rcases htx with rfl | rfl <;> rfl
        | 1, hk =>
          simp only [List.getElem?_cons_succ, List.getElem?_cons_zero, Option.some.injEq] at hk
          subst hk
          simp at htx
        | k + 2, hk => simp at hk)⟩

end AssetDrained

namespace IcePhishing

open AssetDrained (Failure)

/-! ## getEventInformation -/

theorem foldl_setAdd (xs : List String) :
    ∀ acc : List String, acc.Nodup →
      xs.foldl setAdd acc = acc ++ (AssetDrained.uniq xs).filter fun y => decide (y ∉ acc) := by
  induction xs with
  | nil => intro acc _; simp [AssetDrained.uniq]
  | cons x xs ih =>
    intro acc hacc
    simp only [List.foldl_cons, AssetDrained.uniq]
    by_cases hx : x ∈ acc
    · have hset : setAdd acc x = acc := by simp [setAdd, hx]
      rw [hset, ih acc hacc]
      congr 1
      simp only [List.filter_cons, hx, not_true_eq_false, decide_False, Bool.false_eq_true,
        if_false, List.filter_filter]
      apply List.filter_congr
      intro y _
      by_cases hy : y ∈ acc
      · simp [hy]
      · have : y ≠ x := fun h => hy (h ▸ hx)
        simp [hy, this]
    · have hset : setAdd acc x = acc ++ [x] := by simp [setAdd, hx]
      have hnd : (acc ++ [x]).Nodup := by
        rw [List.nodup_append]
        exact ⟨hacc, List.nodup_singleton x, by
          intro a ha hb
          rw [List.mem_singleton] at hb
          exact hx (hb ▸ ha)⟩
      rw [hset, ih _ hnd]
      simp only [List.filter_cons, hx, not_false_eq_true, decide_True, if_true,
        List.filter_filter, List.append_assoc, List.singleton_append]
      congr 2
      apply List.filter_congr
      intro y _
      by_cases hy : y ∈ acc <;> by_cases hyx : y = x <;> simp [hy, hyx]

theorem spreadSet_eq_uniq (xs : List String) : spreadSet xs = AssetDrained.uniq xs := by
  unfold spreadSet
  rw [foldl_setAdd xs [] List.nodup_nil]
  simp

theorem spreadSet_append_left (p s : List String) : spreadSet p <+: spreadSet (p ++ s) := by
  unfold spreadSet
  rw [List.foldl_append, foldl_setAdd s (p.foldl setAdd []) (by
    have := spreadSet_eq_uniq p
    unfold spreadSet at this
    rw [this]
    exact AssetDrained.uniq_nodup p)]
  exact List.prefix_append _ _

theorem not_mem_take_indexOf (xs : List String) (b : String) :
    b ∉ xs.take (xs.indexOf b) := by
  induction xs with
  | nil => simp
  | cons x xs ih =>
    by_cases h : x = b
    · simp [h]
    · rw [List.indexOf_cons_ne _ h, List.take_succ_cons, List.mem_cons, not_or]
      exact ⟨fun hb => h hb.symm, ih⟩

theorem mem_take_of_indexOf_lt (xs : List String) (a : String) :
    ∀ k : Nat, xs.indexOf a < k → a ∈ xs → a ∈ xs.take k := by
  induction xs with
  | nil => intro k _ ha; simp at ha
  | cons x xs ih =>
    intro k hk ha
    by_cases h : x = a
    · cases k with
      | zero => omega
      | succ k => simp [h]
    · rw [List.indexOf_cons_ne _ h] at hk
      cases k with
      | zero => omega
      | succ k =>
        rw [List.take_succ_cons, List.mem_cons]
        right
        refine ih k (by omega) ?_
        rcases List.mem_cons.mp ha with rfl | ha
        · exact absurd rfl h
        · exact ha

theorem mem_spreadSet (xs : List String) (a : String) : a ∈ spreadSet xs ↔ a ∈ xs := by
  rw [spreadSet_eq_uniq]
  exact AssetDrained.mem_uniq xs a

theorem spreadSet_nodup (xs : List String) : (spreadSet xs).Nodup := by
  rw [spreadSet_eq_uniq]
  exact AssetDrained.uniq_nodup xs

theorem indexOf_spreadSet_lt (xs : List String) (a b : String) (ha : a ∈ xs)
    (h : xs.indexOf a < xs.indexOf b) :
    (spreadSet xs).indexOf a < (spreadSet xs).indexOf b := by
  obtain ⟨t, ht⟩ := spreadSet_append_left (xs.take (xs.indexOf b)) (xs.drop (xs.indexOf b))
  rw [List.take_append_drop] at ht
  have hain : a ∈ spreadSet (xs.take (xs.indexOf b)) :=
    (mem_spreadSet _ a).mpr (mem_take_of_indexOf_lt xs a _ h ha)
  have hbout : b ∉ spreadSet (xs.take (xs.indexOf b)) :=
    fun hb => not_mem_take_indexOf xs b ((mem_spreadSet _ b).mp hb)
  rw [← ht, List.indexOf_append_of_mem hain, List.indexOf_append_of_not_mem hbout]
  have := List.indexOf_lt_length.mpr hain
  omega

theorem indexOf_spreadSet (xs : List String) (a b : String) (ha : a ∈ xs) (hb : b ∈ xs) :
    (spreadSet xs).indexOf a < (spreadSet xs).indexOf b ↔ xs.indexOf a < xs.indexOf b := by
  constructor
  · intro h
    by_contra hnot
    rcases Nat.lt_or_eq_of_le (not_lt.mp hnot) with hlt | heq
    · have := indexOf_spreadSet_lt xs b a hb hlt
      omega
    · have hab : a = b := by
        have h₁ := List.indexOf_lt_length.mpr ha
        have h₂ := List.indexOf_lt_length.mpr hb
        have e₁ : xs[xs.indexOf a] = a := List.getElem_indexOf h₁
        have e₂ : xs[xs.indexOf b] = b := List.getElem_indexOf h₂
        rw [← e₁, ← e₂]
        congr 1
        exact heq.symm
      rw [hab] at h
      exact absurd h (lt_irrefl _)
  · exact indexOf_spreadSet_lt xs a b ha

theorem ceil_div_bounds (d : Int) :
    86400 * (⌈(d : ℚ) / 86400⌉ - 1) < d ∧ d ≤ 86400 * ⌈(d : ℚ) / 86400⌉ := by
  have h₁ := Int.ceil_lt_add_one ((d : ℚ) / 86400)
  have h₂ := Int.le_ceil ((d : ℚ) / 86400)
  have e : (d : ℚ) = 86400 * ((d : ℚ) / 86400) := by ring
  generalize ⌈(d : ℚ) / 86400⌉ = c at h₁ h₂ ⊢
  generalize (d : ℚ) / 86400 = q at h₁ h₂ e
  constructor
  · have : ((86400 * (c - 1) : Int) : ℚ) < (d : ℚ) := by push_cast; linarith
    exact_mod_cast this
  · have : (d : ℚ) ≤ ((86400 * c : Int) : ℚ) := by push_cast; linarith
    exact_mod_cast this

/-- C21. For a non-empty array, `getEventInformation` returns a result whose
`firstTxHash` and `lastTxHash` are the hashes of the first and of the last
event, whose `assets` and `accounts` hold every asset and every owner of the
events exactly once, in the order of their first occurrences, and whose `days`
is the ceiling of the difference of the last and first timestamps divided by
86400; for the empty array it fails. -/
theorem event_information_summary (first : Event) (rest : List Event) :
    (∃ info, getEventInformation (first :: rest) = Except.ok info ∧
      info.firstTxHash = first.hash ∧
      info.lastTxHash = ((first :: rest).getLast (List.cons_ne_nil first rest)).hash ∧
      info.assets.Nodup ∧
      (∀ a, a ∈ info.assets ↔ ∃ e ∈ first :: rest, e.asset = a) ∧
      (∀ a b, a ∈ (first :: rest).map Event.asset → b ∈ (first :: rest).map Event.asset →
        (info.assets.indexOf a < info.assets.indexOf b ↔
          ((first :: rest).map Event.asset).indexOf a <
            ((first :: rest).map Event.asset).indexOf b)) ∧
      info.accounts.Nodup ∧
      (∀ a, a ∈ info.accounts ↔ ∃ e ∈ first :: rest, e.owner = a) ∧
      (∀ a b, a ∈ (first :: rest).map Event.owner → b ∈ (first :: rest).map Event.owner →
        (info.accounts.indexOf a < info.accounts.indexOf b ↔
          ((first :: rest).map Event.owner).indexOf a <
            ((first :: rest).map Event.owner).indexOf b)) ∧
      86400 * (info.days - 1) <
        ((first :: rest).getLast (List.cons_ne_nil first rest)).timestamp - first.timestamp ∧
      ((first :: rest).getLast (List.cons_ne_nil first rest)).timestamp - first.timestamp
        ≤ 86400 * info.days) ∧
    getEventInformation [] = Except.error Failure.typeError := by
  refine ⟨?_, rfl⟩
  have hlast : (first :: rest)[(first :: rest).length - 1]? =
      some ((first :: rest).getLast (List.cons_ne_nil first rest)) := by
    rw [List.getLast_eq_getElem]
    exact List.getElem?_eq_getElem _
  have hres : getEventInformation (first :: rest) = Except.ok
      { firstTxHash := first.hash
        lastTxHash := ((first :: rest).getLast (List.cons_ne_nil first rest)).hash
        assets := spreadSet ((first :: rest).map fun e => e.asset)
        accounts := spreadSet ((first :: rest).map fun e => e.owner)
        days := ⌈((((first :: rest).getLast (List.cons_ne_nil first rest)).timestamp
          - first.timestamp : Int) : ℚ) / 86400⌉ } := by
    simp only [getEventInformation, List.getElem?_cons_zero, hlast]
  refine ⟨_, hres, rfl, rfl, spreadSet_nodup _, ?_, ?_, spreadSet_nodup _, ?_, ?_, ?_, ?_⟩
  · intro a
    rw [mem_spreadSet, List.mem_map]
  · intro a b ha hb
    exact indexOf_spreadSet _ a b ha hb
  · intro a
    rw [mem_spreadSet, List.mem_map]
  · intro a b ha hb
    exact indexOf_spreadSet _ a b ha hb
  · exact (ceil_div_bounds _).1
  · exact (ceil_div_bounds _).2

/-- Worked example: on the three sample events the result starts at `0xa1`,
ends at `0xa3`, lists the asset `0xt` before `0xu`, and counts two days for
90000 seconds. -/
theorem event_information_summary_witness :
    "0xt" ∈ sampleEvents.map Event.asset ∧ "0xu" ∈ sampleEvents.map Event.asset ∧
    ∃ info, getEventInformation sampleEvents = Except.ok info ∧
      info.firstTxHash = "0xa1" ∧ info.lastTxHash = "0xa3" ∧
      info.assets.indexOf "0xt" < info.assets.indexOf "0xu" ∧
      86400 * (info.days - 1) < 90000 ∧ 90000 ≤ 86400 * info.days := by
  obtain ⟨⟨info, h, h₁, h₂, -, -, hord, -, -, -, hd₁, hd₂⟩, -⟩ :=
    event_information_summary
      { hash := "0xa1", asset := "0xt", owner := "0xo1", timestamp := 1000 }
      [{ hash := "0xa2", asset := "0xu", owner := "0xo1", timestamp := 2000 },
       { hash := "0xa3", asset := "0xt", owner := "0xo2", timestamp := 91000 }]
  exact ⟨by decide, by decide, info, h, h₁, h₂,
    (hord "0xt" "0xu" (by decide) (by decide)).mpr (by decide), hd₁, hd₂⟩

theorem sample_event_information :
    getEventInformation sampleEvents =
      Except.ok { firstTxHash := "0xa1", lastTxHash := "0xa3", assets := ["0xt", "0xu"],
                  accounts := ["0xo1", "0xo2"], days := 2 } := by
  have hd : ⌈(((91000 : Int) - 1000 : Int) : ℚ) / 86400⌉ = 2 := by
    rw [Int.ceil_eq_iff]; norm_num
  have ha : spreadSet ["0xt", "0xu", "0xt"] = ["0xt", "0xu"] := by decide
  have ho : spreadSet ["0xo1", "0xo1", "0xo2"] = ["0xo1", "0xo2"] := by decide
  simp only [getEventInformation, sampleEvents, List.getElem?_cons_zero, List.length_cons,
    List.length_nil, List.map_cons, List.map_nil, ha, ho]
  simp only [Nat.zero_add, Nat.reduceAdd, Nat.add_one_sub_one, List.getElem?_cons_succ,
    List.getElem?_cons_zero, hd]

/-! ## getAddressType -/

theorem cacheGet_cacheSet (cache : Cache) (address type : String) :
    cacheGet (cacheSet cache address type) address = some type := by
  induction cache with
  | nil => simp [cacheSet, cacheGet]
  | cons x rest ih =>
    obtain ⟨k, v⟩ := x
    by_cases h : address = k
    · simp [cacheSet, cacheGet, h]
    · simp [cacheSet, cacheGet, h, ih]

theorem cacheGet_cacheSet_other (cache : Cache) (address type other : String)
    (h : other ≠ address) :
    cacheGet (cacheSet cache address type) other = cacheGet cache other := by
  induction cache with
  | nil => simp [cacheSet, cacheGet, h]
  | cons x rest ih =>
    obtain ⟨k, v⟩ := x
    by_cases hk : address = k
    · subst hk
      simp [cacheSet, cacheGet, h]
    · by_cases ho : other = k
      · simp [cacheSet, cacheGet, hk, ho]
      · simp [cacheSet, cacheGet, hk, ho, ih]

/-- C22. For an address that is not a scam address and is in the cache,
`getAddressType` returns the cached type, leaves the cache as it is and sends
no request to the provider or the block explorer whenever the check is for the
owner, or the cached type is `EoaWithHighNonce` or `HighNumTxsVerifiedContract`,
or the cached type starts with "Ignored".  For a scam address it returns
`ScamAddress`, sends no request, and afterwards the cache maps the address to
`ScamAddress` and every other address as before. -/
theorem cached_and_scam_address_type (env : Env) (address : String)
    (scamAddresses : List String) (cachedAddresses : Cache) (blockNumber : Int) (chainId : Nat)
    (isOwner : Bool) :
    (address ∉ scamAddresses → ∀ type, cacheGet cachedAddresses address = some type →
      (isOwner = true ∨ type = env.types.EoaWithHighNonce ∨
        type = env.types.HighNumTxsVerifiedContract ∨ startsWith type "Ignored" = true) →
      getAddressType env address scamAddresses cachedAddresses blockNumber chainId isOwner =
        { result := Except.ok (some type), cache := cachedAddresses, lookups := [] }) ∧
    (address ∈ scamAddresses →
      (getAddressType env address scamAddresses cachedAddresses blockNumber chainId
        isOwner).result = Except.ok (some env.types.ScamAddress) ∧
      cacheGet (getAddressType env address scamAddresses cachedAddresses blockNumber chainId
        isOwner).cache address = some env.types.ScamAddress ∧
      (∀ other, other ≠ address →
        cacheGet (getAddressType env address scamAddresses cachedAddresses blockNumber chainId
          isOwner).cache other = cacheGet cachedAddresses other) ∧
      (getAddressType env address scamAddresses cachedAddresses blockNumber chainId
        isOwner).lookups = []) := by
  constructor
  · intro hscam type hget hcond
    have hc : scamAddresses.contains address = false := by
      simpa using hscam
    have hguard : (isOwner || decide (type = env.types.EoaWithHighNonce) ||
        decide (type = env.types.HighNumTxsVerifiedContract) || startsWith type "Ignored")
        = true := by
      rcases hcond with h | h | h | h <;> simp [h]
    unfold getAddressType
    simp only [hc, Bool.false_eq_true, if_false, hget, hguard, if_true]
  · intro hscam
    have hc : scamAddresses.contains address = true := by
      simpa using hscam
    unfold getAddressType
    simp only [hc, if_true]
    refine ⟨trivial, ?_, ?_, trivial⟩
    · split
      · exact cacheGet_cacheSet _ _ _
      · rename_i hn
        simp only [Bool.or_eq_true, Bool.not_eq_true', decide_eq_true_eq, not_or,
          Bool.not_eq_false, not_not] at hn
        exact hn.2
    · intro other ho
      split
      · exact cacheGet_cacheSet_other _ _ _ _ ho
      · rfl

/-- Worked example: `0xb` is cached as `EoaWithHighNonce` and is returned from
the cache; `0xs` is a scam address cached under another type. -/
theorem cached_and_scam_address_type_witness :
    "0xb" ∉ ["0xs"] ∧ "0xs" ∈ ["0xs"] ∧
    getAddressType sampleEnv "0xb" ["0xs"] sampleCache 100 1 false =
      { result := Except.ok (some "EoaWithHighNonce"), cache := sampleCache, lookups := [] } ∧
    (getAddressType sampleEnv "0xs" ["0xs"] sampleCache 100 1 false).result =
      Except.ok (some "ScamAddress") ∧
    cacheGet (getAddressType sampleEnv "0xs" ["0xs"] sampleCache 100 1 false).cache "0xs" =
      some "ScamAddress" :=
  ⟨by decide, by decide,
    (cached_and_scam_address_type sampleEnv "0xb" ["0xs"] sampleCache 100 1 false).1
      (by decide) "EoaWithHighNonce" rfl (Or.inr (Or.inl rfl)),
    ((cached_and_scam_address_type sampleEnv "0xs" ["0xs"] sampleCache 100 1 false).2
      (by decide)).1,
    ((cached_and_scam_address_type sampleEnv "0xs" ["0xs"] sampleCache 100 1 false).2
      (by decide)).2.1⟩

theorem sample_address_type_lookup :
    getAddressType sampleEnv "0xa" ["0xs"] sampleCache 100 1 false =
      { result := Except.ok (some "EoaWithLowNonce"), cache := sampleCache,
        lookups := [Lookup.getTransactionCount "0xa" 100] } ∧
    getAddressType sampleEnv "0xa" ["0xs"] sampleCache 100 1 true =
      { result := Except.ok (some "EoaWithLowNonce"), cache := sampleCache, lookups := [] } ∧
    getAddressType sampleEnv "0xc" ["0xs"] sampleCache 100 1 false =
      { result := Except.ok (some "IgnoredEoa"), cache := sampleCache, lookups := [] } ∧
    getAddressType sampleEnv "0xs" ["0xs"] sampleCache 100 1 false =
      { result := Except.ok (some "ScamAddress")
        cache := [("0xa", "EoaWithLowNonce"), ("0xb", "EoaWithHighNonce"), ("0xc", "IgnoredEoa"),
                  ("0xs", "ScamAddress")]
        lookups := [] } :=
  ⟨rfl, rfl, rfl, rfl⟩

end IcePhishing

namespace FlashbotsDetector

open AssetDrained (Failure)

theorem returned_length_le (getTransactionReceipt : String → Except Failure (List Log))
    (receiptArrival : Nat → Nat) (s : State) (response : Except Failure (List Block)) :
    (returned (handleBlock getTransactionReceipt receiptArrival s response)).length ≤ 4 := by
  unfold handleBlock returned
  cases response with
  | error e => simp
  | ok blocks =>
    simp only []
    split <;> rename_i h
    · split at h
      · simp only [Except.ok.injEq] at h
        cases h
      · cases h
        simp [List.length_take]
    · exact Nat.zero_le _

theorem settleOrder_singleton {α : Type} (rank : Nat → Nat) (j : Nat) (x : α) :
    AssetDrained.settleOrder rank j [] [x] = [x] := by
  simp [AssetDrained.settleOrder, AssetDrained.insertAt]

theorem first_call_state (receiptArrival : Nat → Nat) :
    (handleBlock sampleReceipt receiptArrival { cachedFindings := [], lastBlockNumber := 0 }
        (Except.ok firstAnswer)).2 =
      { cachedFindings := [sampleFinding "0xh1" 100, sampleFinding "0xh2" 100]
        lastBlockNumber := 100 } := by
  have hlast : assignLastBlockNumber sampleReceipt receiptArrival 0 firstAnswer = 100 := by
    have himm : (firstAnswer.filter fun block =>
        match blockFindings sampleReceipt 0 block with
        | Except.ok (some _) => true
        | _ => false) = firstAnswer := rfl
    unfold assignLastBlockNumber settledBlocks
    simp only [himm]
    have h₁ : (firstAnswer.filter fun block =>
        (block.transactions.filter fun transaction =>
          decide (transaction.bundle_type ≠ "mempool")).isEmpty) = [] := rfl
    have h₂ : (firstAnswer.filter fun block =>
        !(block.transactions.filter fun transaction =>
          decide (transaction.bundle_type ≠ "mempool")).isEmpty) = firstAnswer := rfl
    rw [h₁, h₂]
    unfold firstAnswer
    rw [settleOrder_singleton]
    rfl
  have hstate : (handleBlock sampleReceipt receiptArrival
        { cachedFindings := [], lastBlockNumber := 0 } (Except.ok firstAnswer)).2 =
      { cachedFindings := [sampleFinding "0xh1" 100, sampleFinding "0xh2" 100]
        lastBlockNumber := assignLastBlockNumber sampleReceipt receiptArrival 0 firstAnswer } :=
    rfl
  rw [hstate, hlast]

/-- C27, evaluated on two calls.  The first call produces two findings and
returns them; the queue then holds two findings, fewer than four, so the second
call removes nothing and returns the same two findings again, followed by the
new one, in whatever order the receipts arrive.  Every call returns at most four
findings. -/
theorem returned_findings_repeat :
    (∀ (getTransactionReceipt : String → Except Failure (List Log))
        (receiptArrival : Nat → Nat) (s : State) (response : Except Failure (List Block)),
      (returned (handleBlock getTransactionReceipt receiptArrival s response)).length ≤ 4) ∧
    (∀ receiptArrival : Nat → Nat,
      returned (handleBlock sampleReceipt receiptArrival
          { cachedFindings := [], lastBlockNumber := 0 } (Except.ok firstAnswer)) =
        [sampleFinding "0xh1" 100, sampleFinding "0xh2" 100]) ∧
    (∀ first second : Nat → Nat,
      returned (handleBlock sampleReceipt second
          (handleBlock sampleReceipt first { cachedFindings := [], lastBlockNumber := 0 }
            (Except.ok firstAnswer)).2
          (Except.ok secondAnswer)) =
        [sampleFinding "0xh1" 100, sampleFinding "0xh2" 100, sampleFinding "0xh3" 101]) := by
  refine ⟨returned_length_le, fun _ => rfl, ?_⟩
  intro first second
  rw [first_call_state first]
  rfl

/-- The order of the assignments: when the answer lists block 102 with a bundle
transaction before block 101 without one, block 101 assigns first and
`lastBlockNumber` ends at 102; when both blocks have a bundle transaction and
the receipts of block 101 arrive last, it ends at 101. -/
theorem last_block_number_order :
    (∀ receiptArrival : Nat → Nat,
      (handleBlock sampleReceipt receiptArrival { cachedFindings := [], lastBlockNumber := 0 }
        (Except.ok mixedAnswer)).2.lastBlockNumber = 102) ∧
    (handleBlock sampleReceipt (fun j => j) { cachedFindings := [], lastBlockNumber := 0 }
        (Except.ok bundleAnswer)).2.lastBlockNumber = 101 := by
  refine ⟨?_, rfl⟩
  intro receiptArrival
  show assignLastBlockNumber sampleReceipt receiptArrival 0 mixedAnswer = 102
  unfold assignLastBlockNumber settledBlocks
  have h₀ : (mixedAnswer.filter fun block =>
      match blockFindings sampleReceipt 0 block with
      | Except.ok (some _) => true
      | _ => false) = mixedAnswer := rfl
  simp only [h₀]
  have h₁ : (mixedAnswer.filter fun block =>
      (block.transactions.filter fun transaction =>
        decide (transaction.bundle_type ≠ "mempool")).isEmpty) =
      [{ transactions := [sampleMempoolTransaction "0xh8"], block_number := 101 }] := rfl
  have h₂ : (mixedAnswer.filter fun block =>
      !(block.transactions.filter fun transaction =>
        decide (transaction.bundle_type ≠ "mempool")).isEmpty) =
      [{ transactions := [sampleTransaction "0xh9"], block_number := 102 }] := rfl
  rw [h₁, h₂, settleOrder_singleton]
  rfl

end FlashbotsDetector
